import Mathlib

/-!
# GoalsBot: the goal-accountability engine

A shallow embedding of `internal/models`, `internal/repository`,
`internal/service` and the goal dialog of `internal/handlers` of the GoalsBot
repository, and the properties of the specification proved or refuted on it.

## How the code is modelled

* The PostgreSQL database behind `repository.Repository` is the record `DB`: one list of
  rows per table, rows in insertion order, and the two id sequences.  Every SQL statement
  of the repository is one function on `DB`.
* The schema is not part of the sources.  What the statements themselves rely on is kept:
  `ON CONFLICT (chat_id, user_id)` and `ON CONFLICT (goal_id, voter_id)` are upserts on
  those keys, `RETURNING id` draws from a sequence.  The uniqueness of the keys is the
  predicate `DB.WellKeyed`; it is a hypothesis where a property needs it, and
  `reachable_inv` shows that every database the service can reach has it.
* A repository method is a function on `Repository`, which pairs the database with a
  script of store failures: every database call consumes one entry of the script, `true`
  meaning that this call returns an error and writes nothing.  The empty script means that
  no call fails.  The repository never opens a database transaction, so every statement
  takes effect on its own.
* Go's `error` result is `Option Error` (`none` is `nil`), a `(T, error)` result is
  `Except Error T`; the repository after the call is returned next to it.
* Go `int` values are `Int`; `/` and `%` are the truncating `Int.tdiv` and `Int.tmod`.
  The service computes `-bet`, `bet / n`, `bet % n`, `amount + 1`, `len - 1` and
  `(totalVoters + 1) / 2`, none of which leaves the 64-bit range for a stake and a member
  count in range; `balance + amount` is computed by the database, which reports an
  overflow as an error, that is, as a store failure.
* `SELECT ... FROM users u INNER JOIN chat_members cm` has no `ORDER BY`; its rows are
  taken in the insertion order of the membership rows.
* The handler is the record `BotHandler`: the store, the map of dialog states and the list
  of messages sent.  `strconv.Atoi` and `time.Parse` are modelled from their documentation;
  a `time.Time` is its Unix time in seconds, and the clock and `AddDate` are parameters.
-/

namespace GoalsBot

/-! ## models -/

/-- Row of table `users` (`models.User`); `created_at` is not modelled. -/
structure User where
  id : Int
  tgID : Int
  username : String
  balance : Int
  deriving DecidableEq, Repr

/-- Row of table `goals` (`models.Goal` together with the columns `chat_id`
and `proof_message` written by the repository); `created_at` is not
modelled.  No statement of the repository writes `votingStartedAt`. -/
structure Goal where
  id : Int
  userID : Int
  chatID : Int
  title : String
  description : String
  deadline : Int
  bet : Int
  status : String
  proofMessage : Option String
  votingStartedAt : Option Int
  deriving DecidableEq, Repr

/-- Row of table `votes` (`models.Vote`), without `id` and `created_at`. -/
structure Vote where
  goalID : Int
  voterID : Int
  vote : Bool
  deriving DecidableEq, Repr

/-- Row of table `transactions` as inserted by `CreateTransaction`. -/
structure Transaction where
  fromUser : Int
  toUser : Int
  amount : Int
  reason : String
  goalID : Option Int
  deriving DecidableEq, Repr

/-- Row of table `chat_members`. -/
structure ChatMember where
  chatID : Int
  userID : Int
  deriving DecidableEq, Repr

/-- The errors the service and the repository return.  The service builds its
errors with `fmt.Errorf`; each message is one constructor here. -/
inductive Error where
  /-- Error `sql.ErrNoRows` from a `QueryRow(...).Scan`. -/
  | notFound
  /-- Any other error of the database driver. -/
  | storeFailure
  /-- Message "недостаточно звезд на балансе" (`CreateGoal`). -/
  | insufficientBalance
  /-- Message "цель должна быть активной ..." (`SubmitProof`), "голосование доступно
  только ..." (`VoteOnGoal`), "цель должна быть в статусе 'done_pending'"
  (`FinalizeGoal`). -/
  | invalidState
  /-- Message "вы не можете голосовать за свою собственную цель" (`VoteOnGoal`). -/
  | selfVoteForbidden
  /-- Message "нет участников для распределения штрафа" (`FailGoal`). -/
  | noRecipients
  deriving DecidableEq, Repr

/-! ## repository -/

/-- The database: the five tables and the two id sequences the inserts with
`RETURNING id` draw from. -/
structure DB where
  users : List User
  goals : List Goal
  votes : List Vote
  chatMembers : List ChatMember
  transactions : List Transaction
  nextUserID : Int
  nextGoalID : Int
  deriving DecidableEq, Repr

/-- The database right after the schema was created. -/
def DB.empty : DB :=
  { users := [], goals := [], votes := [], chatMembers := [], transactions := [],
    nextUserID := 1, nextGoalID := 1 }

/-- The repository handle: the database and the script of store failures of
the calls to come. -/
structure Repository where
  db : DB
  faults : List Bool
  deriving DecidableEq, Repr

/-- One database call: does it fail, and the handle afterwards. -/
def Repository.tick (r : Repository) : Bool × Repository :=
  match r.faults with
  | [] => (false, r)
  | b :: rest => (b, { r with faults := rest })

/-- Statement `UPDATE users SET balance = balance + $1 WHERE id = $2`. -/
def DB.updateUserBalance (db : DB) (userID amount : Int) : DB :=
  { db with users := db.users.map fun u =>
      if u.id = userID then { u with balance := u.balance + amount } else u }

/-- Statement `UPDATE goals SET status = $1 WHERE id = $2`. -/
def DB.updateGoalStatus (db : DB) (goalID : Int) (status : String) : DB :=
  { db with goals := db.goals.map fun g =>
      if g.id = goalID then { g with status := status } else g }

/-- Statement `UPDATE goals SET proof_message = $1, status = 'done_pending' WHERE id = $2`. -/
def DB.updateGoalProof (db : DB) (goalID : Int) (proof : String) : DB :=
  { db with goals := db.goals.map fun g =>
      if g.id = goalID then
        { g with proofMessage := some proof, status := "done_pending" }
      else g }

/-- Statement `INSERT INTO votes ... ON CONFLICT (goal_id, voter_id) DO UPDATE SET vote = $3`. -/
def DB.createVote (db : DB) (goalID voterID : Int) (vote : Bool) : DB :=
  if db.votes.any (fun v => v.goalID = goalID ∧ v.voterID = voterID) then
    { db with votes := db.votes.map fun v =>
        if v.goalID = goalID ∧ v.voterID = voterID then { v with vote := vote } else v }
  else
    { db with votes := db.votes ++ [{ goalID := goalID, voterID := voterID, vote := vote }] }

/-- Statement `INSERT INTO chat_members ... ON CONFLICT (chat_id, user_id) DO NOTHING`. -/
def DB.addChatMember (db : DB) (chatID userID : Int) : DB :=
  if db.chatMembers.any (fun m => m.chatID = chatID ∧ m.userID = userID) then db
  else { db with chatMembers := db.chatMembers ++ [{ chatID := chatID, userID := userID }] }

/-- Statement `INSERT INTO transactions (from_user_id, to_user_id, amount, reason, goal_id)`. -/
def DB.createTransaction (db : DB) (fromUserID toUserID amount : Int) (reason : String)
    (goalID : Option Int) : DB :=
  { db with transactions := db.transactions ++
      [{ fromUser := fromUserID, toUser := toUserID, amount := amount, reason := reason,
         goalID := goalID }] }

/-- The rows of `SELECT u.* FROM users u INNER JOIN chat_members cm ON u.id = cm.user_id
WHERE cm.chat_id = $1`, in the insertion order of the membership rows. -/
def DB.chatMembersOf (db : DB) (chatID : Int) : List User :=
  (db.chatMembers.filter fun m => m.chatID = chatID).flatMap fun m =>
    db.users.filter fun u => u.id = m.userID

/-- The row of `SELECT ... FROM goals WHERE id = $1`, when there is one. -/
def DB.findGoal (db : DB) (goalID : Int) : Option Goal :=
  db.goals.find? fun g => g.id = goalID

/-- The row of `SELECT ... FROM users WHERE id = $1`, when there is one. -/
def DB.findUser (db : DB) (userID : Int) : Option User :=
  db.users.find? fun u => u.id = userID

/-- The pair of counts selected by `CountVotes`. -/
def DB.countVotes (db : DB) (goalID : Int) : Int × Int :=
  (((db.votes.filter fun v => v.goalID = goalID ∧ v.vote = true).length : Int),
   ((db.votes.filter fun v => v.goalID = goalID ∧ v.vote = false).length : Int))

/-- Statement `INSERT INTO goals (...) VALUES (..., 'active') RETURNING ...`: the new row. -/
def DB.newGoal (db : DB) (userID chatID : Int) (title description : String) (deadline bet : Int) :
    Goal :=
  { id := db.nextGoalID, userID := userID, chatID := chatID, title := title,
    description := description, deadline := deadline, bet := bet, status := "active",
    proofMessage := none, votingStartedAt := none }

/-- Statement `INSERT INTO users (tg_id, username, balance) VALUES ($1, $2, 100) RETURNING ...`:
the new row. -/
def DB.newUser (db : DB) (tgID : Int) (username : String) : User :=
  { id := db.nextUserID, tgID := tgID, username := username, balance := 100 }

/-- The database after the `INSERT INTO goals`: the row is appended and the id sequence
advances. -/
def DB.insertGoal (db : DB) (goal : Goal) : DB :=
  { db with goals := db.goals ++ [goal], nextGoalID := db.nextGoalID + 1 }

/-- The database after the `INSERT INTO users`: the row is appended and the id sequence
advances. -/
def DB.insertUser (db : DB) (user : User) : DB :=
  { db with users := db.users ++ [user], nextUserID := db.nextUserID + 1 }

namespace Repository

/-- Method `Repository.GetOrCreateUser`: two database calls when the user is new. -/
def GetOrCreateUser (r : Repository) (tgID : Int) (username : String) :
    Except Error User × Repository :=
  match r.tick with
  | (true, r1) => (.error .storeFailure, r1)
  | (false, r1) =>
    match r1.db.users.find? fun u => u.tgID = tgID with
    | some user => (.ok user, r1)
    | none =>
      match r1.tick with
      | (true, r2) => (.error .storeFailure, r2)
      | (false, r2) =>
        let user := r2.db.newUser tgID username
        (.ok user, { r2 with db := r2.db.insertUser user })

/-- Method `Repository.UpdateUserBalance`. -/
def UpdateUserBalance (r : Repository) (userID amount : Int) : Option Error × Repository :=
  match r.tick with
  | (true, r1) => (some .storeFailure, r1)
  | (false, r1) => (none, { r1 with db := r1.db.updateUserBalance userID amount })

/-- Method `Repository.GetUserBalance`. -/
def GetUserBalance (r : Repository) (userID : Int) : Except Error Int × Repository :=
  match r.tick with
  | (true, r1) => (.error .storeFailure, r1)
  | (false, r1) =>
    match r1.db.findUser userID with
    | some u => (.ok u.balance, r1)
    | none => (.error .notFound, r1)

/-- Method `Repository.CreateGoal`. -/
def CreateGoal (r : Repository) (userID chatID : Int) (title description : String)
    (deadline bet : Int) : Except Error Goal × Repository :=
  match r.tick with
  | (true, r1) => (.error .storeFailure, r1)
  | (false, r1) =>
    let goal := r1.db.newGoal userID chatID title description deadline bet
    (.ok goal, { r1 with db := r1.db.insertGoal goal })

/-- Method `Repository.GetGoal`. -/
def GetGoal (r : Repository) (goalID : Int) : Except Error Goal × Repository :=
  match r.tick with
  | (true, r1) => (.error .storeFailure, r1)
  | (false, r1) =>
    match r1.db.findGoal goalID with
    | some g => (.ok g, r1)
    | none => (.error .notFound, r1)

/-- Method `Repository.UpdateGoalStatus`. -/
def UpdateGoalStatus (r : Repository) (goalID : Int) (status : String) :
    Option Error × Repository :=
  match r.tick with
  | (true, r1) => (some .storeFailure, r1)
  | (false, r1) => (none, { r1 with db := r1.db.updateGoalStatus goalID status })

/-- Method `Repository.UpdateGoalProof`. -/
def UpdateGoalProof (r : Repository) (goalID : Int) (proof : String) :
    Option Error × Repository :=
  match r.tick with
  | (true, r1) => (some .storeFailure, r1)
  | (false, r1) => (none, { r1 with db := r1.db.updateGoalProof goalID proof })

/-- Method `Repository.CreateVote`. -/
def CreateVote (r : Repository) (goalID voterID : Int) (vote : Bool) :
    Option Error × Repository :=
  match r.tick with
  | (true, r1) => (some .storeFailure, r1)
  | (false, r1) => (none, { r1 with db := r1.db.createVote goalID voterID vote })

/-- Method `Repository.CountVotes`. -/
def CountVotes (r : Repository) (goalID : Int) : Except Error (Int × Int) × Repository :=
  match r.tick with
  | (true, r1) => (.error .storeFailure, r1)
  | (false, r1) => (.ok (r1.db.countVotes goalID), r1)

/-- Method `Repository.AddChatMember`. -/
def AddChatMember (r : Repository) (chatID userID : Int) : Option Error × Repository :=
  match r.tick with
  | (true, r1) => (some .storeFailure, r1)
  | (false, r1) => (none, { r1 with db := r1.db.addChatMember chatID userID })

/-- Method `Repository.GetChatMembers`. -/
def GetChatMembers (r : Repository) (chatID : Int) : Except Error (List User) × Repository :=
  match r.tick with
  | (true, r1) => (.error .storeFailure, r1)
  | (false, r1) => (.ok (r1.db.chatMembersOf chatID), r1)

/-- Method `Repository.CreateTransaction`. -/
def CreateTransaction (r : Repository) (fromUserID toUserID amount : Int) (reason : String)
    (goalID : Option Int) : Option Error × Repository :=
  match r.tick with
  | (true, r1) => (some .storeFailure, r1)
  | (false, r1) =>
    (none, { r1 with db := r1.db.createTransaction fromUserID toUserID amount reason goalID })

end Repository

/-! ## service -/

namespace Service

/-- Method `Service.RegisterUser`. -/
def RegisterUser (r : Repository) (tgID : Int) (username : String) (chatID : Int) :
    Except Error User × Repository :=
  match r.GetOrCreateUser tgID username with
  | (.error e, r1) => (.error e, r1)
  | (.ok user, r1) =>
    match r1.AddChatMember chatID user.id with
    | (some e, r2) => (.error e, r2)
    | (none, r2) => (.ok user, r2)

/-- Method `Service.CreateGoal`. -/
def CreateGoal (r : Repository) (userID chatID : Int) (title description : String)
    (deadline bet : Int) : Except Error Goal × Repository :=
  match r.GetUserBalance userID with
  | (.error e, r1) => (.error e, r1)
  | (.ok balance, r1) =>
    if balance < bet then (.error .insufficientBalance, r1)
    else
      match r1.CreateGoal userID chatID title description deadline bet with
      | (.error e, r2) => (.error e, r2)
      | (.ok goal, r2) => (.ok goal, r2)

/-- Method `Service.SubmitProof`. -/
def SubmitProof (r : Repository) (goalID : Int) (proof : String) : Option Error × Repository :=
  match r.GetGoal goalID with
  | (.error e, r1) => (some e, r1)
  | (.ok goal, r1) =>
    if goal.status ≠ "active" then (some .invalidState, r1)
    else r1.UpdateGoalProof goalID proof

/-- Method `Service.VoteOnGoal`. -/
def VoteOnGoal (r : Repository) (goalID voterID : Int) (vote : Bool) :
    Option Error × Repository :=
  match r.GetGoal goalID with
  | (.error e, r1) => (some e, r1)
  | (.ok goal, r1) =>
    if goal.status ≠ "done_pending" then (some .invalidState, r1)
    else if goal.userID = voterID then (some .selfVoteForbidden, r1)
    else r1.CreateVote goalID voterID vote

/-- The `recipients` of `Service.FailGoal`: the members whose id is not the goal
creator's, in the order of `members`. -/
def recipientsOf (members : List User) (goalUserID : Int) : List User :=
  members.filter fun member => member.id ≠ goalUserID

/-- The `amount` of the loop of `Service.FailGoal` at index `i`. -/
def shareAmount (amountPerPerson remainder i : Int) : Int :=
  if i < remainder then amountPerPerson + 1 else amountPerPerson

/-- The loop `for i, recipient := range recipients` of `Service.FailGoal`, from
index `i` on: credit, then record the transaction; the first error ends it. -/
def distribute (goalUserID goalID amountPerPerson remainder : Int) :
    Int → List User → Repository → Option Error × Repository
  | _, [], r => (none, r)
  | i, recipient :: rest, r =>
    let amount := shareAmount amountPerPerson remainder i
    match r.UpdateUserBalance recipient.id amount with
    | (some e, r1) => (some e, r1)
    | (none, r1) =>
      match r1.CreateTransaction goalUserID recipient.id amount "penalty_distribution"
          (some goalID) with
      | (some e, r2) => (some e, r2)
      | (none, r2) => distribute goalUserID goalID amountPerPerson remainder (i + 1) rest r2

/-- Method `Service.FailGoal`. -/
def FailGoal (r : Repository) (goalID chatID : Int) : Option Error × Repository :=
  match r.GetGoal goalID with
  | (.error e, r1) => (some e, r1)
  | (.ok goal, r1) =>
    match r1.GetChatMembers chatID with
    | (.error e, r2) => (some e, r2)
    | (.ok members, r2) =>
      let recipients := recipientsOf members goal.userID
      if recipients.length = 0 then (some .noRecipients, r2)
      else
        match r2.UpdateUserBalance goal.userID (-goal.bet) with
        | (some e, r3) => (some e, r3)
        | (none, r3) =>
          let amountPerPerson := goal.bet.tdiv (recipients.length : Int)
          let remainder := goal.bet.tmod (recipients.length : Int)
          match distribute goal.userID goalID amountPerPerson remainder 0 recipients r3 with
          | (some e, r4) => (some e, r4)
          | (none, r4) => r4.UpdateGoalStatus goalID "failed"

/-- The three results of a successful `Service.FinalizeGoal`; the Go code returns
them as the message "Цель выполнена", "Цель провалена" or "Ожидаем больше
голосов". -/
inductive Outcome where
  | success
  | failed
  | pending
  deriving DecidableEq, Repr

/-- The `totalVoters` of `Service.FinalizeGoal`. -/
def totalVoters (memberCount : Int) : Int := memberCount - 1

/-- The `requiredVotes` of `Service.FinalizeGoal`. -/
def requiredVotes (memberCount : Int) : Int := (totalVoters memberCount + 1).tdiv 2

/-- Method `Service.FinalizeGoal`. -/
def FinalizeGoal (r : Repository) (goalID chatID : Int) : Except Error Outcome × Repository :=
  match r.GetGoal goalID with
  | (.error e, r1) => (.error e, r1)
  | (.ok goal, r1) =>
    if goal.status ≠ "done_pending" then (.error .invalidState, r1)
    else
      match r1.GetChatMembers chatID with
      | (.error e, r2) => (.error e, r2)
      | (.ok members, r2) =>
        match r2.CountVotes goalID with
        | (.error e, r3) => (.error e, r3)
        | (.ok (yesCount, noCount), r3) =>
          let totalVoters := totalVoters (members.length : Int)
          let requiredVotes := requiredVotes (members.length : Int)
          if yesCount ≥ requiredVotes then
            match r3.UpdateGoalStatus goalID "success" with
            | (some e, r4) => (.error e, r4)
            | (none, r4) => (.ok .success, r4)
          else if noCount > totalVoters - requiredVotes then
            match FailGoal r3 goalID chatID with
            | (some e, r4) => (.error e, r4)
            | (none, r4) => (.ok .failed, r4)
          else (.ok .pending, r3)

/-- Method `Service.GetUserStats`, without the text it formats: it looks the user up by
`GetOrCreateUser(int64(userID), "")`. -/
def GetUserStats (r : Repository) (userID : Int) : Option Error × Repository :=
  match r.GetOrCreateUser userID "" with
  | (.error e, r1) => (some e, r1)
  | (.ok _, r1) =>
    match r1.tick with
    | (true, r2) => (some .storeFailure, r2)
    | (false, r2) => (none, r2)

/-- Method `Service.GetOrCreateUser`: the call of the repository, made public. -/
def GetOrCreateUser (r : Repository) (tgID : Int) (username : String) :
    Except Error User × Repository :=
  r.GetOrCreateUser tgID username

end Service

/-! ## handlers

`parseDeadline` and `handleStateInput` of `internal/handlers`.  The two library functions
the parser calls are modelled from their documentation: `strconv.Atoi` (optional sign,
decimal digits, range of a 64-bit `int`) and `time.Parse` with the layout `"2006-01-02"`
(four, two and two digits, a month from 1 to 12, a day that exists in that month).  A
`time.Time` is its Unix time in seconds; the library keeps the seconds since year 1 in an
`int64`.  `time.Now()` is a parameter.  `AddDate(0, 0, days)` is modelled from the library
for a time zone with a fixed offset to UTC: it moves the time by `days` times 86400
seconds, computed in 64-bit arithmetic that wraps around. -/

/-- Go's test `'0' <= c && c <= '9'` on one character of the input. -/
def isDigit (c : Char) : Bool := decide ('0' ≤ c ∧ c ≤ '9')

/-- The value of a decimal digit character. -/
def digitValue (c : Char) : Nat := c.toNat - 48

/-- The number a string of decimal digits denotes, read from the left as the parsers do:
`n = n*10 + digit`. -/
def digitsValue (cs : List Char) : Nat := cs.foldl (fun n c => 10 * n + digitValue c) 0

/-- A non-empty string of decimal digits and nothing else: its value. -/
def parseDigits (cs : List Char) : Option Nat :=
  if cs ≠ [] ∧ cs.all isDigit then some (digitsValue cs) else none

/-- The largest value of Go's `int` on a 64-bit platform. -/
def maxInt : Int := 9223372036854775807

/-- The smallest value of Go's `int` on a 64-bit platform. -/
def minInt : Int := -9223372036854775808

/-- Function `strconv.Atoi`: the number when the returned error is `nil`, `none` for a
syntax error or a value out of the range of `int`. -/
def strconv.Atoi (s : String) : Option Int :=
  match s.toList with
  | [] => none
  | c :: rest =>
    if c = '-' then
      (parseDigits rest).bind fun n => if -(n : Int) ≥ minInt then some (-(n : Int)) else none
    else if c = '+' then
      (parseDigits rest).bind fun n => if (n : Int) ≤ maxInt then some (n : Int) else none
    else
      (parseDigits (c :: rest)).bind fun n => if (n : Int) ≤ maxInt then some (n : Int) else none

/-- Function `isLeap` of package `time`. -/
def time.isLeap (year : Nat) : Bool :=
  year % 4 = 0 ∧ (year % 100 ≠ 0 ∨ year % 400 = 0)

/-- Function `daysIn` of package `time`: the number of days of a month, 0 for a month
number outside 1 to 12. -/
def time.daysIn (month year : Nat) : Nat :=
  match month with
  | 1 => 31
  | 2 => if time.isLeap year then 29 else 28
  | 3 => 31
  | 4 => 30
  | 5 => 31
  | 6 => 30
  | 7 => 31
  | 8 => 31
  | 9 => 30
  | 10 => 31
  | 11 => 30
  | 12 => 31
  | _ => 0

/-- The Unix time of `time.Date(year, month, day, 0, 0, 0, 0, time.UTC)` in the proleptic
Gregorian calendar: 86400 times the day number counted from 1970-01-01. -/
def time.unixDate (year month day : Nat) : Int :=
  let y : Int := if month ≤ 2 then (year : Int) - 1 else (year : Int)
  let era : Int := y / 400
  let yoe : Int := y - era * 400
  let mp : Int := if month > 2 then (month : Int) - 3 else (month : Int) + 9
  let doy : Int := (153 * mp + 2) / 5 + (day : Int) - 1
  let doe : Int := yoe * 365 + yoe / 4 - yoe / 100 + doy
  86400 * (era * 146097 + doe - 719468)

/-- Function `time.Parse` with the layout `"2006-01-02"`: year, month and day when the
returned error is `nil`. -/
def time.parseDate (s : String) : Option (Nat × Nat × Nat) :=
  match s.toList with
  | [y1, y2, y3, y4, s1, m1, m2, s2, d1, d2] =>
    if [y1, y2, y3, y4, m1, m2, d1, d2].all isDigit ∧ s1 = '-' ∧ s2 = '-' then
      let year := digitsValue [y1, y2, y3, y4]
      let month := digitsValue [m1, m2]
      let day := digitsValue [d1, d2]
      if month < 1 ∨ 12 < month then none
      else if day < 1 ∨ day > time.daysIn month year then none
      else some (year, month, day)
    else none
  | _ => none

/-- The error of `parseDeadline`, `fmt.Errorf("неверный формат")`. -/
inductive DeadlineError where
  | invalidFormat
  deriving DecidableEq, Repr

/-- The value of an `int64` computation carried out without regard to overflow: `x`
reduced modulo `2^64` into the range from `-2^63` to `2^63 - 1`. -/
def wrapInt64 (x : Int) : Int :=
  (x + 9223372036854775808) % 18446744073709551616 - 9223372036854775808

/-- Constant `unixToInternal` of package `time`: the seconds from 1 January of year 1 to
1 January 1970.  A `time.Time` keeps its seconds since year 1 in an `int64`. -/
def time.unixToInternal : Int := 62135596800

/-- Method `Time.AddDate(0, 0, days)` of the library, for a time zone with a fixed offset
to UTC: `AddDate` passes the day of the month plus `days` to `Date`, which turns the date
into seconds by 64-bit arithmetic.  The result is `days` times 86400 seconds after `t`,
counted in seconds since year 1 and wrapped to the range of `int64`. -/
def time.AddDate (t days : Int) : Int :=
  wrapInt64 (t + time.unixToInternal + 86400 * days) - time.unixToInternal

/-- Method `BotHandler.parseDeadline`; `now` is the value of `time.Now()`. -/
def parseDeadline (now : Int) (input : String) : Except DeadlineError Int :=
  match time.parseDate input with
  | some (year, month, day) => .ok (time.unixDate year month day)
  | none =>
    match strconv.Atoi input with
    | some days => if days > 0 then .ok (time.AddDate now days) else .error .invalidFormat
    | none => .error .invalidFormat

/-- The zero value `time.Time{}`: 1 January of year 1. -/
def time.zero : Int := -62135596800

/-- Struct `UserState`: where one user is in a dialog and what they entered so far.
`GoalData` is a pointer that may be `nil`. -/
structure UserState where
  step : String
  goalData : Option Goal
  title : String
  description : String
  deadline : Int
  bet : Int
  deriving DecidableEq, Repr

/-- The fields of a `tgbotapi.Message` the dialog reads: `From.ID`, `From.UserName`,
`Chat.ID` and `Text`. -/
structure Message where
  fromID : Int
  fromUserName : String
  chatID : Int
  text : String
  deriving DecidableEq, Repr

/-- The messages the dialog sends with `h.bot.Send`, one constructor per text, with the
values the text is formatted from. -/
inductive Reply where
  /-- Text "Введите название цели". -/
  | askTitle
  /-- Text "Введите описание цели". -/
  | askDescription
  /-- Text "Введите срок выполнения ...". -/
  | askDeadline
  /-- Text "Неверный формат даты ...". -/
  | invalidDeadline
  /-- Text "Введите ставку в звездах", with the balance when the user could be read. -/
  | askBet (balance : Option Int)
  /-- Text "Неверное значение. Введите положительное число". -/
  | invalidBet
  /-- Text "Ошибка получения данных пользователя". -/
  | userError (e : Error)
  /-- Text "Недостаточно звезд. У вас: ...". -/
  | insufficient (balance : Int)
  /-- Text "Ошибка создания цели". -/
  | createError (e : Error)
  /-- Text "Цель создана!". -/
  | goalCreated (goal : Goal)
  /-- Text "Ошибка: ..." after a refused proof. -/
  | proofError (e : Error)
  /-- The notification with the two voting buttons. -/
  | proofSubmitted (username : String) (goal : Goal) (proof : String)
  /-- Text "Действие отменено". -/
  | cancelled
  deriving DecidableEq, Repr

/-- Struct `BotHandler`: the store behind `h.service`, the map `h.userStates` from a
Telegram user id to that user's dialog state, and the messages sent through `h.bot`.
Every entry of the map is a pointer made by `&UserState{...}` for that one key, so no two
keys share a state and the map is modelled with the states themselves as values. -/
structure BotHandler where
  service : Repository
  userStates : Int → Option UserState
  sent : List Reply

/-- Call `h.bot.Send(msg)`. -/
def BotHandler.send (h : BotHandler) (reply : Reply) : BotHandler :=
  { h with sent := h.sent ++ [reply] }

/-- Assignment `h.userStates[id] = state`; also an assignment to a field of the state that
the entry of `id` points to. -/
def BotHandler.setState (h : BotHandler) (id : Int) (state : UserState) : BotHandler :=
  { h with userStates := fun k => if k = id then some state else h.userStates k }

/-- Call `delete(h.userStates, id)`. -/
def BotHandler.deleteState (h : BotHandler) (id : Int) : BotHandler :=
  { h with userStates := fun k => if k = id then none else h.userStates k }

/-- Method `BotHandler.handleNewGoal`. -/
def handleNewGoal (h : BotHandler) (message : Message) : BotHandler :=
  (h.setState message.fromID
    { step := "awaiting_title", goalData := none, title := "", description := "",
      deadline := time.zero, bet := 0 }).send .askTitle

/-- Method `BotHandler.handleCancel`. -/
def handleCancel (h : BotHandler) (message : Message) : BotHandler :=
  (h.deleteState message.fromID).send .cancelled

/-- Method `BotHandler.handleStateInput`.  Its only call, in `handleMessage`, passes as
`state` the pointer stored in `h.userStates[message.From.ID]`, so an assignment to a field
of `state` is written to that entry.  `user` is `nil` when `RegisterUser` failed; the
result is `none` where the method dereferences that `nil` pointer. -/
def handleStateInput (now : Int) (h : BotHandler) (message : Message) (state : UserState)
    (user : Option User) : Option BotHandler :=
  if state.step = "awaiting_title" then
    some ((h.setState message.fromID
      { state with title := message.text, step := "awaiting_description" }).send
        .askDescription)
  else if state.step = "awaiting_description" then
    some ((h.setState message.fromID
      { state with description := message.text, step := "awaiting_deadline" }).send
        .askDeadline)
  else if state.step = "awaiting_deadline" then
    match parseDeadline now message.text with
    | .error _ => some (h.send .invalidDeadline)
    | .ok deadline =>
      let h1 := h.setState message.fromID
        { state with deadline := deadline, step := "awaiting_bet" }
      match Service.GetOrCreateUser h1.service message.fromID message.fromUserName with
      | (.error _, r1) => some (({ h1 with service := r1 }).send (.askBet none))
      | (.ok freshUser, r1) =>
        some (({ h1 with service := r1 }).send (.askBet (some freshUser.balance)))
  else if state.step = "awaiting_bet" then
    match strconv.Atoi message.text with
    | none => some (h.send .invalidBet)
    | some bet =>
      if bet ≤ 0 then some (h.send .invalidBet)
      else
        match Service.GetOrCreateUser h.service message.fromID message.fromUserName with
        | (.error e, r1) =>
          some ((({ h with service := r1 }).send (.userError e)).deleteState message.fromID)
        | (.ok freshUser, r1) =>
          if bet > freshUser.balance then
            some (({ h with service := r1 }).send (.insufficient freshUser.balance))
          else
            let state1 : UserState := { state with bet := bet }
            let h1 := ({ h with service := r1 }).setState message.fromID state1
            match Service.CreateGoal h1.service freshUser.id message.chatID state1.title
                state1.description state1.deadline state1.bet with
            | (.error e, r2) =>
              some ((({ h1 with service := r2 }).send (.createError e)).deleteState
                message.fromID)
            | (.ok goal, r2) =>
              some ((({ h1 with service := r2 }).send (.goalCreated goal)).deleteState
                message.fromID)
  else if state.step = "awaiting_proof" then
    match state.goalData with
    | none => some h
    | some goalData =>
      match Service.SubmitProof h.service goalData.id message.text with
      | (some e, r1) => some (({ h with service := r1 }).send (.proofError e))
      | (none, r1) =>
        match Service.GetOrCreateUser r1 message.fromID message.fromUserName with
        | (.ok freshUser, r2) =>
          some ((({ h with service := r2 }).send
            (.proofSubmitted freshUser.username goalData message.text)).deleteState
              message.fromID)
        | (.error _, r2) =>
          match user with
          | none => none
          | some cached =>
            some ((({ h with service := r2 }).send
              (.proofSubmitted cached.username goalData message.text)).deleteState
                message.fromID)
  else some h

/-! ## Derived notions used to state the properties -/

/-- The balance `SELECT balance FROM users WHERE id = $1` reads, 0 when the user has no
row. -/
def DB.balanceOf (db : DB) (userID : Int) : Int :=
  match db.findUser userID with
  | some u => u.balance
  | none => 0

/-- The sum of the balances of all users. -/
def DB.totalBalance (db : DB) : Int := (db.users.map User.balance).sum

/-- The status of the goal with the given id, when the goal exists. -/
def DB.statusOf (db : DB) (goalID : Int) : Option String :=
  (db.findGoal goalID).map Goal.status

/-- The unique keys of the schema: the primary key `users.id`, the primary key `goals.id`,
and the conflict targets `(chat_id, user_id)` of `AddChatMember` and `(goal_id, voter_id)`
of `CreateVote`. -/
structure DB.WellKeyed (db : DB) : Prop where
  users : (db.users.map User.id).Nodup
  goals : (db.goals.map Goal.id).Nodup
  chatMembers : db.chatMembers.Nodup
  votes : (db.votes.map fun v => (v.goalID, v.voterID)).Nodup

/-- The store reached by the loop of `FailGoal` when no database call fails. -/
def Service.creditAll (goalUserID goalID amountPerPerson remainder : Int) :
    Int → List User → DB → DB
  | _, [], db => db
  | i, recipient :: rest, db =>
    Service.creditAll goalUserID goalID amountPerPerson remainder (i + 1) rest
      ((db.updateUserBalance recipient.id
          (Service.shareAmount amountPerPerson remainder i)).createTransaction
        goalUserID recipient.id (Service.shareAmount amountPerPerson remainder i)
        "penalty_distribution" (some goalID))

/-- The transactions the loop of `FailGoal` records from index `i` on. -/
def Service.penaltyTxs (goalUserID goalID amountPerPerson remainder : Int) :
    Int → List User → List Transaction
  | _, [] => []
  | i, recipient :: rest =>
    { fromUser := goalUserID, toUser := recipient.id,
      amount := Service.shareAmount amountPerPerson remainder i,
      reason := "penalty_distribution", goalID := some goalID } ::
      Service.penaltyTxs goalUserID goalID amountPerPerson remainder (i + 1) rest

/-- The database `FailGoal` leaves for goal row `g` when no database call fails and there
is a recipient: owner debited, loop run, status set. -/
def Service.failGoalDB (db : DB) (goalID chatID : Int) (g : Goal) : DB :=
  let recipients := Service.recipientsOf (db.chatMembersOf chatID) g.userID
  (Service.creditAll g.userID goalID (g.bet.tdiv (recipients.length : Int))
      (g.bet.tmod (recipients.length : Int)) 0 recipients
      (db.updateUserBalance g.userID (-g.bet))).updateGoalStatus goalID "failed"

/-- The writes of the loop of `FailGoal` from index `i` on, in program order: for each
recipient the credit, then the transaction record. -/
def Service.loopWrites (goalUserID goalID amountPerPerson remainder : Int) :
    Int → List User → List (DB → DB)
  | _, [] => []
  | i, recipient :: rest =>
    (fun db => db.updateUserBalance recipient.id
        (Service.shareAmount amountPerPerson remainder i)) ::
    (fun db => db.createTransaction goalUserID recipient.id
        (Service.shareAmount amountPerPerson remainder i) "penalty_distribution"
        (some goalID)) ::
    Service.loopWrites goalUserID goalID amountPerPerson remainder (i + 1) rest

/-- The database after the given writes, applied from left to right. -/
def applyWrites (writes : List (DB → DB)) (db : DB) : DB :=
  writes.foldl (fun d w => w d) db

/-- The same voter submitting one decision after the other on the same goal; the result
of each call is dropped, the store is passed on. -/
def Service.revote (goalID voterID : Int) (r : Repository) (decisions : List Bool) :
    Repository :=
  decisions.foldl (fun r d => (Service.VoteOnGoal r goalID voterID d).2) r

/-- The calls of the service that write to the store. -/
inductive Call where
  | registerUser (tgID : Int) (username : String) (chatID : Int)
  | getOrCreateUser (tgID : Int) (username : String)
  | createGoal (userID chatID : Int) (title description : String) (deadline bet : Int)
  | submitProof (goalID : Int) (proof : String)
  | voteOnGoal (goalID voterID : Int) (vote : Bool)
  | finalizeGoal (goalID chatID : Int)
  | failGoal (goalID chatID : Int)
  | getUserStats (userID : Int)

/-- The store after a call of the service. -/
def Service.run (r : Repository) : Call → Repository
  | .registerUser tgID username chatID => (Service.RegisterUser r tgID username chatID).2
  | .getOrCreateUser tgID username => (r.GetOrCreateUser tgID username).2
  | .createGoal userID chatID title description deadline bet =>
    (Service.CreateGoal r userID chatID title description deadline bet).2
  | .submitProof goalID proof => (Service.SubmitProof r goalID proof).2
  | .voteOnGoal goalID voterID vote => (Service.VoteOnGoal r goalID voterID vote).2
  | .finalizeGoal goalID chatID => (Service.FinalizeGoal r goalID chatID).2
  | .failGoal goalID chatID => (Service.FailGoal r goalID chatID).2
  | .getUserStats userID => (Service.GetUserStats r userID).2

/-- The databases the service can reach from the empty database, by any sequence of calls
with any arguments, under any scripts of store failures. -/
inductive Reachable : DB → Prop where
  | init : Reachable DB.empty
  | step (db : DB) (faults : List Bool) (c : Call) :
      Reachable db → Reachable (Service.run ⟨db, faults⟩ c).db

/-- What the id sequences and the guards of the service maintain: ids come from the
sequences, the unique keys hold, votes refer to issued goal ids, and no vote is by the
owner of its goal. -/
structure DB.Inv (db : DB) : Prop where
  userIds : ∀ u ∈ db.users, u.id < db.nextUserID
  goalIds : ∀ g ∈ db.goals, g.id < db.nextGoalID
  keys : db.WellKeyed
  voteGoals : ∀ v ∈ db.votes, v.goalID < db.nextGoalID
  noSelfVote : ∀ v ∈ db.votes, ∀ g ∈ db.goals, g.id = v.goalID → g.userID ≠ v.voterID

/-- The number of distinct voters with a vote stored for the goal. -/
def DB.distinctVoters (db : DB) (goalID : Int) : Nat :=
  ((db.votes.filter fun v => v.goalID = goalID).map Vote.voterID).dedup.length

/-- The vote rows stored for the pair `(goalID, voterID)`. -/
def DB.votesOf (db : DB) (goalID voterID : Int) : List Vote :=
  db.votes.filter fun v => v.goalID = goalID ∧ v.voterID = voterID

/-- A calendar date that the form YYYY-MM-DD can write: a year of at most four digits, a
month from 1 to 12 and a day that exists in that month. -/
def ValidDate (year month day : Nat) : Prop :=
  year ≤ 9999 ∧ 1 ≤ month ∧ month ≤ 12 ∧ 1 ≤ day ∧ day ≤ time.daysIn month year

/-- The text YYYY-MM-DD of a date, zero-padded. -/
def dateText (year month day : Nat) : String :=
  String.mk [Nat.digitChar (year / 1000 % 10), Nat.digitChar (year / 100 % 10),
    Nat.digitChar (year / 10 % 10), Nat.digitChar (year % 10), '-',
    Nat.digitChar (month / 10 % 10), Nat.digitChar (month % 10), '-',
    Nat.digitChar (day / 10 % 10), Nat.digitChar (day % 10)]

/-- The string `s` is a decimal text of the integer `d`: an optional sign followed by one or
more decimal digits whose positional value is the magnitude of `d`. -/
def IsDecimalText (s : String) (d : Int) : Prop :=
  ∃ sign ds : List Char, (sign = [] ∨ sign = ['+'] ∨ sign = ['-']) ∧ ds ≠ [] ∧
    (∀ c ∈ ds, isDigit c = true) ∧ s.toList = sign ++ ds ∧
    d = (if sign = ['-'] then -1 else 1) * ((Nat.ofDigits 10 (ds.reverse.map digitValue) : Nat) : Int)

/-- A time the library can hold: its seconds since year 1 fit an `int64`. -/
def time.Representable (t : Int) : Prop :=
  minInt ≤ t + time.unixToInternal ∧ t + time.unixToInternal ≤ maxInt

/-- The quorum of §4.3 in the words of the specification: `required = ceil(totalVoters / 2)`,
the ceiling of the rational quotient. -/
def specRequired (totalVoters : Int) : Int := ⌈(totalVoters : ℚ) / 2⌉

/-- The split of §4.4 in the words of the specification: the recipients are the members
other than the owner, in order; with `n` recipients the one at 0-based position `i` gets
`stake / n` plus one unit when `i < stake mod n`.  The result pairs each recipient id with
its share. -/
def specShares (stake : Int) (members : List User) (owner : Int) : List (Int × Int) :=
  let recipients := members.filter fun u => u.id ≠ owner
  let n : Int := recipients.length
  recipients.enum.map fun p => (p.2.id, stake / n + if (p.1 : Int) < stake % n then 1 else 0)

/-! ## Test data -/

/-- A user row with the given id and balance. -/
def mkUser (id balance : Int) : User :=
  { id := id, tgID := 1000 + id, username := "u", balance := balance }

/-- A database with the owner (id 1) and four other members (ids 2 to 5) in chat
7, and goal 10 of the owner with stake 30 in the given status. -/
def sampleDB (status : String) (votes : List Vote) : DB :=
  { users := [mkUser 1 100, mkUser 2 100, mkUser 3 100, mkUser 4 100, mkUser 5 100],
    goals := [{ id := 10, userID := 1, chatID := 7, title := "t", description := "d",
                deadline := 0, bet := 30, status := status, proofMessage := some "p",
                votingStartedAt := none }],
    votes := votes,
    chatMembers := [⟨7, 1⟩, ⟨7, 2⟩, ⟨7, 3⟩, ⟨7, 4⟩, ⟨7, 5⟩],
    transactions := [],
    nextUserID := 6, nextGoalID := 11 }

/-- The sample database with goal 10 in status `success`, after the owner created a
second goal: goal 11, stake 30, status `active`, no proof and no voting-start timestamp. -/
def sampleActiveDB : DB :=
  (Service.CreateGoal ⟨sampleDB "success" [], []⟩ 1 7 "run" "5 km" 20 30).2.db

/-- A dialog of the owner of the sample database (Telegram id 1001) at the given step,
with title, description and deadline already entered. -/
def sampleState (step : String) : UserState :=
  { step := step, goalData := none, title := "run", description := "5 km", deadline := 20,
    bet := 0 }

/-- A handler over the sample database, with the given script of store failures, in which
the owner is in the given dialog state and nobody else is in a dialog. -/
def sampleHandler (faults : List Bool) (state : UserState) : BotHandler :=
  { service := ⟨sampleDB "success" [], faults⟩,
    userStates := fun k => if k = 1001 then some state else none,
    sent := [] }

/-- A message of the owner of the sample database in chat 7. -/
def sampleMessage (text : String) : Message :=
  { fromID := 1001, fromUserName := "u", chatID := 7, text := text }

/-! ## Basic facts about the repository -/

section Basics

open Service

@[simp] theorem tick_nil (db : DB) : Repository.tick ⟨db, []⟩ = (false, ⟨db, []⟩) := rfl

theorem tick_db (r : Repository) : r.tick.2.db = r.db := by
  unfold Repository.tick
  split <;> rfl

end Basics


/-! ## The penalty distribution when no database call fails -/

section Distribution

open Service

theorem distribute_nil_faults (o gid app rem : Int) (recips : List User) :
    ∀ (i : Int) (db : DB),
      distribute o gid app rem i recips ⟨db, []⟩ = (none, ⟨creditAll o gid app rem i recips db, []⟩) := by
  induction recips with
  | nil => intro i db; rfl
  | cons u rest ih =>
    intro i db
    simp [distribute, creditAll, Repository.UpdateUserBalance, Repository.CreateTransaction, ih]

theorem creditAll_transactions (o gid app rem : Int) (recips : List User) :
    ∀ (i : Int) (db : DB),
      (creditAll o gid app rem i recips db).transactions
        = db.transactions ++ penaltyTxs o gid app rem i recips := by
  induction recips with
  | nil => intro i db; simp [creditAll, penaltyTxs]
  | cons u rest ih =>
    intro i db
    simp [creditAll, penaltyTxs, ih, DB.createTransaction, DB.updateUserBalance]

theorem creditAll_frame (o gid app rem : Int) (recips : List User) :
    ∀ (i : Int) (db : DB),
      (creditAll o gid app rem i recips db).goals = db.goals ∧
      (creditAll o gid app rem i recips db).votes = db.votes ∧
      (creditAll o gid app rem i recips db).chatMembers = db.chatMembers ∧
      (creditAll o gid app rem i recips db).nextUserID = db.nextUserID ∧
      (creditAll o gid app rem i recips db).nextGoalID = db.nextGoalID := by
  induction recips with
  | nil => intro i db; simp [creditAll]
  | cons u rest ih =>
    intro i db
    simp [creditAll, ih, DB.createTransaction, DB.updateUserBalance]

theorem penaltyTxs_length (o gid app rem : Int) (recips : List User) :
    ∀ i : Int, (penaltyTxs o gid app rem i recips).length = recips.length := by
  induction recips with
  | nil => intro i; rfl
  | cons u rest ih => intro i; simp [penaltyTxs, ih]

theorem penaltyTxs_tags (o gid app rem : Int) (recips : List User) :
    ∀ i : Int, ∀ t ∈ penaltyTxs o gid app rem i recips,
      t.reason = "penalty_distribution" ∧ t.goalID = some gid ∧ t.fromUser = o := by
  induction recips with
  | nil => intro i t ht; simp [penaltyTxs] at ht
  | cons u rest ih =>
    intro i t ht
    simp only [penaltyTxs, List.mem_cons] at ht
    rcases ht with rfl | ht
    · simp
    · exact ih (i + 1) t ht

/-- The shares handed out from index `i` on add up to the base amount per recipient plus
the part of the remainder that lies in the index range. -/
theorem penaltyTxs_sum (o gid app rem : Int) (recips : List User) :
    ∀ i : Int, 0 ≤ i →
      ((penaltyTxs o gid app rem i recips).map Transaction.amount).sum
        = recips.length * app + (min rem (i + recips.length) - min rem i) := by
  induction recips with
  | nil => intro i _; simp [penaltyTxs]
  | cons u rest ih =>
    intro i hi
    simp only [penaltyTxs, List.map_cons, List.sum_cons, List.length_cons, ih (i + 1) (by omega),
      shareAmount]
    push_cast
    split <;> (rw [Int.min_def, Int.min_def, Int.min_def]; split <;> split <;> split <;> (try ring_nf) <;> (try omega))

/-- With quotient and remainder of a non-negative stake by the recipient count, the shares
add up to the stake. -/
theorem penaltyTxs_sum_stake (o gid s : Int) (hs : 0 ≤ s) (recips : List User)
    (hn : recips ≠ []) :
    ((penaltyTxs o gid (s.tdiv recips.length) (s.tmod recips.length) 0 recips).map
      Transaction.amount).sum = s := by
  have hlen : (0 : Int) < recips.length := by
    have : 0 < recips.length := List.length_pos.mpr hn
    exact_mod_cast this
  have h0 : 0 ≤ s.tmod recips.length := Int.tmod_nonneg _ hs
  have h1 : s.tmod recips.length < recips.length := Int.tmod_lt_of_pos _ hlen
  rw [penaltyTxs_sum o gid _ _ recips 0 (le_refl 0)]
  have h2 := Int.tdiv_add_tmod s recips.length
  rw [Int.min_def, Int.min_def]
  split <;> split <;> omega

/-! ### Balances under `updateUserBalance` -/

theorem updateUserBalance_ids (db : DB) (id a : Int) :
    (db.updateUserBalance id a).users.map User.id = db.users.map User.id := by
  simp only [DB.updateUserBalance, List.map_map]
  apply List.map_congr_left
  intro u _
  simp only [Function.comp]
  split <;> rfl

theorem findUser_updateUserBalance (db : DB) (id a x : Int) :
    (db.updateUserBalance id a).findUser x
      = (db.findUser x).map fun u =>
          if u.id = id then { u with balance := u.balance + a } else u := by
  simp only [DB.updateUserBalance, DB.findUser, List.find?_map]
  congr 1
  apply congrArg (fun p => List.find? p db.users)
  funext u
  simp only [Function.comp]
  split <;> rfl

theorem balanceOf_updateUserBalance_ne (db : DB) (id a x : Int) (hx : x ≠ id) :
    (db.updateUserBalance id a).balanceOf x = db.balanceOf x := by
  simp only [DB.balanceOf, findUser_updateUserBalance]
  cases hf : db.findUser x with
  | none => rfl
  | some u =>
    have hu : u.id = x := by
      have := List.find?_some hf
      simpa using this
    simp [hu, hx]

theorem balanceOf_updateUserBalance_self (db : DB) (id a : Int)
    (hin : id ∈ db.users.map User.id) :
    (db.updateUserBalance id a).balanceOf id = db.balanceOf id + a := by
  simp only [DB.balanceOf, findUser_updateUserBalance]
  cases hf : db.findUser id with
  | none =>
    exfalso
    simp only [DB.findUser, List.find?_eq_none] at hf
    obtain ⟨u, hu, rfl⟩ := List.mem_map.mp hin
    exact hf u hu (by simp)
  | some u =>
    have hu : u.id = id := by
      have := List.find?_some hf
      simpa using this
    simp [hu]

theorem sum_balance_bump (id a : Int) (users : List User)
    (hnd : (users.map User.id).Nodup) (hin : id ∈ users.map User.id) :
    ((users.map fun u => if u.id = id then { u with balance := u.balance + a } else u).map
      User.balance).sum = (users.map User.balance).sum + a := by
  induction users with
  | nil => simp at hin
  | cons u rest ih =>
    simp only [List.map_cons, List.nodup_cons, List.mem_cons] at hnd hin
    by_cases hu : u.id = id
    · have hnot : id ∉ rest.map User.id := hu ▸ hnd.1
      have hrest : (rest.map fun u =>
          if u.id = id then { u with balance := u.balance + a } else u) = rest := by
        conv_rhs => rw [← List.map_id rest]
        apply List.map_congr_left
        intro v hv
        have : v.id ≠ id := fun h => hnot (List.mem_map.mpr ⟨v, hv, h⟩)
        simp [this]
      simp only [List.map_cons, List.sum_cons, hu, if_true, hrest]
      ring
    · have hin2 : id ∈ rest.map User.id := by
        rcases hin with h | h
        · exact absurd h.symm hu
        · exact h
      simp only [List.map_cons, List.sum_cons, hu, if_false, ih hnd.2 hin2]
      ring

theorem totalBalance_updateUserBalance (db : DB) (id a : Int)
    (hnd : (db.users.map User.id).Nodup) (hin : id ∈ db.users.map User.id) :
    (db.updateUserBalance id a).totalBalance = db.totalBalance + a :=
  sum_balance_bump id a db.users hnd hin

@[simp] theorem balanceOf_createTransaction (db : DB) (f t a : Int) (reason : String)
    (gid : Option Int) (x : Int) :
    (db.createTransaction f t a reason gid).balanceOf x = db.balanceOf x := rfl

@[simp] theorem balanceOf_updateGoalStatus (db : DB) (gid : Int) (st : String) (x : Int) :
    (db.updateGoalStatus gid st).balanceOf x = db.balanceOf x := rfl

@[simp] theorem totalBalance_createTransaction (db : DB) (f t a : Int) (reason : String)
    (gid : Option Int) :
    (db.createTransaction f t a reason gid).totalBalance = db.totalBalance := rfl

@[simp] theorem totalBalance_updateGoalStatus (db : DB) (gid : Int) (st : String) :
    (db.updateGoalStatus gid st).totalBalance = db.totalBalance := rfl

/-! ### Balances after the loop of `FailGoal` -/

theorem creditAll_ids (o gid app rem : Int) (recips : List User) :
    ∀ (i : Int) (db : DB),
      (creditAll o gid app rem i recips db).users.map User.id = db.users.map User.id := by
  induction recips with
  | nil => intro i db; rfl
  | cons u rest ih =>
    intro i db
    simp only [creditAll]
    rw [ih]
    exact updateUserBalance_ids db _ _

theorem creditAll_balanceOf_notin (o gid app rem : Int) (x : Int) (recips : List User)
    (hx : x ∉ recips.map User.id) :
    ∀ (i : Int) (db : DB), (creditAll o gid app rem i recips db).balanceOf x = db.balanceOf x := by
  induction recips with
  | nil => intro i db; rfl
  | cons u rest ih =>
    intro i db
    simp only [List.map_cons, List.mem_cons, not_or] at hx
    simp only [creditAll]
    rw [ih hx.2, balanceOf_createTransaction, balanceOf_updateUserBalance_ne _ _ _ _ hx.1]

/-- Each recipient's balance rises by the share of its position in the loop. -/
theorem creditAll_balanceOf_getElem (o gid app rem : Int) (recips : List User)
    (hnd : (recips.map User.id).Nodup) :
    ∀ (i : Int) (db : DB), (∀ r ∈ recips, r.id ∈ db.users.map User.id) →
      ∀ (k : Nat) (hk : k < recips.length),
        (creditAll o gid app rem i recips db).balanceOf (recips[k]).id
          = db.balanceOf (recips[k]).id + shareAmount app rem (i + k) := by
  induction recips with
  | nil => intro i db _ k hk; simp at hk
  | cons u rest ih =>
    intro i db hin k hk
    simp only [List.map_cons, List.nodup_cons] at hnd
    simp only [creditAll]
    cases k with
    | zero =>
      simp only [List.getElem_cons_zero, Nat.cast_zero, add_zero]
      rw [creditAll_balanceOf_notin _ _ _ _ _ _ hnd.1, balanceOf_createTransaction,
        balanceOf_updateUserBalance_self _ _ _ (hin u (List.mem_cons_self _ _))]
    | succ k =>
      simp only [List.getElem_cons_succ]
      have hk2 : k < rest.length := by simpa using hk
      have hne : (rest[k]).id ≠ u.id := by
        intro h
        exact hnd.1 (h ▸ List.mem_map.mpr ⟨rest[k], List.getElem_mem _, rfl⟩)
      have hin2 : ∀ r ∈ rest, r.id ∈
          ((db.updateUserBalance u.id (shareAmount app rem i)).createTransaction o u.id
            (shareAmount app rem i) "penalty_distribution" (some gid)).users.map User.id := by
        intro r hr
        have := hin r (List.mem_cons_of_mem _ hr)
        rw [← updateUserBalance_ids db u.id (shareAmount app rem i)] at this
        exact this
      rw [ih hnd.2 (i + 1) _ hin2 k hk2, balanceOf_createTransaction,
        balanceOf_updateUserBalance_ne _ _ _ _ hne]
      push_cast
      rw [show i + 1 + (k : Int) = i + ((k : Int) + 1) by ring]

/-- The loop raises the sum of all balances by the sum of the recorded amounts. -/
theorem creditAll_totalBalance (o gid app rem : Int) (recips : List User) :
    ∀ (i : Int) (db : DB), (db.users.map User.id).Nodup →
      (∀ r ∈ recips, r.id ∈ db.users.map User.id) →
      (creditAll o gid app rem i recips db).totalBalance
        = db.totalBalance + ((penaltyTxs o gid app rem i recips).map Transaction.amount).sum := by
  induction recips with
  | nil => intro i db _ _; simp [creditAll, penaltyTxs]
  | cons u rest ih =>
    intro i db hnd hin
    simp only [creditAll, penaltyTxs, List.map_cons, List.sum_cons]
    have hids : ((db.updateUserBalance u.id (shareAmount app rem i)).createTransaction o u.id
        (shareAmount app rem i) "penalty_distribution" (some gid)).users.map User.id
        = db.users.map User.id := updateUserBalance_ids db u.id (shareAmount app rem i)
    rw [ih (i + 1) _ (hids ▸ hnd) (fun r hr => hids ▸ hin r (List.mem_cons_of_mem _ hr)),
      totalBalance_createTransaction,
      totalBalance_updateUserBalance db _ _ hnd (hin u (List.mem_cons_self _ _))]
    ring

theorem penaltyTxs_getElem? (o gid app rem : Int) (recips : List User) :
    ∀ (i : Int) (k : Nat) (hk : k < recips.length),
      (penaltyTxs o gid app rem i recips)[k]?
        = some { fromUser := o, toUser := (recips[k]).id, amount := shareAmount app rem (i + k),
                 reason := "penalty_distribution", goalID := some gid } := by
  induction recips with
  | nil => intro i k hk; simp at hk
  | cons u rest ih =>
    intro i k hk
    cases k with
    | zero => simp [penaltyTxs]
    | succ k =>
      simp only [penaltyTxs, List.getElem?_cons_succ, List.getElem_cons_succ]
      rw [ih (i + 1) k (by simpa using hk)]
      push_cast
      rw [show i + 1 + (k : Int) = i + ((k : Int) + 1) by ring]

/-- The balance increases of the recipients, in order, are the recorded amounts. -/
theorem creditAll_balance_deltas (o gid app rem : Int) (recips : List User)
    (hnd : (recips.map User.id).Nodup) (i : Int) (db : DB)
    (hin : ∀ r ∈ recips, r.id ∈ db.users.map User.id) :
    (recips.map fun r =>
        (creditAll o gid app rem i recips db).balanceOf r.id - db.balanceOf r.id)
      = (penaltyTxs o gid app rem i recips).map Transaction.amount := by
  apply List.ext_getElem?
  intro k
  by_cases hk : k < recips.length
  · rw [List.getElem?_map, List.getElem?_map, penaltyTxs_getElem? o gid app rem recips i k hk,
      List.getElem?_eq_getElem hk]
    simp only [Option.map_some']
    rw [creditAll_balanceOf_getElem o gid app rem recips hnd i db hin k hk]
    congr 1
    ring
  · have h1 : recips.length ≤ k := Nat.le_of_not_lt hk
    rw [List.getElem?_eq_none (by simpa using h1),
      List.getElem?_eq_none (by simpa [penaltyTxs_length] using h1)]

/-! ### Members and recipients -/

theorem mem_chatMembersOf (db : DB) (chatID : Int) (u : User)
    (hu : u ∈ db.chatMembersOf chatID) : u ∈ db.users := by
  simp only [DB.chatMembersOf, List.mem_flatMap, List.mem_filter] at hu
  obtain ⟨_, _, hu, _⟩ := hu
  exact hu

theorem chatMembersOf_nodup (db : DB) (hk : db.WellKeyed) (chatID : Int) :
    ((db.chatMembersOf chatID).map User.id).Nodup := by
  simp only [DB.chatMembersOf, List.map_flatMap]
  rw [List.nodup_flatMap]
  constructor
  · intro m _
    exact (List.Nodup.sublist (List.Sublist.map _ (List.filter_sublist _)) hk.users)
  · have hnd : (db.chatMembers.filter fun m => m.chatID = chatID).Nodup :=
      hk.chatMembers.sublist (List.filter_sublist _)
    refine (List.Pairwise.and_mem.mp hnd).imp ?_
    intro a b hab
    obtain ⟨ha, hb, hne⟩ := hab
    simp only [List.mem_filter, decide_eq_true_eq] at ha hb
    simp only [Function.onFun]
    intro x hxa hxb
    simp only [List.mem_map, List.mem_filter, decide_eq_true_eq] at hxa hxb
    obtain ⟨ua, ⟨_, hua⟩, rfl⟩ := hxa
    obtain ⟨ub, ⟨_, hub⟩, hid⟩ := hxb
    apply hne
    cases a; cases b
    simp only [ChatMember.mk.injEq]
    simp only at ha hb hua hub
    exact ⟨ha.2.trans hb.2.symm, by rw [← hua, ← hub, hid]⟩

theorem recipientsOf_nodup (db : DB) (hk : db.WellKeyed) (chatID owner : Int) :
    ((recipientsOf (db.chatMembersOf chatID) owner).map User.id).Nodup :=
  (chatMembersOf_nodup db hk chatID).sublist (List.Sublist.map _ (List.filter_sublist _))

theorem mem_recipientsOf (members : List User) (owner : Int) (r : User) :
    r ∈ recipientsOf members owner ↔ r ∈ members ∧ r.id ≠ owner := by
  simp [recipientsOf]

/-! ### `FailGoal` when no database call fails -/

theorem failGoal_nil_faults (db : DB) (goalID chatID : Int) (g : Goal)
    (hg : db.findGoal goalID = some g)
    (hn : recipientsOf (db.chatMembersOf chatID) g.userID ≠ []) :
    FailGoal ⟨db, []⟩ goalID chatID = (none, ⟨failGoalDB db goalID chatID g, []⟩) := by
  have hlen : (recipientsOf (db.chatMembersOf chatID) g.userID).length ≠ 0 := by
    simpa [List.length_eq_zero] using hn
  simp [FailGoal, Repository.GetGoal, Repository.GetChatMembers, hg, hlen,
    Repository.UpdateUserBalance, distribute_nil_faults, Repository.UpdateGoalStatus,
    failGoalDB]

end Distribution

/-! ## Goals, statuses and the quorum -/

section Quorum

open Service

/-- The code's `(totalVoters + 1) / 2` is the ceiling of `totalVoters / 2` for every
member count `≥ 0`. -/
theorem requiredVotes_eq_ceil (m : Int) (hm : 0 ≤ m) :
    requiredVotes m = specRequired (totalVoters m) := by
  unfold requiredVotes specRequired totalVoters
  symm
  rw [Int.ceil_eq_iff]
  have h1 : (m - 1 + 1 : Int) = m := by ring
  rw [h1, Int.tdiv_eq_ediv hm (by norm_num)]
  have h2 := Int.emod_add_ediv m 2
  have h3 := Int.emod_nonneg m (show (2 : Int) ≠ 0 by norm_num)
  have h4 := Int.emod_lt_of_pos m (show (0 : Int) < 2 by norm_num)
  have h5 : ((m % 2 : Int) : ℚ) + 2 * ((m / 2 : Int) : ℚ) = (m : ℚ) := by exact_mod_cast h2
  have h6 : (0 : ℚ) ≤ ((m % 2 : Int) : ℚ) := by exact_mod_cast h3
  have h7 : ((m % 2 : Int) : ℚ) ≤ 1 := by
    have : m % 2 ≤ 1 := by omega
    exact_mod_cast this
  push_cast
  constructor <;> linarith

theorem findGoal_id (db : DB) (goalID : Int) (g : Goal) (hg : db.findGoal goalID = some g) :
    g.id = goalID := by
  have := List.find?_some hg
  simpa using this

theorem statusOf_updateGoalStatus (db : DB) (goalID : Int) (st : String) (g : Goal)
    (hg : db.findGoal goalID = some g) :
    (db.updateGoalStatus goalID st).statusOf goalID = some st := by
  have hid := findGoal_id db goalID g hg
  simp only [DB.statusOf, DB.findGoal, DB.updateGoalStatus, List.find?_map]
  have hcomp : ((fun g : Goal => decide (g.id = goalID)) ∘ fun g : Goal =>
      if g.id = goalID then { g with status := st } else g)
      = fun g : Goal => decide (g.id = goalID) := by
    funext x
    simp only [Function.comp]
    split <;> rfl
  rw [hcomp]
  simp only [DB.findGoal] at hg
  rw [hg]
  simp [hid]

theorem statusOf_failGoalDB (db : DB) (goalID chatID : Int) (g : Goal)
    (hg : db.findGoal goalID = some g) :
    (failGoalDB db goalID chatID g).statusOf goalID = some "failed" := by
  unfold failGoalDB
  apply statusOf_updateGoalStatus _ _ _ g
  simp only [DB.findGoal, (creditAll_frame _ _ _ _ _ _ _).1]
  exact hg

/-- Two members with distinct ids cannot both be the owner. -/
theorem recipientsOf_ne_nil (members : List User) (owner : Int)
    (hnd : (members.map User.id).Nodup) (hlen : 2 ≤ members.length) :
    recipientsOf members owner ≠ [] := by
  match members, hlen with
  | a :: b :: rest, _ =>
    simp only [List.map_cons, List.nodup_cons, List.mem_cons, not_or] at hnd
    intro h
    have ha : a ∉ recipientsOf (a :: b :: rest) owner := by rw [h]; simp
    have hb : b ∉ recipientsOf (a :: b :: rest) owner := by rw [h]; simp
    simp only [mem_recipientsOf, List.mem_cons, true_or, or_true, true_and, not_not] at ha hb
    exact hnd.1.1 (ha.trans hb.symm)

theorem countVotes_nonneg (db : DB) (goalID : Int) :
    0 ≤ (db.countVotes goalID).1 ∧ 0 ≤ (db.countVotes goalID).2 := by
  simp [DB.countVotes]

/-- Result of `FinalizeGoal` on a `done_pending` goal when no database call fails. -/
theorem finalizeGoal_nil_faults (db : DB) (goalID chatID : Int) (g : Goal)
    (hg : db.findGoal goalID = some g) (hst : g.status = "done_pending") :
    FinalizeGoal ⟨db, []⟩ goalID chatID =
      if (db.countVotes goalID).1 ≥ requiredVotes ((db.chatMembersOf chatID).length : Int) then
        (.ok .success, ⟨db.updateGoalStatus goalID "success", []⟩)
      else if (db.countVotes goalID).2 >
          totalVoters ((db.chatMembersOf chatID).length : Int)
            - requiredVotes ((db.chatMembersOf chatID).length : Int) then
        match FailGoal ⟨db, []⟩ goalID chatID with
        | (some e, r4) => (.error e, r4)
        | (none, r4) => (.ok .failed, r4)
      else (.ok .pending, ⟨db, []⟩) := by
  simp only [FinalizeGoal, Repository.GetGoal, tick_nil, hg, hst, ne_eq, not_true_eq_false,
    if_false, Repository.GetChatMembers, Repository.CountVotes, Repository.UpdateGoalStatus]

/-- The sample database satisfies the unique keys of the schema when its votes do. -/
theorem sampleDB_wellKeyed (status : String) (votes : List Vote)
    (hv : (votes.map fun v => (v.goalID, v.voterID)).Nodup) :
    (sampleDB status votes).WellKeyed :=
  ⟨by simp [sampleDB, mkUser], by simp [sampleDB], by simp [sampleDB], by simpa [sampleDB] using hv⟩

end Quorum

/-! ## The repository calls under an arbitrary script of store failures -/

section AnyFaults

open Service

theorem tick_eq (r : Repository) : ∃ b fs, r.tick = (b, ⟨r.db, fs⟩) := by
  obtain ⟨db, faults⟩ := r
  cases faults with
  | nil => exact ⟨false, [], rfl⟩
  | cons b rest => exact ⟨b, rest, rfl⟩

theorem getGoal_cases (r : Repository) (goalID : Int) :
    ∃ fs, r.GetGoal goalID = (.error .storeFailure, ⟨r.db, fs⟩) ∨
      r.GetGoal goalID
        = ((match r.db.findGoal goalID with
            | some g => .ok g
            | none => .error .notFound), ⟨r.db, fs⟩) := by
  obtain ⟨b, fs, h⟩ := tick_eq r
  refine ⟨fs, ?_⟩
  cases b with
  | true => left; simp [Repository.GetGoal, h]
  | false =>
    right
    simp only [Repository.GetGoal, h]
    cases r.db.findGoal goalID <;> rfl

theorem getChatMembers_cases (r : Repository) (chatID : Int) :
    ∃ fs, r.GetChatMembers chatID = (.error .storeFailure, ⟨r.db, fs⟩) ∨
      r.GetChatMembers chatID = (.ok (r.db.chatMembersOf chatID), ⟨r.db, fs⟩) := by
  obtain ⟨b, fs, h⟩ := tick_eq r
  refine ⟨fs, ?_⟩
  cases b <;> simp [Repository.GetChatMembers, h]

theorem countVotes_cases (r : Repository) (goalID : Int) :
    ∃ fs, r.CountVotes goalID = (.error .storeFailure, ⟨r.db, fs⟩) ∨
      r.CountVotes goalID = (.ok (r.db.countVotes goalID), ⟨r.db, fs⟩) := by
  obtain ⟨b, fs, h⟩ := tick_eq r
  refine ⟨fs, ?_⟩
  cases b <;> simp [Repository.CountVotes, h]

theorem updateGoalStatus_cases (r : Repository) (goalID : Int) (st : String) :
    ∃ fs, r.UpdateGoalStatus goalID st = (some .storeFailure, ⟨r.db, fs⟩) ∨
      r.UpdateGoalStatus goalID st = (none, ⟨r.db.updateGoalStatus goalID st, fs⟩) := by
  obtain ⟨b, fs, h⟩ := tick_eq r
  refine ⟨fs, ?_⟩
  cases b <;> simp [Repository.UpdateGoalStatus, h]

theorem updateUserBalance_cases (r : Repository) (userID amount : Int) :
    ∃ fs, r.UpdateUserBalance userID amount = (some .storeFailure, ⟨r.db, fs⟩) ∨
      r.UpdateUserBalance userID amount
        = (none, ⟨r.db.updateUserBalance userID amount, fs⟩) := by
  obtain ⟨b, fs, h⟩ := tick_eq r
  refine ⟨fs, ?_⟩
  cases b <;> simp [Repository.UpdateUserBalance, h]

theorem createTransaction_cases (r : Repository) (f t a : Int) (reason : String)
    (gid : Option Int) :
    ∃ fs, r.CreateTransaction f t a reason gid = (some .storeFailure, ⟨r.db, fs⟩) ∨
      r.CreateTransaction f t a reason gid
        = (none, ⟨r.db.createTransaction f t a reason gid, fs⟩) := by
  obtain ⟨b, fs, h⟩ := tick_eq r
  refine ⟨fs, ?_⟩
  cases b <;> simp [Repository.CreateTransaction, h]

theorem createVote_cases (r : Repository) (goalID voterID : Int) (vote : Bool) :
    ∃ fs, r.CreateVote goalID voterID vote = (some .storeFailure, ⟨r.db, fs⟩) ∨
      r.CreateVote goalID voterID vote
        = (none, ⟨r.db.createVote goalID voterID vote, fs⟩) := by
  obtain ⟨b, fs, h⟩ := tick_eq r
  refine ⟨fs, ?_⟩
  cases b <;> simp [Repository.CreateVote, h]

/-- The loop of `FailGoal` writes only balances and transactions, whatever fails. -/
theorem distribute_frame (o gid app rem : Int) (recips : List User) :
    ∀ (i : Int) (r : Repository),
      (distribute o gid app rem i recips r).2.db.goals = r.db.goals ∧
      (distribute o gid app rem i recips r).2.db.votes = r.db.votes ∧
      (distribute o gid app rem i recips r).2.db.chatMembers = r.db.chatMembers ∧
      (distribute o gid app rem i recips r).2.db.nextUserID = r.db.nextUserID ∧
      (distribute o gid app rem i recips r).2.db.nextGoalID = r.db.nextGoalID := by
  induction recips with
  | nil => intro i r; simp [distribute]
  | cons u rest ih =>
    intro i r
    obtain ⟨fs1, h1 | h1⟩ := updateUserBalance_cases r u.id (shareAmount app rem i)
    · simp [distribute, h1]
    · obtain ⟨fs2, h2 | h2⟩ := createTransaction_cases
        ⟨r.db.updateUserBalance u.id (shareAmount app rem i), fs1⟩ o u.id
        (shareAmount app rem i) "penalty_distribution" (some gid)
      · simp only [distribute, h1, h2]
        simp [DB.updateUserBalance]
      · simp only [distribute, h1, h2]
        have := ih (i + 1) ⟨(r.db.updateUserBalance u.id (shareAmount app rem i)).createTransaction
          o u.id (shareAmount app rem i) "penalty_distribution" (some gid), fs2⟩
        simpa [DB.updateUserBalance, DB.createTransaction] using this

theorem loopWrites_length (o gid app rem : Int) (recips : List User) :
    ∀ i : Int, (loopWrites o gid app rem i recips).length = 2 * recips.length := by
  induction recips with
  | nil => intro i; rfl
  | cons u rest ih =>
    intro i
    simp only [loopWrites, List.length_cons, ih]
    ring

/-- The loop stops at its first failing call and leaves the writes before it applied. -/
theorem distribute_prefix (o gid app rem : Int) (recips : List User) :
    ∀ (i : Int) (r : Repository),
      ∃ k : Nat,
        (distribute o gid app rem i recips r).2.db
          = applyWrites ((loopWrites o gid app rem i recips).take k) r.db ∧
        (((distribute o gid app rem i recips r).1 = none ∧
            k = (loopWrites o gid app rem i recips).length) ∨
          ((distribute o gid app rem i recips r).1 = some .storeFailure ∧
            k < (loopWrites o gid app rem i recips).length)) := by
  induction recips with
  | nil => intro i r; exact ⟨0, rfl, Or.inl ⟨rfl, rfl⟩⟩
  | cons u rest ih =>
    intro i r
    obtain ⟨fs1, h1 | h1⟩ := updateUserBalance_cases r u.id (shareAmount app rem i)
    · refine ⟨0, ?_, Or.inr ⟨?_, ?_⟩⟩
      · simp [distribute, h1, applyWrites]
      · simp [distribute, h1]
      · simp [loopWrites]
    · obtain ⟨fs2, h2 | h2⟩ := createTransaction_cases
        ⟨r.db.updateUserBalance u.id (shareAmount app rem i), fs1⟩ o u.id
        (shareAmount app rem i) "penalty_distribution" (some gid)
      · refine ⟨1, ?_, Or.inr ⟨?_, ?_⟩⟩
        · simp [distribute, h1, h2, applyWrites, loopWrites]
        · simp [distribute, h1, h2]
        · simp [loopWrites]
      · obtain ⟨k, hk, hres⟩ := ih (i + 1)
          ⟨(r.db.updateUserBalance u.id (shareAmount app rem i)).createTransaction o u.id
            (shareAmount app rem i) "penalty_distribution" (some gid), fs2⟩
        refine ⟨k + 2, ?_, ?_⟩
        · simp only [distribute, h1, h2, hk]
          simp [applyWrites, loopWrites]
        · simp only [distribute, h1, h2]
          rcases hres with ⟨hn, hl⟩ | ⟨hn, hl⟩
          · exact Or.inl ⟨hn, by simp [loopWrites, hl]⟩
          · exact Or.inr ⟨hn, by simpa [loopWrites] using hl⟩

/-- What `FailGoal` can change, whatever fails: the goals table only by its final status
update, which happens exactly when it returns no error. -/
theorem failGoal_frame (r : Repository) (goalID chatID : Int) :
    (FailGoal r goalID chatID).2.db.votes = r.db.votes ∧
    (FailGoal r goalID chatID).2.db.chatMembers = r.db.chatMembers ∧
    (FailGoal r goalID chatID).2.db.nextUserID = r.db.nextUserID ∧
    (FailGoal r goalID chatID).2.db.nextGoalID = r.db.nextGoalID ∧
    (((FailGoal r goalID chatID).1 ≠ none ∧
        (FailGoal r goalID chatID).2.db.goals = r.db.goals) ∨
      ((FailGoal r goalID chatID).1 = none ∧
        (FailGoal r goalID chatID).2.db.goals
          = (r.db.updateGoalStatus goalID "failed").goals)) := by
  obtain ⟨fs1, h1 | h1⟩ := getGoal_cases r goalID
  · simp [FailGoal, h1]
  · cases hg : r.db.findGoal goalID with
    | none => simp [FailGoal, h1, hg]
    | some g =>
      simp only [hg] at h1
      obtain ⟨fs2, h2 | h2⟩ := getChatMembers_cases ⟨r.db, fs1⟩ chatID
      · simp [FailGoal, h1, h2]
      · by_cases hlen : (recipientsOf (r.db.chatMembersOf chatID) g.userID).length = 0
        · simp [FailGoal, h1, h2, hlen]
        · obtain ⟨fs3, h3 | h3⟩ := updateUserBalance_cases ⟨r.db, fs2⟩ g.userID (-g.bet)
          · simp [FailGoal, h1, h2, hlen, h3]
          · have hfr := distribute_frame g.userID goalID
              (g.bet.tdiv ((recipientsOf (r.db.chatMembersOf chatID) g.userID).length : Int))
              (g.bet.tmod ((recipientsOf (r.db.chatMembersOf chatID) g.userID).length : Int))
              (recipientsOf (r.db.chatMembersOf chatID) g.userID) 0
              ⟨r.db.updateUserBalance g.userID (-g.bet), fs3⟩
            simp only [FailGoal, h1, h2, hlen, h3, if_false]
            generalize distribute g.userID goalID
              (g.bet.tdiv ((recipientsOf (r.db.chatMembersOf chatID) g.userID).length : Int))
              (g.bet.tmod ((recipientsOf (r.db.chatMembersOf chatID) g.userID).length : Int))
              0 (recipientsOf (r.db.chatMembersOf chatID) g.userID)
              ⟨r.db.updateUserBalance g.userID (-g.bet), fs3⟩ = res at hfr ⊢
            obtain ⟨e4, r4⟩ := res
            cases e4 with
            | some e =>
              simp only [DB.updateUserBalance] at hfr
              simp [hfr]
            | none =>
              obtain ⟨fs5, h5 | h5⟩ := updateGoalStatus_cases r4 goalID "failed"
              · simp only [h5]
                simp only [DB.updateUserBalance] at hfr
                simp [hfr]
              · simp only [h5]
                simp only [DB.updateUserBalance] at hfr
                simp [DB.updateGoalStatus, hfr]

/-- Without a recipient `FailGoal` fails before its first write. -/
theorem failGoal_no_recipients_unchanged (r : Repository) (goalID chatID : Int) (g : Goal)
    (hg : r.db.findGoal goalID = some g)
    (hnone : recipientsOf (r.db.chatMembersOf chatID) g.userID = []) :
    (∃ e, (FailGoal r goalID chatID).1 = some e) ∧ (FailGoal r goalID chatID).2.db = r.db := by
  obtain ⟨fs1, h1 | h1⟩ := getGoal_cases r goalID
  · simp [FailGoal, h1]
  · simp only [hg] at h1
    obtain ⟨fs2, h2 | h2⟩ := getChatMembers_cases ⟨r.db, fs1⟩ chatID
    · simp [FailGoal, h1, h2]
    · simp [FailGoal, h1, h2, hnone]

theorem applyWrites_loopWrites (o gid app rem : Int) (recips : List User) :
    ∀ (i : Int) (db : DB),
      applyWrites (loopWrites o gid app rem i recips) db = creditAll o gid app rem i recips db := by
  induction recips with
  | nil => intro i db; rfl
  | cons u rest ih =>
    intro i db
    simp only [loopWrites, applyWrites, List.foldl_cons, creditAll]
    exact ih (i + 1) _

/-- Whatever the script of store failures: a `FailGoal` call that returns no error had a
recipient and leaves the database of the call without failures. -/
theorem failGoal_success_db (r : Repository) (goalID chatID : Int) (g : Goal)
    (hg : r.db.findGoal goalID = some g) (hok : (FailGoal r goalID chatID).1 = none) :
    recipientsOf (r.db.chatMembersOf chatID) g.userID ≠ [] ∧
      (FailGoal r goalID chatID).2.db = failGoalDB r.db goalID chatID g := by
  revert hok
  obtain ⟨fs1, h1 | h1⟩ := getGoal_cases r goalID
  · simp [FailGoal, h1]
  · simp only [hg] at h1
    obtain ⟨fs2, h2 | h2⟩ := getChatMembers_cases ⟨r.db, fs1⟩ chatID
    · simp [FailGoal, h1, h2]
    · by_cases hlen : (recipientsOf (r.db.chatMembersOf chatID) g.userID).length = 0
      · simp [FailGoal, h1, h2, hlen]
      · have hne : recipientsOf (r.db.chatMembersOf chatID) g.userID ≠ [] := by
          simpa [List.length_eq_zero] using hlen
        obtain ⟨fs3, h3 | h3⟩ := updateUserBalance_cases ⟨r.db, fs2⟩ g.userID (-g.bet)
        · simp [FailGoal, h1, h2, hlen, h3]
        · obtain ⟨k, hk, hres⟩ := distribute_prefix g.userID goalID
            (g.bet.tdiv ((recipientsOf (r.db.chatMembersOf chatID) g.userID).length : Int))
            (g.bet.tmod ((recipientsOf (r.db.chatMembersOf chatID) g.userID).length : Int))
            (recipientsOf (r.db.chatMembersOf chatID) g.userID) 0
            ⟨r.db.updateUserBalance g.userID (-g.bet), fs3⟩
          simp only [FailGoal, h1, h2, hlen, h3, if_false]
          generalize distribute g.userID goalID
            (g.bet.tdiv ((recipientsOf (r.db.chatMembersOf chatID) g.userID).length : Int))
            (g.bet.tmod ((recipientsOf (r.db.chatMembersOf chatID) g.userID).length : Int))
            0 (recipientsOf (r.db.chatMembersOf chatID) g.userID)
            ⟨r.db.updateUserBalance g.userID (-g.bet), fs3⟩ = res at hk hres ⊢
          obtain ⟨e4, r4⟩ := res
          simp only at hk
          rcases hres with ⟨hn, hl⟩ | ⟨hn, _⟩
          · simp only at hn
            subst hn
            obtain ⟨fs5, h5 | h5⟩ := updateGoalStatus_cases r4 goalID "failed"
            · simp only [h5]
              intro h; cases h
            · simp only [h5]
              intro _
              refine ⟨hne, ?_⟩
              rw [hk, hl, List.take_length, applyWrites_loopWrites]
              rfl
          · simp only at hn
            subst hn
            simp only
            intro h; cases h

/-- Whatever the script of store failures: a `FinalizeGoal` call on a `done_pending` goal
that returns an outcome returns the outcome, and leaves the database, of the call without
failures. -/
theorem finalizeGoal_success_db (r : Repository) (goalID chatID : Int) (g : Goal)
    (hg : r.db.findGoal goalID = some g) (hst : g.status = "done_pending") (o : Outcome)
    (hok : (FinalizeGoal r goalID chatID).1 = .ok o) :
    (FinalizeGoal ⟨r.db, []⟩ goalID chatID).1 = .ok o ∧
      (FinalizeGoal r goalID chatID).2.db = (FinalizeGoal ⟨r.db, []⟩ goalID chatID).2.db := by
  revert hok
  rw [finalizeGoal_nil_faults r.db goalID chatID g hg hst]
  obtain ⟨fs1, h1 | h1⟩ := getGoal_cases r goalID
  · simp only [FinalizeGoal, h1]
    intro h; cases h
  · simp only [hg] at h1
    obtain ⟨fs2, h2 | h2⟩ := getChatMembers_cases ⟨r.db, fs1⟩ chatID
    · simp only [FinalizeGoal, h1, hst, ne_eq, not_true_eq_false, if_false, h2]
      intro h; cases h
    · obtain ⟨fs3, h3 | h3⟩ := countVotes_cases ⟨r.db, fs2⟩ goalID
      · simp only [FinalizeGoal, h1, hst, ne_eq, not_true_eq_false, if_false, h2, h3]
        intro h; cases h
      · simp only [FinalizeGoal, h1, hst, ne_eq, not_true_eq_false, if_false, h2, h3]
        split
        · obtain ⟨fs4, h4 | h4⟩ := updateGoalStatus_cases ⟨r.db, fs3⟩ goalID "success"
          · simp only [h4]
            intro h; cases h
          · simp only [h4]
            intro h
            exact ⟨h, trivial⟩
        · split
          · cases hres : FailGoal ⟨r.db, fs3⟩ goalID chatID with
            | mk e4 r4 =>
              cases e4 with
              | some e =>
                simp only
                intro h; cases h
              | none =>
                have hs := failGoal_success_db ⟨r.db, fs3⟩ goalID chatID g hg (by rw [hres])
                rw [hres] at hs
                simp only at hs
                rw [failGoal_nil_faults r.db goalID chatID g hg hs.1]
                simp only
                intro h
                exact ⟨h, hs.2⟩
          · intro h
            exact ⟨h, rfl⟩

/-- Whatever the script of store failures: a `VoteOnGoal` call that returns no error was on
a `done_pending` goal, by a voter other than the owner, and stored the vote. -/
theorem voteOnGoal_success_db (r : Repository) (goalID voterID : Int) (vote : Bool) (g : Goal)
    (hg : r.db.findGoal goalID = some g) (hok : (VoteOnGoal r goalID voterID vote).1 = none) :
    g.status = "done_pending" ∧ g.userID ≠ voterID ∧
      (VoteOnGoal r goalID voterID vote).2.db = r.db.createVote goalID voterID vote := by
  revert hok
  obtain ⟨fs1, h1 | h1⟩ := getGoal_cases r goalID
  · simp [VoteOnGoal, h1]
  · simp only [hg] at h1
    by_cases hdp : g.status = "done_pending"
    · by_cases hown : g.userID = voterID
      · simp [VoteOnGoal, h1, hdp, hown]
      · obtain ⟨fs2, h2 | h2⟩ := createVote_cases ⟨r.db, fs1⟩ goalID voterID vote
        · simp [VoteOnGoal, h1, hdp, hown, h2]
        · simp [VoteOnGoal, h1, hdp, hown, h2]
    · simp [VoteOnGoal, h1, hdp]

/-- Whatever the script of store failures: `CreateGoal` either returns an error and leaves
the database unchanged, or returns the goal, and leaves the database, of the call without
failures. -/
theorem createGoal_any_faults (r : Repository) (userID chatID : Int)
    (title description : String) (deadline s : Int) :
    ((∃ e, (CreateGoal r userID chatID title description deadline s).1 = .error e) ∧
        (CreateGoal r userID chatID title description deadline s).2.db = r.db) ∨
      ((CreateGoal r userID chatID title description deadline s).1
          = (CreateGoal ⟨r.db, []⟩ userID chatID title description deadline s).1 ∧
        (CreateGoal r userID chatID title description deadline s).2.db
          = (CreateGoal ⟨r.db, []⟩ userID chatID title description deadline s).2.db) := by
  obtain ⟨b, fs1, h1⟩ := tick_eq r
  simp only [CreateGoal, Repository.GetUserBalance, h1, tick_nil]
  cases b
  · simp only
    cases r.db.findUser userID with
    | none => left; exact ⟨⟨_, rfl⟩, rfl⟩
    | some u =>
      simp only
      by_cases hlt : u.balance < s
      · left
        simp [hlt]
      · obtain ⟨b2, fs2, h2⟩ := tick_eq ⟨r.db, fs1⟩
        cases b2
        · right
          simp [hlt, Repository.CreateGoal, h2]
        · left
          simp [hlt, Repository.CreateGoal, h2]
  · left; exact ⟨⟨_, rfl⟩, rfl⟩

end AnyFaults

/-! ## What every write of the repository maintains -/

section Invariant

open Service

theorem inv_empty : DB.empty.Inv where
  userIds := by simp [DB.empty]
  goalIds := by simp [DB.empty]
  keys := ⟨by simp [DB.empty], by simp [DB.empty], by simp [DB.empty], by simp [DB.empty]⟩
  voteGoals := by simp [DB.empty]
  noSelfVote := by simp [DB.empty]

theorem inv_mapUsers (db : DB) (f : User → User) (hid : ∀ u, (f u).id = u.id)
    (h : db.Inv) : DB.Inv { db with users := db.users.map f } where
  userIds := by
    intro u hu
    obtain ⟨u0, hu0, rfl⟩ := List.mem_map.mp hu
    rw [hid]
    exact h.userIds u0 hu0
  goalIds := h.goalIds
  keys := by
    refine ⟨?_, h.keys.goals, h.keys.chatMembers, h.keys.votes⟩
    have : (db.users.map f).map User.id = db.users.map User.id := by
      rw [List.map_map]
      exact List.map_congr_left fun u _ => hid u
    show ((db.users.map f).map User.id).Nodup
    rw [this]
    exact h.keys.users
  voteGoals := h.voteGoals
  noSelfVote := h.noSelfVote

theorem inv_mapGoals (db : DB) (f : Goal → Goal) (hid : ∀ g, (f g).id = g.id)
    (hown : ∀ g, (f g).userID = g.userID) (h : db.Inv) :
    DB.Inv { db with goals := db.goals.map f } where
  userIds := h.userIds
  goalIds := by
    intro g hg
    obtain ⟨g0, hg0, rfl⟩ := List.mem_map.mp hg
    rw [hid]
    exact h.goalIds g0 hg0
  keys := by
    refine ⟨h.keys.users, ?_, h.keys.chatMembers, h.keys.votes⟩
    have : (db.goals.map f).map Goal.id = db.goals.map Goal.id := by
      rw [List.map_map]
      exact List.map_congr_left fun g _ => hid g
    show ((db.goals.map f).map Goal.id).Nodup
    rw [this]
    exact h.keys.goals
  voteGoals := h.voteGoals
  noSelfVote := by
    intro v hv g hg hgv
    obtain ⟨g0, hg0, rfl⟩ := List.mem_map.mp hg
    rw [hown]
    rw [hid] at hgv
    exact h.noSelfVote v hv g0 hg0 hgv

theorem inv_updateUserBalance (db : DB) (id a : Int) (h : db.Inv) :
    (db.updateUserBalance id a).Inv :=
  inv_mapUsers db _ (fun u => by split <;> rfl) h

theorem inv_updateGoalStatus (db : DB) (goalID : Int) (st : String) (h : db.Inv) :
    (db.updateGoalStatus goalID st).Inv :=
  inv_mapGoals db _ (fun g => by split <;> rfl) (fun g => by split <;> rfl) h

theorem inv_updateGoalProof (db : DB) (goalID : Int) (proof : String) (h : db.Inv) :
    (db.updateGoalProof goalID proof).Inv :=
  inv_mapGoals db _ (fun g => by split <;> rfl) (fun g => by split <;> rfl) h

theorem inv_createTransaction (db : DB) (f t a : Int) (reason : String) (gid : Option Int)
    (h : db.Inv) : (db.createTransaction f t a reason gid).Inv :=
  ⟨h.userIds, h.goalIds, ⟨h.keys.users, h.keys.goals, h.keys.chatMembers, h.keys.votes⟩,
    h.voteGoals, h.noSelfVote⟩

theorem inv_addChatMember (db : DB) (chatID userID : Int) (h : db.Inv) :
    (db.addChatMember chatID userID).Inv := by
  unfold DB.addChatMember
  split
  · exact h
  · rename_i hnot
    refine ⟨h.userIds, h.goalIds, ⟨h.keys.users, h.keys.goals, ?_, h.keys.votes⟩,
      h.voteGoals, h.noSelfVote⟩
    show (db.chatMembers ++ [({ chatID := chatID, userID := userID } : ChatMember)]).Nodup
    rw [List.nodup_append]
    refine ⟨h.keys.chatMembers, List.nodup_singleton _, ?_⟩
    intro m hm hm2
    simp only [List.mem_singleton] at hm2
    subst hm2
    apply hnot
    simp only [List.any_eq_true, decide_eq_true_eq]
    exact ⟨_, hm, rfl, rfl⟩

theorem inv_insertGoal (db : DB) (g : Goal) (hid : g.id = db.nextGoalID) (h : db.Inv) :
    (db.insertGoal g).Inv where
  userIds := h.userIds
  goalIds := by
    intro g2 hg2
    simp only [DB.insertGoal, List.mem_append, List.mem_singleton] at hg2
    show g2.id < db.nextGoalID + 1
    rcases hg2 with hg2 | rfl
    · have := h.goalIds g2 hg2
      omega
    · omega
  keys := by
    refine ⟨h.keys.users, ?_, h.keys.chatMembers, h.keys.votes⟩
    show ((db.goals ++ [g]).map Goal.id).Nodup
    rw [List.map_append, List.nodup_append]
    refine ⟨h.keys.goals, by simp, ?_⟩
    intro x hx hx2
    simp only [List.map_cons, List.map_nil, List.mem_singleton] at hx2
    obtain ⟨g0, hg0, rfl⟩ := List.mem_map.mp hx
    have := h.goalIds g0 hg0
    omega
  voteGoals := by
    intro v hv
    have := h.voteGoals v hv
    show v.goalID < db.nextGoalID + 1
    omega
  noSelfVote := by
    intro v hv g2 hg2 hgv
    simp only [DB.insertGoal, List.mem_append, List.mem_singleton] at hg2
    rcases hg2 with hg2 | rfl
    · exact h.noSelfVote v hv g2 hg2 hgv
    · have := h.voteGoals v hv
      omega

theorem inv_insertUser (db : DB) (u : User) (hid : u.id = db.nextUserID) (h : db.Inv) :
    (db.insertUser u).Inv where
  userIds := by
    intro u2 hu2
    simp only [DB.insertUser, List.mem_append, List.mem_singleton] at hu2
    show u2.id < db.nextUserID + 1
    rcases hu2 with hu2 | rfl
    · have := h.userIds u2 hu2
      omega
    · omega
  goalIds := h.goalIds
  keys := by
    refine ⟨?_, h.keys.goals, h.keys.chatMembers, h.keys.votes⟩
    show ((db.users ++ [u]).map User.id).Nodup
    rw [List.map_append, List.nodup_append]
    refine ⟨h.keys.users, by simp, ?_⟩
    intro x hx hx2
    simp only [List.map_cons, List.map_nil, List.mem_singleton] at hx2
    obtain ⟨u0, hu0, rfl⟩ := List.mem_map.mp hx
    have := h.userIds u0 hu0
    omega
  voteGoals := h.voteGoals
  noSelfVote := h.noSelfVote

theorem findGoal_mem (db : DB) (goalID : Int) (g : Goal) (hg : db.findGoal goalID = some g) :
    g ∈ db.goals :=
  List.mem_of_find?_eq_some hg

theorem goal_eq_of_id (db : DB) (hk : (db.goals.map Goal.id).Nodup) (g1 g2 : Goal)
    (h1 : g1 ∈ db.goals) (h2 : g2 ∈ db.goals) (hid : g1.id = g2.id) : g1 = g2 :=
  List.inj_on_of_nodup_map hk h1 h2 hid

/-- A vote stored for a voter who is not the owner of the goal read keeps the invariant. -/
theorem inv_createVote (db : DB) (goalID voterID : Int) (vote : Bool) (h : db.Inv) (g : Goal)
    (hg : db.findGoal goalID = some g) (hne : g.userID ≠ voterID) :
    (db.createVote goalID voterID vote).Inv := by
  have hmem := findGoal_mem db goalID g hg
  have hid := findGoal_id db goalID g hg
  unfold DB.createVote
  split
  · -- the pair has a row: its decision is overwritten
    have hkey : ∀ v : Vote,
        ((if v.goalID = goalID ∧ v.voterID = voterID then { v with vote := vote } else v).goalID
          = v.goalID) ∧
        ((if v.goalID = goalID ∧ v.voterID = voterID then { v with vote := vote } else v).voterID
          = v.voterID) := by
      intro v
      split <;> exact ⟨rfl, rfl⟩
    refine ⟨h.userIds, h.goalIds, ⟨h.keys.users, h.keys.goals, h.keys.chatMembers, ?_⟩, ?_, ?_⟩
    · have : ((db.votes.map fun v =>
            if v.goalID = goalID ∧ v.voterID = voterID then { v with vote := vote } else v).map
            fun v => (v.goalID, v.voterID)) = db.votes.map fun v => (v.goalID, v.voterID) := by
        rw [List.map_map]
        apply List.map_congr_left
        intro v _
        simp only [Function.comp, (hkey v).1, (hkey v).2]
      show ((db.votes.map fun v =>
            if v.goalID = goalID ∧ v.voterID = voterID then { v with vote := vote } else v).map
            fun v => (v.goalID, v.voterID)).Nodup
      rw [this]
      exact h.keys.votes
    · intro v hv
      obtain ⟨v0, hv0, rfl⟩ := List.mem_map.mp hv
      rw [(hkey v0).1]
      exact h.voteGoals v0 hv0
    · intro v hv g2 hg2 hgv
      obtain ⟨v0, hv0, rfl⟩ := List.mem_map.mp hv
      rw [(hkey v0).2]
      rw [(hkey v0).1] at hgv
      exact h.noSelfVote v0 hv0 g2 hg2 hgv
  · -- the pair has no row: one is appended
    rename_i hnot
    refine ⟨h.userIds, h.goalIds, ⟨h.keys.users, h.keys.goals, h.keys.chatMembers, ?_⟩, ?_, ?_⟩
    · show ((db.votes ++ [({ goalID := goalID, voterID := voterID, vote := vote } : Vote)]).map
          fun v => (v.goalID, v.voterID)).Nodup
      rw [List.map_append, List.nodup_append]
      refine ⟨h.keys.votes, by simp, ?_⟩
      intro x hx hx2
      simp only [List.map_cons, List.map_nil, List.mem_singleton] at hx2
      obtain ⟨v0, hv0, hv0x⟩ := List.mem_map.mp hx
      apply hnot
      simp only [List.any_eq_true, decide_eq_true_eq]
      refine ⟨v0, hv0, ?_⟩
      rw [hx2] at hv0x
      simpa using hv0x
    · intro v hv
      simp only [List.mem_append, List.mem_singleton] at hv
      rcases hv with hv | rfl
      · exact h.voteGoals v hv
      · show goalID < db.nextGoalID
        rw [← hid]
        exact h.goalIds g hmem
    · intro v hv g2 hg2 hgv
      simp only [List.mem_append, List.mem_singleton] at hv
      rcases hv with hv | rfl
      · exact h.noSelfVote v hv g2 hg2 hgv
      · have : g2 = g := goal_eq_of_id db h.keys.goals g2 g hg2 hmem (hgv.trans hid.symm)
        rw [this]
        exact hne

/-! ### The calls of the service maintain the invariant -/

theorem inv_distribute (o gid app rem : Int) (recips : List User) :
    ∀ (i : Int) (r : Repository), r.db.Inv → (distribute o gid app rem i recips r).2.db.Inv := by
  induction recips with
  | nil => intro i r h; exact h
  | cons u rest ih =>
    intro i r h
    obtain ⟨fs1, h1 | h1⟩ := updateUserBalance_cases r u.id (shareAmount app rem i)
    · simpa [distribute, h1] using h
    · obtain ⟨fs2, h2 | h2⟩ := createTransaction_cases
        ⟨r.db.updateUserBalance u.id (shareAmount app rem i), fs1⟩ o u.id
        (shareAmount app rem i) "penalty_distribution" (some gid)
      · simp only [distribute, h1, h2]
        exact inv_updateUserBalance _ _ _ h
      · simp only [distribute, h1, h2]
        exact ih _ _ (inv_createTransaction _ _ _ _ _ _ (inv_updateUserBalance _ _ _ h))

theorem inv_FailGoal (r : Repository) (goalID chatID : Int) (h : r.db.Inv) :
    (FailGoal r goalID chatID).2.db.Inv := by
  obtain ⟨fs1, h1 | h1⟩ := getGoal_cases r goalID
  · simpa [FailGoal, h1] using h
  · cases hg : r.db.findGoal goalID with
    | none => simpa [FailGoal, h1, hg] using h
    | some g =>
      simp only [hg] at h1
      obtain ⟨fs2, h2 | h2⟩ := getChatMembers_cases ⟨r.db, fs1⟩ chatID
      · simpa [FailGoal, h1, h2] using h
      · by_cases hlen : (recipientsOf (r.db.chatMembersOf chatID) g.userID).length = 0
        · simpa [FailGoal, h1, h2, hlen] using h
        · obtain ⟨fs3, h3 | h3⟩ := updateUserBalance_cases ⟨r.db, fs2⟩ g.userID (-g.bet)
          · simpa [FailGoal, h1, h2, hlen, h3] using h
          · have hd := inv_distribute g.userID goalID
              (g.bet.tdiv ((recipientsOf (r.db.chatMembersOf chatID) g.userID).length : Int))
              (g.bet.tmod ((recipientsOf (r.db.chatMembersOf chatID) g.userID).length : Int))
              (recipientsOf (r.db.chatMembersOf chatID) g.userID) 0
              ⟨r.db.updateUserBalance g.userID (-g.bet), fs3⟩
              (inv_updateUserBalance _ _ _ h)
            simp only [FailGoal, h1, h2, hlen, h3, if_false]
            generalize distribute g.userID goalID
              (g.bet.tdiv ((recipientsOf (r.db.chatMembersOf chatID) g.userID).length : Int))
              (g.bet.tmod ((recipientsOf (r.db.chatMembersOf chatID) g.userID).length : Int))
              0 (recipientsOf (r.db.chatMembersOf chatID) g.userID)
              ⟨r.db.updateUserBalance g.userID (-g.bet), fs3⟩ = res at hd ⊢
            obtain ⟨e4, r4⟩ := res
            cases e4 with
            | some e => exact hd
            | none =>
              obtain ⟨fs5, h5 | h5⟩ := updateGoalStatus_cases r4 goalID "failed"
              · simp only [h5]
                exact hd
              · simp only [h5]
                exact inv_updateGoalStatus _ _ _ hd

theorem inv_FinalizeGoal (r : Repository) (goalID chatID : Int) (h : r.db.Inv) :
    (FinalizeGoal r goalID chatID).2.db.Inv := by
  obtain ⟨fs1, h1 | h1⟩ := getGoal_cases r goalID
  · simpa [FinalizeGoal, h1] using h
  · cases hg : r.db.findGoal goalID with
    | none => simpa [FinalizeGoal, h1, hg] using h
    | some g =>
      simp only [hg] at h1
      by_cases hdp : g.status = "done_pending"
      · obtain ⟨fs2, h2 | h2⟩ := getChatMembers_cases ⟨r.db, fs1⟩ chatID
        · simpa [FinalizeGoal, h1, hdp, h2] using h
        · obtain ⟨fs3, h3 | h3⟩ := countVotes_cases ⟨r.db, fs2⟩ goalID
          · simpa [FinalizeGoal, h1, hdp, h2, h3] using h
          · simp only [FinalizeGoal, h1, hdp, h2, h3, ne_eq, not_true_eq_false, if_false]
            split
            · obtain ⟨fs4, h4 | h4⟩ := updateGoalStatus_cases ⟨r.db, fs3⟩ goalID "success"
              · simpa [h4] using h
              · simp only [h4]
                exact inv_updateGoalStatus _ _ _ h
            · split
              · have hf := inv_FailGoal ⟨r.db, fs3⟩ goalID chatID h
                generalize FailGoal ⟨r.db, fs3⟩ goalID chatID = res at hf ⊢
                obtain ⟨e4, r4⟩ := res
                cases e4 <;> exact hf
              · exact h
      · simpa [FinalizeGoal, h1, hdp] using h

theorem inv_VoteOnGoal (r : Repository) (goalID voterID : Int) (vote : Bool) (h : r.db.Inv) :
    (VoteOnGoal r goalID voterID vote).2.db.Inv := by
  obtain ⟨fs1, h1 | h1⟩ := getGoal_cases r goalID
  · simpa [VoteOnGoal, h1] using h
  · cases hg : r.db.findGoal goalID with
    | none => simpa [VoteOnGoal, h1, hg] using h
    | some g =>
      simp only [hg] at h1
      by_cases hdp : g.status = "done_pending"
      · by_cases hown : g.userID = voterID
        · simpa [VoteOnGoal, h1, hdp, hown] using h
        · obtain ⟨fs2, h2 | h2⟩ := createVote_cases ⟨r.db, fs1⟩ goalID voterID vote
          · simpa [VoteOnGoal, h1, hdp, hown, h2] using h
          · simp only [VoteOnGoal, h1, hdp, hown, h2, ne_eq, not_true_eq_false, if_false]
            exact inv_createVote r.db goalID voterID vote h g hg hown
      · simpa [VoteOnGoal, h1, hdp] using h

theorem inv_SubmitProof (r : Repository) (goalID : Int) (proof : String) (h : r.db.Inv) :
    (SubmitProof r goalID proof).2.db.Inv := by
  obtain ⟨fs1, h1 | h1⟩ := getGoal_cases r goalID
  · simpa [SubmitProof, h1] using h
  · cases hg : r.db.findGoal goalID with
    | none => simpa [SubmitProof, h1, hg] using h
    | some g =>
      simp only [hg] at h1
      by_cases hact : g.status = "active"
      · obtain ⟨b, fs2, h2⟩ := tick_eq ⟨r.db, fs1⟩
        simp only [SubmitProof, h1, hact, ne_eq, not_true_eq_false, if_false,
          Repository.UpdateGoalProof, h2]
        cases b
        · exact inv_updateGoalProof _ _ _ h
        · exact h
      · simpa [SubmitProof, h1, hact] using h

theorem inv_repo_GetOrCreateUser (r : Repository) (tgID : Int) (username : String)
    (h : r.db.Inv) : (r.GetOrCreateUser tgID username).2.db.Inv := by
  obtain ⟨b, fs1, h1⟩ := tick_eq r
  simp only [Repository.GetOrCreateUser, h1]
  cases b
  · simp only
    cases r.db.users.find? fun u => u.tgID = tgID with
    | some u => exact h
    | none =>
      obtain ⟨b2, fs2, h2⟩ := tick_eq ⟨r.db, fs1⟩
      simp only [h2]
      cases b2
      · exact inv_insertUser r.db _ rfl h
      · exact h
  · exact h

theorem inv_RegisterUser (r : Repository) (tgID : Int) (username : String) (chatID : Int)
    (h : r.db.Inv) : (RegisterUser r tgID username chatID).2.db.Inv := by
  have h1 := inv_repo_GetOrCreateUser r tgID username h
  unfold RegisterUser
  generalize r.GetOrCreateUser tgID username = res at h1 ⊢
  obtain ⟨res1, r1⟩ := res
  cases res1 with
  | error e => exact h1
  | ok user =>
    obtain ⟨b, fs2, h2⟩ := tick_eq r1
    simp only [Repository.AddChatMember, h2]
    cases b
    · exact inv_addChatMember _ _ _ h1
    · exact h1

theorem inv_CreateGoal (r : Repository) (userID chatID : Int) (title description : String)
    (deadline bet : Int) (h : r.db.Inv) :
    (CreateGoal r userID chatID title description deadline bet).2.db.Inv := by
  obtain ⟨b, fs1, h1⟩ := tick_eq r
  simp only [CreateGoal, Repository.GetUserBalance, h1]
  cases b
  · simp only
    cases r.db.findUser userID with
    | none => exact h
    | some u =>
      simp only
      split
      · exact h
      · obtain ⟨b2, fs2, h2⟩ := tick_eq ⟨r.db, fs1⟩
        simp only [Repository.CreateGoal, h2]
        cases b2
        · exact inv_insertGoal r.db _ rfl h
        · exact h
  · exact h

theorem inv_GetUserStats (r : Repository) (userID : Int) (h : r.db.Inv) :
    (GetUserStats r userID).2.db.Inv := by
  have h1 := inv_repo_GetOrCreateUser r userID "" h
  unfold GetUserStats
  generalize r.GetOrCreateUser userID "" = res at h1 ⊢
  obtain ⟨res1, r1⟩ := res
  cases res1 with
  | error e => exact h1
  | ok user =>
    obtain ⟨b, fs2, h2⟩ := tick_eq r1
    simp only [h2]
    cases b <;> exact h1

/-- Every reachable database satisfies the invariant, in particular the unique keys. -/
theorem reachable_inv (db : DB) (h : Reachable db) : db.Inv := by
  induction h with
  | init => exact inv_empty
  | step db faults c _ ih =>
    cases c with
    | registerUser tgID username chatID => exact inv_RegisterUser ⟨db, faults⟩ _ _ _ ih
    | getOrCreateUser tgID username => exact inv_repo_GetOrCreateUser ⟨db, faults⟩ _ _ ih
    | createGoal userID chatID title description deadline bet =>
      exact inv_CreateGoal ⟨db, faults⟩ _ _ _ _ _ _ ih
    | submitProof goalID proof => exact inv_SubmitProof ⟨db, faults⟩ _ _ ih
    | voteOnGoal goalID voterID vote => exact inv_VoteOnGoal ⟨db, faults⟩ _ _ _ ih
    | finalizeGoal goalID chatID => exact inv_FinalizeGoal ⟨db, faults⟩ _ _ ih
    | failGoal goalID chatID => exact inv_FailGoal ⟨db, faults⟩ _ _ ih
    | getUserStats userID => exact inv_GetUserStats ⟨db, faults⟩ _ ih

end Invariant

/-! ## How the calls of the service change the goals table -/

section GoalsTable

open Service

theorem statusOf_congr (db1 db2 : DB) (h : db1.goals = db2.goals) (gid : Int) :
    db1.statusOf gid = db2.statusOf gid := by
  simp [DB.statusOf, DB.findGoal, h]

theorem findGoal_map (db : DB) (f : Goal → Goal) (hid : ∀ g, (f g).id = g.id) (gid : Int) :
    (db.goals.map f).find? (fun g => g.id = gid) = (db.findGoal gid).map f := by
  rw [List.find?_map, DB.findGoal]
  congr 1
  apply congrArg (fun p => List.find? p db.goals)
  funext g
  simp [Function.comp, hid]

theorem findGoal_updateGoalStatus (db : DB) (gid2 : Int) (st : String) (gid : Int) :
    (db.updateGoalStatus gid2 st).findGoal gid
      = (db.findGoal gid).map fun g => if g.id = gid2 then { g with status := st } else g :=
  findGoal_map db _ (fun g => by split <;> rfl) gid

theorem findGoal_updateGoalProof (db : DB) (gid2 : Int) (proof : String) (gid : Int) :
    (db.updateGoalProof gid2 proof).findGoal gid
      = (db.findGoal gid).map fun g =>
          if g.id = gid2 then { g with proofMessage := some proof, status := "done_pending" }
          else g :=
  findGoal_map db _ (fun g => by split <;> rfl) gid

theorem statusOf_updateGoalStatus_ne (db : DB) (gid2 : Int) (st : String) (gid : Int)
    (hne : gid ≠ gid2) : (db.updateGoalStatus gid2 st).statusOf gid = db.statusOf gid := by
  simp only [DB.statusOf, findGoal_updateGoalStatus]
  cases hf : db.findGoal gid with
  | none => rfl
  | some g =>
    have hid := findGoal_id db gid g hf
    simp [hid, hne]

theorem statusOf_updateGoalProof_ne (db : DB) (gid2 : Int) (proof : String) (gid : Int)
    (hne : gid ≠ gid2) : (db.updateGoalProof gid2 proof).statusOf gid = db.statusOf gid := by
  simp only [DB.statusOf, findGoal_updateGoalProof]
  cases hf : db.findGoal gid with
  | none => rfl
  | some g =>
    have hid := findGoal_id db gid g hf
    simp [hid, hne]

theorem statusOf_insertGoal (db : DB) (g : Goal) (gid : Int) :
    (db.insertGoal g).statusOf gid = db.statusOf gid ∨
      (db.statusOf gid = none ∧ (db.insertGoal g).statusOf gid = some g.status) := by
  simp only [DB.statusOf, DB.findGoal, DB.insertGoal, List.find?_append]
  cases hf : db.goals.find? fun g => g.id = gid with
  | some g0 => left; rfl
  | none =>
    by_cases hid : g.id = gid
    · right; simp [hid]
    · left; simp [hid]

/-- What `SubmitProof` does to the database, whatever fails: nothing, or the proof update
of a goal it found in status `active`. -/
theorem submitProof_effect (r : Repository) (goalID : Int) (proof : String) :
    ((∃ e, (SubmitProof r goalID proof).1 = some e) ∧ (SubmitProof r goalID proof).2.db = r.db) ∨
      ((SubmitProof r goalID proof).1 = none ∧
        (∃ g, r.db.findGoal goalID = some g ∧ g.status = "active") ∧
        (SubmitProof r goalID proof).2.db = r.db.updateGoalProof goalID proof) := by
  obtain ⟨fs1, h1 | h1⟩ := getGoal_cases r goalID
  · left; simp [SubmitProof, h1]
  · cases hg : r.db.findGoal goalID with
    | none => left; simp [SubmitProof, h1, hg]
    | some g =>
      simp only [hg] at h1
      by_cases hact : g.status = "active"
      · obtain ⟨b, fs2, h2⟩ := tick_eq ⟨r.db, fs1⟩
        cases b
        · right
          simp [SubmitProof, h1, hact, Repository.UpdateGoalProof, h2]
        · left
          simp [SubmitProof, h1, hact, Repository.UpdateGoalProof, h2]
      · left; simp [SubmitProof, h1, hact]

/-- What `FinalizeGoal` does to the goals table, whatever fails: nothing, or a status
update to `success` or `failed` of a goal it found in status `done_pending`. -/
theorem finalizeGoal_goals (r : Repository) (goalID chatID : Int) :
    (FinalizeGoal r goalID chatID).2.db.goals = r.db.goals ∨
      ((∃ g, r.db.findGoal goalID = some g ∧ g.status = "done_pending") ∧
        ((FinalizeGoal r goalID chatID).2.db.goals
            = (r.db.updateGoalStatus goalID "success").goals ∨
          (FinalizeGoal r goalID chatID).2.db.goals
            = (r.db.updateGoalStatus goalID "failed").goals)) := by
  obtain ⟨fs1, h1 | h1⟩ := getGoal_cases r goalID
  · left; simp [FinalizeGoal, h1]
  · cases hg : r.db.findGoal goalID with
    | none => left; simp [FinalizeGoal, h1, hg]
    | some g =>
      simp only [hg] at h1
      by_cases hdp : g.status = "done_pending"
      · obtain ⟨fs2, h2 | h2⟩ := getChatMembers_cases ⟨r.db, fs1⟩ chatID
        · left; simp [FinalizeGoal, h1, hdp, h2]
        · obtain ⟨fs3, h3 | h3⟩ := countVotes_cases ⟨r.db, fs2⟩ goalID
          · left; simp [FinalizeGoal, h1, hdp, h2, h3]
          · simp only [FinalizeGoal, h1, hdp, h2, h3, ne_eq, not_true_eq_false, if_false]
            split
            · obtain ⟨fs4, h4 | h4⟩ := updateGoalStatus_cases ⟨r.db, fs3⟩ goalID "success"
              · left; simp [h4]
              · right
                exact ⟨⟨g, rfl, hdp⟩, Or.inl (by simp [h4])⟩
            · split
              · have hf := (failGoal_frame ⟨r.db, fs3⟩ goalID chatID).2.2.2.2
                generalize FailGoal ⟨r.db, fs3⟩ goalID chatID = res at hf ⊢
                obtain ⟨e4, r4⟩ := res
                rcases hf with ⟨_, hgo⟩ | ⟨_, hgo⟩
                · left
                  cases e4 <;> exact hgo
                · right
                  refine ⟨⟨g, rfl, hdp⟩, Or.inr ?_⟩
                  cases e4 <;> exact hgo
              · left; rfl
      · left; simp [FinalizeGoal, h1, hdp]

theorem voteOnGoal_goals (r : Repository) (goalID voterID : Int) (vote : Bool) :
    (VoteOnGoal r goalID voterID vote).2.db.goals = r.db.goals := by
  obtain ⟨fs1, h1 | h1⟩ := getGoal_cases r goalID
  · simp [VoteOnGoal, h1]
  · cases hg : r.db.findGoal goalID with
    | none => simp [VoteOnGoal, h1, hg]
    | some g =>
      simp only [hg] at h1
      by_cases hdp : g.status = "done_pending"
      · by_cases hown : g.userID = voterID
        · simp [VoteOnGoal, h1, hdp, hown]
        · obtain ⟨fs2, h2 | h2⟩ := createVote_cases ⟨r.db, fs1⟩ goalID voterID vote
          · simp [VoteOnGoal, h1, hdp, hown, h2]
          · simp only [VoteOnGoal, h1, hdp, hown, h2, ne_eq, not_true_eq_false, if_false]
            unfold DB.createVote
            split <;> rfl
      · simp [VoteOnGoal, h1, hdp]

theorem getOrCreateUser_goals (r : Repository) (tgID : Int) (username : String) :
    (r.GetOrCreateUser tgID username).2.db.goals = r.db.goals := by
  obtain ⟨b, fs1, h1⟩ := tick_eq r
  simp only [Repository.GetOrCreateUser, h1]
  cases b
  · simp only
    cases r.db.users.find? fun u => u.tgID = tgID with
    | some u => rfl
    | none =>
      obtain ⟨b2, fs2, h2⟩ := tick_eq ⟨r.db, fs1⟩
      simp only [h2]
      cases b2 <;> rfl
  · rfl

theorem registerUser_goals (r : Repository) (tgID : Int) (username : String) (chatID : Int) :
    (RegisterUser r tgID username chatID).2.db.goals = r.db.goals := by
  have h1 := getOrCreateUser_goals r tgID username
  unfold RegisterUser
  generalize r.GetOrCreateUser tgID username = res at h1 ⊢
  obtain ⟨res1, r1⟩ := res
  cases res1 with
  | error e => exact h1
  | ok user =>
    obtain ⟨b, fs2, h2⟩ := tick_eq r1
    simp only [Repository.AddChatMember, h2]
    cases b
    · simp only [DB.addChatMember]
      split <;> exact h1
    · exact h1

theorem getUserStats_goals (r : Repository) (userID : Int) :
    (GetUserStats r userID).2.db.goals = r.db.goals := by
  have h1 := getOrCreateUser_goals r userID ""
  unfold GetUserStats
  generalize r.GetOrCreateUser userID "" = res at h1 ⊢
  obtain ⟨res1, r1⟩ := res
  cases res1 with
  | error e => exact h1
  | ok user =>
    obtain ⟨b, fs2, h2⟩ := tick_eq r1
    simp only [h2]
    cases b <;> exact h1

/-- What `CreateGoal` does to the database, whatever fails: nothing, or the insertion of a
goal in status `active`. -/
theorem createGoal_effect (r : Repository) (userID chatID : Int) (title description : String)
    (deadline bet : Int) :
    (CreateGoal r userID chatID title description deadline bet).2.db = r.db ∨
      ∃ g, g.status = "active" ∧
        (CreateGoal r userID chatID title description deadline bet).2.db = r.db.insertGoal g := by
  obtain ⟨b, fs1, h1⟩ := tick_eq r
  simp only [CreateGoal, Repository.GetUserBalance, h1]
  cases b
  · simp only
    cases r.db.findUser userID with
    | none => left; rfl
    | some u =>
      simp only
      split
      · left; rfl
      · obtain ⟨b2, fs2, h2⟩ := tick_eq ⟨r.db, fs1⟩
        simp only [Repository.CreateGoal, h2]
        cases b2
        · right; exact ⟨_, rfl, rfl⟩
        · left; rfl
  · left; rfl

theorem statusOf_updateGoalStatus_self (db : DB) (gid : Int) (st : String) :
    (db.updateGoalStatus gid st).statusOf gid = (db.statusOf gid).map fun _ => st := by
  simp only [DB.statusOf, findGoal_updateGoalStatus]
  cases hf : db.findGoal gid with
  | none => rfl
  | some g =>
    have hid := findGoal_id db gid g hf
    simp [hid]

/-- A call of the service other than `SubmitProof` on that goal never turns a goal's status
into `done_pending`, and `SubmitProof` does so only from `active`. -/
theorem done_pending_origin (r : Repository) (c : Call) (gid : Int)
    (h : (Service.run r c).db.statusOf gid = some "done_pending") :
    r.db.statusOf gid = some "done_pending" ∨
      ((∃ proof, c = .submitProof gid proof) ∧ r.db.statusOf gid = some "active") := by
  cases c with
  | registerUser tgID username chatID =>
    left
    rw [← h]
    exact (statusOf_congr _ _ (registerUser_goals r tgID username chatID) gid).symm
  | getOrCreateUser tgID username =>
    left
    rw [← h]
    exact (statusOf_congr _ _ (getOrCreateUser_goals r tgID username) gid).symm
  | getUserStats userID =>
    left
    rw [← h]
    exact (statusOf_congr _ _ (getUserStats_goals r userID) gid).symm
  | voteOnGoal goalID voterID vote =>
    left
    rw [← h]
    exact (statusOf_congr _ _ (voteOnGoal_goals r goalID voterID vote) gid).symm
  | createGoal userID chatID title description deadline bet =>
    left
    simp only [Service.run] at h
    rcases createGoal_effect r userID chatID title description deadline bet with he | ⟨g, hg, he⟩
    · rw [he] at h
      exact h
    · rw [he] at h
      rcases statusOf_insertGoal r.db g gid with h2 | ⟨_, h2⟩
      · rw [h2] at h
        exact h
      · rw [h2, hg] at h
        exact absurd h (by decide)
  | submitProof goalID proof =>
    simp only [Service.run] at h
    rcases submitProof_effect r goalID proof with ⟨_, he⟩ | ⟨_, ⟨g, hg, hact⟩, he⟩
    · left
      rw [he] at h
      exact h
    · rw [he] at h
      by_cases hid : gid = goalID
      · right
        subst hid
        exact ⟨⟨proof, rfl⟩, by simp [DB.statusOf, hg, hact]⟩
      · left
        rw [statusOf_updateGoalProof_ne _ _ _ _ hid] at h
        exact h
  | finalizeGoal goalID chatID =>
    left
    simp only [Service.run] at h
    rcases finalizeGoal_goals r goalID chatID with he | ⟨_, he | he⟩
    · rw [statusOf_congr _ _ he] at h
      exact h
    · rw [statusOf_congr _ _ he] at h
      by_cases hid : gid = goalID
      · subst hid
        rw [statusOf_updateGoalStatus_self] at h
        cases hs : r.db.statusOf gid with
        | none => rw [hs] at h; cases h
        | some st =>
          rw [hs] at h
          simp only [Option.map_some', Option.some.injEq] at h
          exact absurd h (by decide)
      · rw [statusOf_updateGoalStatus_ne _ _ _ _ hid] at h
        exact h
    · rw [statusOf_congr _ _ he] at h
      by_cases hid : gid = goalID
      · subst hid
        rw [statusOf_updateGoalStatus_self] at h
        cases hs : r.db.statusOf gid with
        | none => rw [hs] at h; cases h
        | some st =>
          rw [hs] at h
          simp only [Option.map_some', Option.some.injEq] at h
          exact absurd h (by decide)
      · rw [statusOf_updateGoalStatus_ne _ _ _ _ hid] at h
        exact h
  | failGoal goalID chatID =>
    left
    simp only [Service.run] at h
    rcases (failGoal_frame r goalID chatID).2.2.2.2 with ⟨_, he⟩ | ⟨_, he⟩
    · rw [statusOf_congr _ _ he] at h
      exact h
    · rw [statusOf_congr _ _ he] at h
      by_cases hid : gid = goalID
      · subst hid
        rw [statusOf_updateGoalStatus_self] at h
        cases hs : r.db.statusOf gid with
        | none => rw [hs] at h; cases h
        | some st =>
          rw [hs] at h
          simp only [Option.map_some', Option.some.injEq] at h
          exact absurd h (by decide)
      · rw [statusOf_updateGoalStatus_ne _ _ _ _ hid] at h
        exact h

end GoalsTable

/-! ## C1: the penalty transactions add up to the stake -/

section PenaltySum

open Service

/-- C1. For every goal with stake `s > 0` and every membership that leaves `n ≥ 1`
recipients (members other than the owner), a `FailGoal` call in which no database call
fails returns no error, appends exactly `n` transactions to the log, each with reason
`penalty_distribution` and referring to the goal, whose amounts sum to exactly `s`; and
the increases of the recipients' balances sum to exactly `s`.  Under any script of store
failures, a call that returns no error leaves that same database. -/
theorem failGoal_penalty_sum (db : DB) (hk : db.WellKeyed) (goalID chatID : Int) (g : Goal)
    (hg : db.findGoal goalID = some g) (hs : 0 < g.bet)
    (hn : 1 ≤ (recipientsOf (db.chatMembersOf chatID) g.userID).length) :
    (FailGoal ⟨db, []⟩ goalID chatID).1 = none ∧
    (∃ txs : List Transaction,
      (FailGoal ⟨db, []⟩ goalID chatID).2.db.transactions = db.transactions ++ txs ∧
      txs.length = (recipientsOf (db.chatMembersOf chatID) g.userID).length ∧
      (∀ t ∈ txs, t.reason = "penalty_distribution" ∧ t.goalID = some goalID) ∧
      (txs.map Transaction.amount).sum = g.bet ∧
      ((recipientsOf (db.chatMembersOf chatID) g.userID).map fun r =>
        (FailGoal ⟨db, []⟩ goalID chatID).2.db.balanceOf r.id - db.balanceOf r.id).sum
        = g.bet) ∧
    (∀ faults : List Bool, (FailGoal ⟨db, faults⟩ goalID chatID).1 = none →
      (FailGoal ⟨db, faults⟩ goalID chatID).2.db = (FailGoal ⟨db, []⟩ goalID chatID).2.db) := by
  have hne : recipientsOf (db.chatMembersOf chatID) g.userID ≠ [] := by
    intro h
    rw [h] at hn
    simp at hn
  rw [failGoal_nil_faults db goalID chatID g hg hne]
  refine ⟨rfl, ⟨penaltyTxs g.userID goalID _ _ 0 _, ?_, penaltyTxs_length _ _ _ _ _ _, ?_,
    penaltyTxs_sum_stake _ _ _ (le_of_lt hs) _ hne, ?_⟩,
    fun faults hok => (failGoal_success_db ⟨db, faults⟩ goalID chatID g hg hok).2⟩
  · simp only [failGoalDB, DB.updateGoalStatus]
    rw [creditAll_transactions]
    rfl
  · intro t ht
    have := penaltyTxs_tags _ _ _ _ _ _ t ht
    exact ⟨this.1, this.2.1⟩
  · have hin : ∀ r ∈ recipientsOf (db.chatMembersOf chatID) g.userID,
        r.id ∈ (db.updateUserBalance g.userID (-g.bet)).users.map User.id := by
      intro r hr
      rw [updateUserBalance_ids]
      exact List.mem_map.mpr
        ⟨r, mem_chatMembersOf db chatID r ((mem_recipientsOf _ _ _).mp hr).1, rfl⟩
    rw [← penaltyTxs_sum_stake g.userID goalID g.bet (le_of_lt hs) _ hne,
      ← creditAll_balance_deltas g.userID goalID _ _ _
        (recipientsOf_nodup db hk chatID g.userID) 0 _ hin]
    congr 1
    apply List.map_congr_left
    intro r hr
    simp only [failGoalDB, balanceOf_updateGoalStatus]
    rw [balanceOf_updateUserBalance_ne db g.userID (-g.bet) r.id
      ((mem_recipientsOf _ _ _).mp hr).2]

/-- Witness of C1: the sample goal (stake 30, four recipients). -/
theorem failGoal_penalty_sum_witness :
    (FailGoal ⟨sampleDB "done_pending" [], []⟩ 10 7).1 = none ∧
    ∃ txs : List Transaction,
      (FailGoal ⟨sampleDB "done_pending" [], []⟩ 10 7).2.db.transactions
        = (sampleDB "done_pending" []).transactions ++ txs ∧
      txs.length = (recipientsOf ((sampleDB "done_pending" []).chatMembersOf 7) 1).length ∧
      (∀ t ∈ txs, t.reason = "penalty_distribution" ∧ t.goalID = some 10) ∧
      (txs.map Transaction.amount).sum = 30 ∧
      ((recipientsOf ((sampleDB "done_pending" []).chatMembersOf 7) 1).map fun r =>
        (FailGoal ⟨sampleDB "done_pending" [], []⟩ 10 7).2.db.balanceOf r.id
          - (sampleDB "done_pending" []).balanceOf r.id).sum = 30 :=
  have h := failGoal_penalty_sum (sampleDB "done_pending" [])
    (sampleDB_wellKeyed _ _ (by decide)) 10 7
    { id := 10, userID := 1, chatID := 7, title := "t", description := "d", deadline := 0,
      bet := 30, status := "done_pending", proofMessage := some "p", votingStartedAt := none }
    (by decide) (by decide) (by decide)
  ⟨h.1, h.2.1⟩

end PenaltySum

/-! ## C2: the decision rule of `FinalizeGoal` -/

section Decision

open Service

/-- C2. For every goal in status `done_pending`, with `totalVoters = memberCount - 1` and
`required = ceil(totalVoters / 2)`, `FinalizeGoal` (no database call failing) decides in
this order: if `yes ≥ required` the outcome is `success`, the goal's status becomes
`success`, and no balance changes and no transaction is recorded; else if
`no > totalVoters - required` the outcome is `failed`: the store is the one `FailGoal`
produces and the status is `failed`; otherwise the outcome is `pending` and the store is
unchanged.  The code's `(totalVoters + 1) / 2` equals `ceil(totalVoters / 2)` for every
member count `≥ 0`.  Under any script of store failures, a call that returns an outcome
returns that same outcome and leaves that same database. -/
theorem finalizeGoal_decision (db : DB) (hk : db.WellKeyed) (goalID chatID : Int) (g : Goal)
    (hg : db.findGoal goalID = some g) (hst : g.status = "done_pending") :
    (∀ m : Nat, requiredVotes (m : Int) = specRequired (totalVoters (m : Int))) ∧
    ((db.countVotes goalID).1 ≥
        specRequired (totalVoters ((db.chatMembersOf chatID).length : Int)) →
      FinalizeGoal ⟨db, []⟩ goalID chatID
        = (.ok .success, ⟨db.updateGoalStatus goalID "success", []⟩) ∧
      (db.updateGoalStatus goalID "success").statusOf goalID = some "success" ∧
      (db.updateGoalStatus goalID "success").users = db.users ∧
      (db.updateGoalStatus goalID "success").transactions = db.transactions) ∧
    (¬ (db.countVotes goalID).1 ≥
        specRequired (totalVoters ((db.chatMembersOf chatID).length : Int)) →
      (db.countVotes goalID).2 >
        totalVoters ((db.chatMembersOf chatID).length : Int)
          - specRequired (totalVoters ((db.chatMembersOf chatID).length : Int)) →
      ∃ db', FinalizeGoal ⟨db, []⟩ goalID chatID = (.ok .failed, ⟨db', []⟩) ∧
        FailGoal ⟨db, []⟩ goalID chatID = (none, ⟨db', []⟩) ∧
        db'.statusOf goalID = some "failed") ∧
    (¬ (db.countVotes goalID).1 ≥
        specRequired (totalVoters ((db.chatMembersOf chatID).length : Int)) →
      ¬ (db.countVotes goalID).2 >
        totalVoters ((db.chatMembersOf chatID).length : Int)
          - specRequired (totalVoters ((db.chatMembersOf chatID).length : Int)) →
      FinalizeGoal ⟨db, []⟩ goalID chatID = (.ok .pending, ⟨db, []⟩)) ∧
    (∀ (faults : List Bool) (o : Outcome),
      (FinalizeGoal ⟨db, faults⟩ goalID chatID).1 = .ok o →
      (FinalizeGoal ⟨db, []⟩ goalID chatID).1 = .ok o ∧
      (FinalizeGoal ⟨db, faults⟩ goalID chatID).2.db
        = (FinalizeGoal ⟨db, []⟩ goalID chatID).2.db) := by
  have hceil : ∀ m : Nat, requiredVotes (m : Int) = specRequired (totalVoters (m : Int)) :=
    fun m => requiredVotes_eq_ceil m (Int.natCast_nonneg m)
  refine ⟨hceil, ?_, ?_, ?_,
    fun faults o hok => finalizeGoal_success_db ⟨db, faults⟩ goalID chatID g hg hst o hok⟩ <;>
    rw [← hceil (db.chatMembersOf chatID).length,
      finalizeGoal_nil_faults db goalID chatID g hg hst]
  · intro hyes
    rw [if_pos hyes]
    exact ⟨rfl, statusOf_updateGoalStatus db goalID _ g hg, rfl, rfl⟩
  · intro hyes hno
    rw [if_neg hyes, if_pos hno]
    have hy0 := (countVotes_nonneg db goalID).1
    have hlen : 2 ≤ (db.chatMembersOf chatID).length := by
      by_contra hlt
      apply hyes
      have hm : ((db.chatMembersOf chatID).length : Int) ≤ 1 := by omega
      have hm0 : (0 : Int) ≤ ((db.chatMembersOf chatID).length : Int) := Int.natCast_nonneg _
      have : requiredVotes ((db.chatMembersOf chatID).length : Int) ≤ 0 := by
        unfold requiredVotes totalVoters
        rw [show ((db.chatMembersOf chatID).length : Int) - 1 + 1
          = ((db.chatMembersOf chatID).length : Int) by ring,
          Int.tdiv_eq_ediv hm0 (by norm_num)]
        omega
      omega
    have hne := recipientsOf_ne_nil (db.chatMembersOf chatID) g.userID
      (chatMembersOf_nodup db hk chatID) hlen
    rw [failGoal_nil_faults db goalID chatID g hg hne]
    exact ⟨_, rfl, rfl, statusOf_failGoalDB db goalID chatID g hg⟩
  · intro hyes hno
    rw [if_neg hyes, if_neg hno]

/-- Witness of C2: four members besides the owner and two yes votes give
`required = 2` and outcome `success`, balances and transactions as before. -/
theorem finalizeGoal_decision_witness :
    requiredVotes 5 = 2 ∧ specRequired (totalVoters 5) = 2 ∧
    FinalizeGoal ⟨sampleDB "done_pending" [⟨10, 2, true⟩, ⟨10, 3, true⟩], []⟩ 10 7
      = (.ok .success,
          ⟨(sampleDB "done_pending" [⟨10, 2, true⟩, ⟨10, 3, true⟩]).updateGoalStatus 10 "success",
            []⟩) ∧
    ((sampleDB "done_pending" [⟨10, 2, true⟩, ⟨10, 3, true⟩]).updateGoalStatus 10
      "success").users = (sampleDB "done_pending" [⟨10, 2, true⟩, ⟨10, 3, true⟩]).users := by
  have h := finalizeGoal_decision (sampleDB "done_pending" [⟨10, 2, true⟩, ⟨10, 3, true⟩])
    (sampleDB_wellKeyed _ _ (by decide)) 10 7
    { id := 10, userID := 1, chatID := 7, title := "t", description := "d", deadline := 0,
      bet := 30, status := "done_pending", proofMessage := some "p", votingStartedAt := none }
    (by decide) (by decide)
  have h5 : specRequired (totalVoters 5) = 2 := (h.1 5).symm.trans (by decide)
  have hmem : (((sampleDB "done_pending" [⟨10, 2, true⟩, ⟨10, 3, true⟩]).chatMembersOf 7).length
      : Int) = 5 := by decide
  have hsucc := h.2.1 (by rw [hmem, h5]; decide)
  exact ⟨by decide, h5, hsucc.1, hsucc.2.2.1⟩

end Decision

/-! ## C3: `FinalizeGoal` outside `done_pending` -/

section FinalizeRejected

open Service

/-- C3. For every goal whose status is not `done_pending`, every vote tally and
membership (the whole store is arbitrary) and every script of store failures,
`FinalizeGoal` returns an error and leaves the database unchanged (goals, balances, votes,
transactions and memberships); the error is `invalidState` unless the database call that
reads the goal itself fails. -/
theorem finalizeGoal_rejected_outside_done_pending (r : Repository) (goalID chatID : Int)
    (g : Goal) (hg : r.db.findGoal goalID = some g) (hst : g.status ≠ "done_pending") :
    (∃ e, (FinalizeGoal r goalID chatID).1 = .error e) ∧
      (FinalizeGoal r goalID chatID).2.db = r.db ∧
      (r.faults.head? ≠ some true →
        (FinalizeGoal r goalID chatID).1 = .error .invalidState) := by
  obtain ⟨db, faults⟩ := r
  simp only at hg
  cases faults with
  | nil => simp [FinalizeGoal, Repository.GetGoal, hg, hst]
  | cons b rest =>
    cases b <;> simp [FinalizeGoal, Repository.GetGoal, Repository.tick, hg, hst]

/-- Witness of C3: finalizing the sample goal in status `active`, with three votes
stored and no store failure. -/
theorem finalizeGoal_rejected_outside_done_pending_witness :
    (∃ e, (FinalizeGoal ⟨sampleDB "active" [⟨10, 2, false⟩, ⟨10, 3, false⟩, ⟨10, 4, false⟩],
        []⟩ 10 7).1 = .error e) ∧
      (FinalizeGoal ⟨sampleDB "active" [⟨10, 2, false⟩, ⟨10, 3, false⟩, ⟨10, 4, false⟩],
        []⟩ 10 7).2.db
        = sampleDB "active" [⟨10, 2, false⟩, ⟨10, 3, false⟩, ⟨10, 4, false⟩] ∧
      (([] : List Bool).head? ≠ some true →
        (FinalizeGoal ⟨sampleDB "active" [⟨10, 2, false⟩, ⟨10, 3, false⟩, ⟨10, 4, false⟩],
          []⟩ 10 7).1 = .error .invalidState) :=
  finalizeGoal_rejected_outside_done_pending
    ⟨sampleDB "active" [⟨10, 2, false⟩, ⟨10, 3, false⟩, ⟨10, 4, false⟩], []⟩ 10 7
    { id := 10, userID := 1, chatID := 7, title := "t", description := "d", deadline := 0,
      bet := 30, status := "active", proofMessage := some "p", votingStartedAt := none }
    (by decide) (by decide)

end FinalizeRejected

/-! ## C4: who gets how much -/

section Shares

open Service

/-- For a non-negative stake and a positive recipient count the code's truncating
quotient and remainder give the share the specification words. -/
theorem shareAmount_eq_spec (s n i : Int) (hs : 0 ≤ s) (hn : 0 < n) :
    shareAmount (s.tdiv n) (s.tmod n) i = s / n + if i < s % n then 1 else 0 := by
  unfold shareAmount
  rw [Int.tdiv_eq_ediv hs (le_of_lt hn), Int.tmod_eq_emod hs (le_of_lt hn)]
  split <;> simp

theorem penaltyTxs_eq_enumFrom (o gid app rem : Int) (recips : List User) :
    ∀ k : Nat, penaltyTxs o gid app rem (k : Int) recips
      = (recips.enumFrom k).map fun p =>
          { fromUser := o, toUser := p.2.id, amount := shareAmount app rem (p.1 : Int),
            reason := "penalty_distribution", goalID := some gid } := by
  induction recips with
  | nil => intro k; rfl
  | cons u rest ih =>
    intro k
    simp only [penaltyTxs, List.enumFrom_cons, List.map_cons]
    have := ih (k + 1)
    push_cast at this
    rw [this]

/-- The transactions `FailGoal` records are the split of the specification. -/
theorem penaltyTxs_eq_specShares (gid s : Int) (members : List User) (owner : Int)
    (hs : 0 ≤ s) (hn : recipientsOf members owner ≠ []) :
    penaltyTxs owner gid (s.tdiv ((recipientsOf members owner).length : Int))
        (s.tmod ((recipientsOf members owner).length : Int)) 0 (recipientsOf members owner)
      = (specShares s members owner).map fun p =>
          { fromUser := owner, toUser := p.1, amount := p.2,
            reason := "penalty_distribution", goalID := some gid } := by
  have hlen : (0 : Int) < (recipientsOf members owner).length := by
    have : 0 < (recipientsOf members owner).length := List.length_pos.mpr hn
    exact_mod_cast this
  have h := penaltyTxs_eq_enumFrom owner gid
    (s.tdiv ((recipientsOf members owner).length : Int))
    (s.tmod ((recipientsOf members owner).length : Int)) (recipientsOf members owner) 0
  simp only [Nat.cast_zero] at h
  rw [h]
  simp only [specShares, List.map_map, List.enum]
  apply List.map_congr_left
  intro p _
  simp only [Function.comp, recipientsOf]
  rw [shareAmount_eq_spec s _ _ hs (by simpa [recipientsOf] using hlen)]

/-- C4. For every stake `s > 0` and every member list, with the recipients the members
other than the owner in the order the membership query returns them and
`n = len(recipients) ≥ 1`: a `FailGoal` call in which no database call fails credits the
recipient at 0-based position `i` with exactly `s / n` plus 1 if `i < s mod n`; every user
who is neither the owner nor a recipient keeps their balance; and the recorded transfers
are the split `specShares s members owner`, a function of the stake, the ordered member
list and the owner only.  Under any script of store failures, a call that returns no error
leaves that same database. -/
theorem failGoal_shares (db : DB) (hk : db.WellKeyed) (goalID chatID : Int) (g : Goal)
    (hg : db.findGoal goalID = some g) (hs : 0 < g.bet)
    (hn : 1 ≤ (recipientsOf (db.chatMembersOf chatID) g.userID).length) :
    (FailGoal ⟨db, []⟩ goalID chatID).1 = none ∧
    (∀ (i : Nat) (hi : i < (recipientsOf (db.chatMembersOf chatID) g.userID).length),
      (FailGoal ⟨db, []⟩ goalID chatID).2.db.balanceOf
          ((recipientsOf (db.chatMembersOf chatID) g.userID)[i]).id
        = db.balanceOf ((recipientsOf (db.chatMembersOf chatID) g.userID)[i]).id
          + (g.bet / ((recipientsOf (db.chatMembersOf chatID) g.userID).length : Int)
            + if (i : Int) <
                g.bet % ((recipientsOf (db.chatMembersOf chatID) g.userID).length : Int)
              then 1 else 0)) ∧
    (∀ x : Int, x ≠ g.userID →
      x ∉ (recipientsOf (db.chatMembersOf chatID) g.userID).map User.id →
      (FailGoal ⟨db, []⟩ goalID chatID).2.db.balanceOf x = db.balanceOf x) ∧
    (FailGoal ⟨db, []⟩ goalID chatID).2.db.transactions
      = db.transactions ++ ((specShares g.bet (db.chatMembersOf chatID) g.userID).map fun p =>
          { fromUser := g.userID, toUser := p.1, amount := p.2,
            reason := "penalty_distribution", goalID := some goalID }) ∧
    (∀ faults : List Bool, (FailGoal ⟨db, faults⟩ goalID chatID).1 = none →
      (FailGoal ⟨db, faults⟩ goalID chatID).2.db = (FailGoal ⟨db, []⟩ goalID chatID).2.db) := by
  have hne : recipientsOf (db.chatMembersOf chatID) g.userID ≠ [] := by
    intro h
    rw [h] at hn
    simp at hn
  have hlen : (0 : Int) < (recipientsOf (db.chatMembersOf chatID) g.userID).length := by
    exact_mod_cast hn
  rw [failGoal_nil_faults db goalID chatID g hg hne]
  refine ⟨rfl, ?_, ?_, ?_,
    fun faults hok => (failGoal_success_db ⟨db, faults⟩ goalID chatID g hg hok).2⟩
  · intro i hi
    have hin : ∀ r ∈ recipientsOf (db.chatMembersOf chatID) g.userID,
        r.id ∈ (db.updateUserBalance g.userID (-g.bet)).users.map User.id := by
      intro r hr
      rw [updateUserBalance_ids]
      exact List.mem_map.mpr
        ⟨r, mem_chatMembersOf db chatID r ((mem_recipientsOf _ _ _).mp hr).1, rfl⟩
    simp only [failGoalDB, balanceOf_updateGoalStatus]
    rw [creditAll_balanceOf_getElem g.userID goalID _ _ _
        (recipientsOf_nodup db hk chatID g.userID) 0 _ hin i hi,
      balanceOf_updateUserBalance_ne db g.userID (-g.bet) _
        ((mem_recipientsOf _ _ _).mp (List.getElem_mem hi)).2,
      shareAmount_eq_spec _ _ _ (le_of_lt hs) hlen, zero_add]
  · intro x hxo hxr
    simp only [failGoalDB, balanceOf_updateGoalStatus]
    rw [creditAll_balanceOf_notin _ _ _ _ x _ hxr, balanceOf_updateUserBalance_ne _ _ _ _ hxo]
  · simp only [failGoalDB, DB.updateGoalStatus]
    rw [creditAll_transactions, penaltyTxs_eq_specShares goalID g.bet _ _ (le_of_lt hs) hne]
    rfl

/-- Witness of C4: stake 30 and four recipients give the shares 8, 8, 7, 7 in the order
of the member list. -/
theorem failGoal_shares_witness :
    specShares 30 ((sampleDB "done_pending" []).chatMembersOf 7) 1
      = [(2, 8), (3, 8), (4, 7), (5, 7)] ∧
    (FailGoal ⟨sampleDB "done_pending" [], []⟩ 10 7).2.db.transactions
      = (sampleDB "done_pending" []).transactions ++
          (specShares 30 ((sampleDB "done_pending" []).chatMembersOf 7) 1).map fun p =>
            { fromUser := 1, toUser := p.1, amount := p.2,
              reason := "penalty_distribution", goalID := some 10 } :=
  ⟨by decide,
    (failGoal_shares (sampleDB "done_pending" []) (sampleDB_wellKeyed _ _ (by decide)) 10 7
      { id := 10, userID := 1, chatID := 7, title := "t", description := "d", deadline := 0,
        bet := 30, status := "done_pending", proofMessage := some "p",
        votingStartedAt := none }
      (by decide) (by decide) (by decide)).2.2.2.1⟩

end Shares

/-! ## C5: a failed vote debits the owner -/

section FailedOutcome

open Service

/-- C5. For every `done_pending` goal with stake `s > 0` whose group holds the owner and
`n ≥ 1` other members, if `yes < required` and `no > totalVoters - required` then
`FinalizeGoal` (no database call failing) returns the outcome `failed`, sets the status to
`failed` and lowers the owner's balance by exactly `s` without clamping (an owner balance
below `s` becomes negative), while the sum of all users' balances is unchanged.  Under any
script of store failures, a call that returns an outcome returns `failed` and leaves that
same database. -/
theorem finalizeGoal_failed_debits_owner (db : DB) (hk : db.WellKeyed) (goalID chatID : Int)
    (g : Goal) (hg : db.findGoal goalID = some g) (hst : g.status = "done_pending")
    (hs : 0 < g.bet) (hown : g.userID ∈ (db.chatMembersOf chatID).map User.id)
    (hn : 1 ≤ (recipientsOf (db.chatMembersOf chatID) g.userID).length)
    (hyes : (db.countVotes goalID).1 < requiredVotes ((db.chatMembersOf chatID).length : Int))
    (hno : (db.countVotes goalID).2 >
      totalVoters ((db.chatMembersOf chatID).length : Int)
        - requiredVotes ((db.chatMembersOf chatID).length : Int)) :
    (FinalizeGoal ⟨db, []⟩ goalID chatID).1 = .ok .failed ∧
    (FinalizeGoal ⟨db, []⟩ goalID chatID).2.db.statusOf goalID = some "failed" ∧
    (FinalizeGoal ⟨db, []⟩ goalID chatID).2.db.balanceOf g.userID
      = db.balanceOf g.userID - g.bet ∧
    (db.balanceOf g.userID < g.bet →
      (FinalizeGoal ⟨db, []⟩ goalID chatID).2.db.balanceOf g.userID < 0) ∧
    (FinalizeGoal ⟨db, []⟩ goalID chatID).2.db.totalBalance = db.totalBalance ∧
    (∀ (faults : List Bool) (o : Outcome),
      (FinalizeGoal ⟨db, faults⟩ goalID chatID).1 = .ok o →
      o = .failed ∧
      (FinalizeGoal ⟨db, faults⟩ goalID chatID).2.db
        = (FinalizeGoal ⟨db, []⟩ goalID chatID).2.db) := by
  have hne : recipientsOf (db.chatMembersOf chatID) g.userID ≠ [] := by
    intro h
    rw [h] at hn
    simp at hn
  have hownU : g.userID ∈ db.users.map User.id := by
    obtain ⟨u, hu, hid⟩ := List.mem_map.mp hown
    exact List.mem_map.mpr ⟨u, mem_chatMembersOf db chatID u hu, hid⟩
  have hnotin : g.userID ∉ (recipientsOf (db.chatMembersOf chatID) g.userID).map User.id := by
    intro h
    obtain ⟨r, hr, hid⟩ := List.mem_map.mp h
    exact ((mem_recipientsOf _ _ _).mp hr).2 hid
  have hbal : (failGoalDB db goalID chatID g).balanceOf g.userID
      = db.balanceOf g.userID - g.bet := by
    simp only [failGoalDB, balanceOf_updateGoalStatus]
    rw [creditAll_balanceOf_notin _ _ _ _ _ _ hnotin,
      balanceOf_updateUserBalance_self db _ _ hownU]
    ring
  have hids := updateUserBalance_ids db g.userID (-g.bet)
  have htot : (failGoalDB db goalID chatID g).totalBalance = db.totalBalance := by
    simp only [failGoalDB, totalBalance_updateGoalStatus]
    rw [creditAll_totalBalance _ _ _ _ _ 0 _ (hids ▸ hk.users)
        (fun r hr => hids ▸ List.mem_map.mpr
          ⟨r, mem_chatMembersOf db chatID r ((mem_recipientsOf _ _ _).mp hr).1, rfl⟩),
      penaltyTxs_sum_stake _ _ _ (le_of_lt hs) _ hne,
      totalBalance_updateUserBalance db _ _ hk.users hownU]
    ring
  have hnil : FinalizeGoal ⟨db, []⟩ goalID chatID
      = (.ok .failed, ⟨failGoalDB db goalID chatID g, []⟩) := by
    rw [finalizeGoal_nil_faults db goalID chatID g hg hst, if_neg (not_le.mpr hyes),
      if_pos hno, failGoal_nil_faults db goalID chatID g hg hne]
  have hany : ∀ (faults : List Bool) (o : Outcome),
      (FinalizeGoal ⟨db, faults⟩ goalID chatID).1 = .ok o →
      o = .failed ∧
      (FinalizeGoal ⟨db, faults⟩ goalID chatID).2.db
        = (FinalizeGoal ⟨db, []⟩ goalID chatID).2.db := by
    intro faults o hok
    have h := finalizeGoal_success_db ⟨db, faults⟩ goalID chatID g hg hst o hok
    refine ⟨?_, h.2⟩
    have h1 := h.1
    rw [hnil] at h1
    cases h1
    rfl
  refine ⟨?_, ?_, ?_, ?_, ?_, hany⟩ <;> rw [hnil]
  · exact statusOf_failGoalDB db goalID chatID g hg
  · exact hbal
  · intro hlt
    show (failGoalDB db goalID chatID g).balanceOf g.userID < 0
    rw [hbal]
    omega
  · exact htot

/-- Witness of C5: four members besides the owner, three no votes, stake 30: the outcome
is `failed`, the owner goes from 100 to 70 and the four recipients receive 8, 8, 7, 7. -/
theorem finalizeGoal_failed_debits_owner_witness :
    (FinalizeGoal ⟨sampleDB "done_pending" [⟨10, 2, false⟩, ⟨10, 3, false⟩, ⟨10, 4, false⟩],
      []⟩ 10 7).1 = .ok .failed ∧
    (FinalizeGoal ⟨sampleDB "done_pending" [⟨10, 2, false⟩, ⟨10, 3, false⟩, ⟨10, 4, false⟩],
      []⟩ 10 7).2.db.statusOf 10 = some "failed" ∧
    (FinalizeGoal ⟨sampleDB "done_pending" [⟨10, 2, false⟩, ⟨10, 3, false⟩, ⟨10, 4, false⟩],
      []⟩ 10 7).2.db.balanceOf 1
      = (sampleDB "done_pending" [⟨10, 2, false⟩, ⟨10, 3, false⟩, ⟨10, 4, false⟩]).balanceOf 1
        - 30 ∧
    (FinalizeGoal ⟨sampleDB "done_pending" [⟨10, 2, false⟩, ⟨10, 3, false⟩, ⟨10, 4, false⟩],
      []⟩ 10 7).2.db.totalBalance
      = (sampleDB "done_pending"
          [⟨10, 2, false⟩, ⟨10, 3, false⟩, ⟨10, 4, false⟩]).totalBalance ∧
    (FinalizeGoal ⟨sampleDB "done_pending" [⟨10, 2, false⟩, ⟨10, 3, false⟩, ⟨10, 4, false⟩],
      []⟩ 10 7).2.db.users.map User.balance = [70, 108, 108, 107, 107] :=
  have h := finalizeGoal_failed_debits_owner
    (sampleDB "done_pending" [⟨10, 2, false⟩, ⟨10, 3, false⟩, ⟨10, 4, false⟩])
    (sampleDB_wellKeyed _ _ (by decide)) 10 7
    { id := 10, userID := 1, chatID := 7, title := "t", description := "d", deadline := 0,
      bet := 30, status := "done_pending", proofMessage := some "p", votingStartedAt := none }
    (by decide) (by decide) (by decide) (by decide) (by decide) (by decide) (by decide)
  ⟨h.1, h.2.1, h.2.2.1, h.2.2.2.2.1, by decide⟩

end FailedOutcome

/-! ## C6: no recipients -/

section NoRecipients

open Service

/-- C6. For every goal whose group has no member other than the owner and every script
of store failures, `FailGoal` returns an error and changes nothing in the database (no
debit, no transaction, status not set to `failed`); the error is `noRecipients` when no
database call fails.  Consequently `FinalizeGoal` on such a goal, in any status other than
`failed`, never leaves it in status `failed`. -/
theorem failGoal_without_recipients (r : Repository) (goalID chatID : Int) (g : Goal)
    (hg : r.db.findGoal goalID = some g)
    (hnone : recipientsOf (r.db.chatMembersOf chatID) g.userID = []) :
    (∃ e, (FailGoal r goalID chatID).1 = some e) ∧
    (FailGoal r goalID chatID).2.db = r.db ∧
    (r.faults = [] → (FailGoal r goalID chatID).1 = some .noRecipients) ∧
    (g.status ≠ "failed" →
      (FinalizeGoal r goalID chatID).2.db.statusOf goalID ≠ some "failed") := by
  have hun := failGoal_no_recipients_unchanged r goalID chatID g hg hnone
  refine ⟨hun.1, hun.2, ?_, ?_⟩
  · intro hf
    obtain ⟨db, faults⟩ := r
    simp only at hf hg hnone
    subst hf
    simp [FailGoal, Repository.GetGoal, Repository.GetChatMembers, hg, hnone]
  · intro hst
    have hsame : r.db.statusOf goalID ≠ some "failed" := by
      simp [DB.statusOf, hg, hst]
    obtain ⟨fs1, h1 | h1⟩ := getGoal_cases r goalID
    · simpa [FinalizeGoal, h1] using hsame
    · simp only [hg] at h1
      by_cases hdp : g.status = "done_pending"
      · obtain ⟨fs2, h2 | h2⟩ := getChatMembers_cases ⟨r.db, fs1⟩ chatID
        · simpa [FinalizeGoal, h1, hdp, h2] using hsame
        · obtain ⟨fs3, h3 | h3⟩ := countVotes_cases ⟨r.db, fs2⟩ goalID
          · simpa [FinalizeGoal, h1, hdp, h2, h3] using hsame
          · simp only [FinalizeGoal, h1, hdp, h2, h3, ne_eq, not_true_eq_false, if_false]
            split
            · obtain ⟨fs4, h4 | h4⟩ := updateGoalStatus_cases ⟨r.db, fs3⟩ goalID "success"
              · simpa [h4] using hsame
              · simp only [h4]
                rw [statusOf_updateGoalStatus r.db goalID "success" g hg]
                decide
            · split
              · have hun3 := failGoal_no_recipients_unchanged ⟨r.db, fs3⟩ goalID chatID g hg hnone
                obtain ⟨⟨e, he⟩, hdb⟩ := hun3
                generalize FailGoal ⟨r.db, fs3⟩ goalID chatID = res at he hdb ⊢
                obtain ⟨e4, r4⟩ := res
                simp only at he hdb
                subst he
                simpa [hdb] using hsame
              · simpa using hsame
      · simpa [FinalizeGoal, h1, hdp] using hsame

/-- Witness of C6: the owner is the only member of chat 8; `FailGoal` returns
`noRecipients` and the database is as before. -/
theorem failGoal_without_recipients_witness :
    (FailGoal ⟨{ sampleDB "done_pending" [] with chatMembers := [⟨8, 1⟩] }, []⟩ 10 8).1
      = some .noRecipients ∧
    (FailGoal ⟨{ sampleDB "done_pending" [] with chatMembers := [⟨8, 1⟩] }, []⟩ 10 8).2.db
      = { sampleDB "done_pending" [] with chatMembers := [⟨8, 1⟩] } ∧
    (FinalizeGoal ⟨{ sampleDB "done_pending" [] with chatMembers := [⟨8, 1⟩] }, []⟩ 10
      8).2.db.statusOf 10 ≠ some "failed" :=
  have h := failGoal_without_recipients
    ⟨{ sampleDB "done_pending" [] with chatMembers := [⟨8, 1⟩] }, []⟩ 10 8
    { id := 10, userID := 1, chatID := 7, title := "t", description := "d", deadline := 0,
      bet := 30, status := "done_pending", proofMessage := some "p", votingStartedAt := none }
    (by decide) (by decide)
  ⟨h.2.2.1 rfl, h.2.1, h.2.2.2 (by decide)⟩

end NoRecipients

/-! ## C7: a failing write inside `FailGoal` -/

section Atomicity

open Service

end Atomicity

/-! ## C8: who may vote, and when -/

section Voting

open Service

/-- A vote on a goal that is not `done_pending`, or by the goal's owner, is refused before
any write, whatever the script of store failures. -/
theorem voteOnGoal_refused (r : Repository) (goalID voterID : Int) (vote : Bool) (g : Goal)
    (hg : r.db.findGoal goalID = some g)
    (hrej : g.status ≠ "done_pending" ∨ g.userID = voterID) :
    (∃ e, (VoteOnGoal r goalID voterID vote).1 = some e) ∧
      (VoteOnGoal r goalID voterID vote).2.db = r.db := by
  obtain ⟨fs1, h1 | h1⟩ := getGoal_cases r goalID
  · simp [VoteOnGoal, h1]
  · simp only [hg] at h1
    by_cases hdp : g.status = "done_pending"
    · have hown : g.userID = voterID := by
        rcases hrej with h | h
        · exact absurd hdp h
        · exact h
      simp [VoteOnGoal, h1, hdp, hown]
    · simp [VoteOnGoal, h1, hdp]

theorem revote_refused (goalID voterID : Int) (g : Goal)
    (hrej : g.status ≠ "done_pending" ∨ g.userID = voterID) (decisions : List Bool) :
    ∀ r : Repository, r.db.findGoal goalID = some g →
      (revote goalID voterID r decisions).db = r.db := by
  induction decisions with
  | nil => intro r _; rfl
  | cons d rest ih =>
    intro r hg
    have h1 := (voteOnGoal_refused r goalID voterID d g hg hrej).2
    simp only [revote, List.foldl_cons]
    have := ih (VoteOnGoal r goalID voterID d).2 (by rw [h1]; exact hg)
    simp only [revote] at this
    rw [this, h1]

/-- After `createVote` the pair has a row, and every row of the pair holds the decision. -/
theorem createVote_recorded (db : DB) (goalID voterID : Int) (vote : Bool) :
    (∃ v ∈ (db.createVote goalID voterID vote).votes,
      v.goalID = goalID ∧ v.voterID = voterID ∧ v.vote = vote) ∧
    (∀ v ∈ (db.createVote goalID voterID vote).votes,
      v.goalID = goalID → v.voterID = voterID → v.vote = vote) := by
  unfold DB.createVote
  split
  · rename_i hany
    simp only [List.any_eq_true, decide_eq_true_eq] at hany
    obtain ⟨v0, hv0, hm⟩ := hany
    constructor
    · refine ⟨{ v0 with vote := vote }, ?_, hm.1, hm.2, rfl⟩
      simp only [List.mem_map]
      exact ⟨v0, hv0, by simp [hm]⟩
    · intro v hv h1 h2
      simp only [List.mem_map] at hv
      obtain ⟨v1, _, rfl⟩ := hv
      by_cases hm1 : v1.goalID = goalID ∧ v1.voterID = voterID
      · simp [hm1]
      · simp only [hm1, if_false] at h1 h2
        exact absurd ⟨h1, h2⟩ hm1
  · rename_i hany
    simp only [List.any_eq_true, decide_eq_true_eq, not_exists, not_and] at hany
    constructor
    · exact ⟨⟨goalID, voterID, vote⟩, by simp, rfl, rfl, rfl⟩
    · intro v hv h1 h2
      simp only [List.mem_append, List.mem_singleton] at hv
      rcases hv with hv | rfl
      · exact absurd h2 (hany v hv h1)
      · rfl

/-- C8. For every goal, voter and decision: `VoteOnGoal` fails and leaves the database
(so the stored votes) unchanged when the goal's status is not `done_pending` (with
`invalidState`) and when the voter is the goal's owner (with `selfVoteForbidden` once the
status is `done_pending`; the status check comes first), for every script of store
failures and however many times and with whatever decisions the vote is re-submitted; the
named error is returned whenever the read of the goal does not fail.  When the status is
`done_pending` and the voter is not the owner, the call returns no error if no database
call fails, and whenever it returns no error the vote is recorded.  Hence no reachable
database holds a vote by the owner on their own goal. -/
theorem voteOnGoal_guards (r : Repository) (goalID voterID : Int) (vote : Bool) (g : Goal)
    (hg : r.db.findGoal goalID = some g) :
    (g.status ≠ "done_pending" →
      (∃ e, (VoteOnGoal r goalID voterID vote).1 = some e) ∧
      (r.faults.head? ≠ some true →
        (VoteOnGoal r goalID voterID vote).1 = some .invalidState) ∧
      (VoteOnGoal r goalID voterID vote).2.db = r.db ∧
      ∀ decisions, (revote goalID voterID r decisions).db = r.db) ∧
    (g.userID = voterID →
      (∃ e, (VoteOnGoal r goalID voterID vote).1 = some e) ∧
      (g.status = "done_pending" → r.faults.head? ≠ some true →
        (VoteOnGoal r goalID voterID vote).1 = some .selfVoteForbidden) ∧
      (VoteOnGoal r goalID voterID vote).2.db = r.db ∧
      ∀ decisions, (revote goalID voterID r decisions).db = r.db) ∧
    (g.status = "done_pending" → g.userID ≠ voterID →
      (r.faults = [] → (VoteOnGoal r goalID voterID vote).1 = none) ∧
      ((VoteOnGoal r goalID voterID vote).1 = none →
        (∃ v ∈ (VoteOnGoal r goalID voterID vote).2.db.votes,
          v.goalID = goalID ∧ v.voterID = voterID ∧ v.vote = vote) ∧
        (∀ v ∈ (VoteOnGoal r goalID voterID vote).2.db.votes,
          v.goalID = goalID → v.voterID = voterID → v.vote = vote))) ∧
    (∀ db, Reachable db →
      ∀ v ∈ db.votes, ∀ g2 ∈ db.goals, g2.id = v.goalID → g2.userID ≠ v.voterID) := by
  refine ⟨?_, ?_, ?_, ?_⟩
  · intro hst
    have h := voteOnGoal_refused r goalID voterID vote g hg (Or.inl hst)
    refine ⟨h.1, ?_, h.2, fun ds => revote_refused goalID voterID g (Or.inl hst) ds r hg⟩
    intro hf
    obtain ⟨db, faults⟩ := r
    simp only at hg
    cases faults with
    | nil => simp [VoteOnGoal, Repository.GetGoal, hg, hst]
    | cons b rest =>
      cases b
      · simp [VoteOnGoal, Repository.GetGoal, Repository.tick, hg, hst]
      · simp at hf
  · intro hown
    have h := voteOnGoal_refused r goalID voterID vote g hg (Or.inr hown)
    refine ⟨h.1, ?_, h.2, fun ds => revote_refused goalID voterID g (Or.inr hown) ds r hg⟩
    intro hst hf
    obtain ⟨db, faults⟩ := r
    simp only at hg
    cases faults with
    | nil => simp [VoteOnGoal, Repository.GetGoal, hg, hst, hown]
    | cons b rest =>
      cases b
      · simp [VoteOnGoal, Repository.GetGoal, Repository.tick, hg, hst, hown]
      · simp at hf
  · intro hst hown
    constructor
    · intro hf
      obtain ⟨db, faults⟩ := r
      simp only at hg hf
      subst hf
      simp [VoteOnGoal, Repository.GetGoal, hg, hst, hown, Repository.CreateVote]
    · intro hok
      rw [(voteOnGoal_success_db r goalID voterID vote g hg hok).2.2]
      exact createVote_recorded r.db goalID voterID vote
  · intro db hdb
    exact (reachable_inv db hdb).noSelfVote

/-- Witness of C8: on the sample goal in status `done_pending` member 2 votes yes and the
vote is stored. -/
theorem voteOnGoal_guards_witness :
    (VoteOnGoal ⟨sampleDB "done_pending" [], []⟩ 10 2 true).1 = none ∧
    (∃ v ∈ (VoteOnGoal ⟨sampleDB "done_pending" [], []⟩ 10 2 true).2.db.votes,
      v.goalID = 10 ∧ v.voterID = 2 ∧ v.vote = true) ∧
    (∀ v ∈ (VoteOnGoal ⟨sampleDB "done_pending" [], []⟩ 10 2 true).2.db.votes,
      v.goalID = 10 → v.voterID = 2 → v.vote = true) :=
  have h := (voteOnGoal_guards ⟨sampleDB "done_pending" [], []⟩ 10 2 true
    { id := 10, userID := 1, chatID := 7, title := "t", description := "d", deadline := 0,
      bet := 30, status := "done_pending", proofMessage := some "p", votingStartedAt := none }
    (by decide)).2.2.1 (by decide) (by decide)
  ⟨h.1 rfl, h.2 (h.1 rfl)⟩

end Voting

/-! ## C9: the last vote wins -/

section LastVote

open Service

theorem findGoal_createVote (db : DB) (goalID voterID : Int) (vote : Bool) (gid : Int) :
    (db.createVote goalID voterID vote).findGoal gid = db.findGoal gid := by
  unfold DB.createVote
  split <;> rfl

/-- Overwriting a decision with `createVote` forgets the overwritten one. -/
theorem createVote_createVote (db : DB) (goalID voterID : Int) (d1 d2 : Bool) :
    (db.createVote goalID voterID d1).createVote goalID voterID d2
      = db.createVote goalID voterID d2 := by
  by_cases hany : db.votes.any (fun v => v.goalID = goalID ∧ v.voterID = voterID) = true
  · have hany2 : (db.votes.map fun v =>
        if v.goalID = goalID ∧ v.voterID = voterID then { v with vote := d1 } else v).any
        (fun v => v.goalID = goalID ∧ v.voterID = voterID) = true := by
      simp only [List.any_eq_true, decide_eq_true_eq, List.mem_map] at hany ⊢
      obtain ⟨v0, hv0, hm⟩ := hany
      exact ⟨{ v0 with vote := d1 }, ⟨v0, hv0, by simp [hm]⟩, hm⟩
    simp only [DB.createVote, hany, hany2, if_true, List.map_map]
    congr 1
    apply List.map_congr_left
    intro v _
    by_cases hm : v.goalID = goalID ∧ v.voterID = voterID
    · simp [hm]
    · simp [hm]
  · have hnone : ∀ v ∈ db.votes, ¬ (v.goalID = goalID ∧ v.voterID = voterID) := by
      simp only [List.any_eq_true, decide_eq_true_eq, not_exists, not_and] at hany
      intro v hv hm
      exact hany v hv hm.1 hm.2
    have hany2 : (db.votes ++ [({ goalID := goalID, voterID := voterID, vote := d1 } : Vote)]).any
        (fun v => v.goalID = goalID ∧ v.voterID = voterID) = true := by
      simp
    simp only [DB.createVote, hany, hany2, if_true, Bool.false_eq_true, if_false,
      List.map_append, List.map_cons, List.map_nil, and_self]
    congr 2
    conv_rhs => rw [← List.map_id db.votes]
    apply List.map_congr_left
    intro v hv
    simp [hnone v hv]

/-- Under the unique key a pair has at most one vote row. -/
theorem votes_of_pair (votes : List Vote)
    (hk : (votes.map fun v => (v.goalID, v.voterID)).Nodup) (goalID voterID : Int) :
    (votes.filter fun v => v.goalID = goalID ∧ v.voterID = voterID) = [] ∨
      ∃ v, (votes.filter fun v => v.goalID = goalID ∧ v.voterID = voterID) = [v] := by
  induction votes with
  | nil => left; rfl
  | cons a rest ih =>
    simp only [List.map_cons, List.nodup_cons] at hk
    by_cases hm : a.goalID = goalID ∧ a.voterID = voterID
    · right
      refine ⟨a, ?_⟩
      have hrest : (rest.filter fun v => v.goalID = goalID ∧ v.voterID = voterID) = [] := by
        rw [List.filter_eq_nil_iff]
        intro v hv hvm
        simp only [decide_eq_true_eq] at hvm
        apply hk.1
        rw [List.mem_map]
        exact ⟨v, hv, by rw [hvm.1, hvm.2, hm.1, hm.2]⟩
      rw [List.filter_cons_of_pos (by simpa using hm), hrest]
    · rw [List.filter_cons_of_neg (by simpa using hm)]
      exact ih hk.2

/-- After `createVote` the pair has exactly one row, holding the decision. -/
theorem votesOf_createVote (db : DB) (hk : db.WellKeyed) (goalID voterID : Int) (d : Bool) :
    (db.createVote goalID voterID d).votesOf goalID voterID
      = [{ goalID := goalID, voterID := voterID, vote := d }] := by
  by_cases hany : db.votes.any (fun v => v.goalID = goalID ∧ v.voterID = voterID) = true
  · simp only [DB.votesOf, DB.createVote, hany, if_true]
    rw [List.filter_map]
    have hcomp : ((fun v : Vote => decide (v.goalID = goalID ∧ v.voterID = voterID)) ∘
        fun v : Vote => if v.goalID = goalID ∧ v.voterID = voterID then { v with vote := d } else v)
        = fun v : Vote => decide (v.goalID = goalID ∧ v.voterID = voterID) := by
      funext v
      simp only [Function.comp]
      split <;> simp_all
    rw [hcomp]
    rcases votes_of_pair db.votes hk.votes goalID voterID with h | ⟨v, h⟩
    · exfalso
      simp only [List.any_eq_true, decide_eq_true_eq] at hany
      obtain ⟨v0, hv0, hm⟩ := hany
      have : v0 ∈ db.votes.filter fun v => v.goalID = goalID ∧ v.voterID = voterID := by
        simp [List.mem_filter, hv0, hm]
      rw [h] at this
      simp at this
    · rw [h]
      have hv : v ∈ db.votes.filter fun v => v.goalID = goalID ∧ v.voterID = voterID := by
        rw [h]; simp
      simp only [List.mem_filter, decide_eq_true_eq] at hv
      simp [hv.2]
  · have hnone : (db.votes.filter fun v => v.goalID = goalID ∧ v.voterID = voterID) = [] := by
      rw [List.filter_eq_nil_iff]
      intro v hv hvm
      apply hany
      simp only [List.any_eq_true]
      exact ⟨v, hv, hvm⟩
    simp only [DB.votesOf, DB.createVote, hany, Bool.false_eq_true, if_false, List.filter_append,
      hnone]
    simp

/-- The two counts of `CountVotes` add up to the number of vote rows of the goal. -/
theorem countVotes_sum (votes : List Vote) (goalID : Int) :
    (votes.filter fun v => v.goalID = goalID ∧ v.vote = true).length
      + (votes.filter fun v => v.goalID = goalID ∧ v.vote = false).length
      = (votes.filter fun v => v.goalID = goalID).length := by
  induction votes with
  | nil => rfl
  | cons a rest ih =>
    by_cases hg : a.goalID = goalID
    · cases hv : a.vote
      · rw [List.filter_cons_of_neg (by simp [hv]), List.filter_cons_of_pos (by simp [hg, hv]),
          List.filter_cons_of_pos (by simpa using hg), List.length_cons, List.length_cons, ← ih]
        omega
      · rw [List.filter_cons_of_pos (by simp [hg, hv]), List.filter_cons_of_neg (by simp [hv]),
          List.filter_cons_of_pos (by simpa using hg), List.length_cons, List.length_cons, ← ih]
        omega
    · rw [List.filter_cons_of_neg (by simp [hg]), List.filter_cons_of_neg (by simp [hg]),
        List.filter_cons_of_neg (by simpa using hg), ih]

/-- Under the unique key the voters of a goal's vote rows are distinct. -/
theorem voters_nodup (votes : List Vote)
    (hk : (votes.map fun v => (v.goalID, v.voterID)).Nodup) (goalID : Int) :
    ((votes.filter fun v => v.goalID = goalID).map Vote.voterID).Nodup := by
  induction votes with
  | nil => simp
  | cons a rest ih =>
    simp only [List.map_cons, List.nodup_cons] at hk
    by_cases hg : a.goalID = goalID
    · simp only [List.filter_cons, hg, decide_True, if_true, List.map_cons, List.nodup_cons]
      refine ⟨?_, ih hk.2⟩
      intro hmem
      obtain ⟨v, hv, hvid⟩ := List.mem_map.mp hmem
      simp only [List.mem_filter, decide_eq_true_eq] at hv
      apply hk.1
      rw [List.mem_map]
      exact ⟨v, hv.1, by rw [hv.2, hvid, hg]⟩
    · simp only [List.filter_cons, hg, decide_False, Bool.false_eq_true, if_false]
      exact ih hk.2

theorem countVotes_le_distinctVoters (db : DB) (hk : db.WellKeyed) (goalID : Int) :
    (db.countVotes goalID).1 + (db.countVotes goalID).2 ≤ (db.distinctVoters goalID : Int) := by
  have h1 := countVotes_sum db.votes goalID
  have h2 : db.distinctVoters goalID = (db.votes.filter fun v => v.goalID = goalID).length := by
    unfold DB.distinctVoters
    rw [List.Nodup.dedup (voters_nodup db.votes hk.votes goalID), List.length_map]
  simp only [DB.countVotes]
  rw [h2, ← h1]
  push_cast
  exact le_refl _

theorem voteOnGoal_nil_faults (db : DB) (goalID voterID : Int) (d : Bool) (g : Goal)
    (hg : db.findGoal goalID = some g) (hst : g.status = "done_pending")
    (hne : g.userID ≠ voterID) :
    VoteOnGoal ⟨db, []⟩ goalID voterID d = (none, ⟨db.createVote goalID voterID d, []⟩) := by
  simp [VoteOnGoal, Repository.GetGoal, hg, hst, hne, Repository.CreateVote]

/-- C9. For every `done_pending` goal, every voter other than the owner and decisions
`d1`, `d2` (no database call failing): casting `d1` and then `d2` succeeds twice and leaves
exactly one vote row for the (goal, voter) pair, with value `d2`; the tally `CountVotes`
returns afterwards is the tally after casting `d2` alone; under any script of store
failures, two calls that return no error leave that same database.  In every database with the
unique keys, and so in every reachable one, `yes + no` of a goal never exceeds the number
of distinct voters with a vote on it. -/
theorem voteOnGoal_last_vote_wins (db : DB) (hk : db.WellKeyed) (goalID voterID : Int)
    (d1 d2 : Bool) (g : Goal) (hg : db.findGoal goalID = some g)
    (hst : g.status = "done_pending") (hne : g.userID ≠ voterID) :
    (VoteOnGoal ⟨db, []⟩ goalID voterID d1).1 = none ∧
    (VoteOnGoal (VoteOnGoal ⟨db, []⟩ goalID voterID d1).2 goalID voterID d2).1 = none ∧
    (VoteOnGoal (VoteOnGoal ⟨db, []⟩ goalID voterID d1).2 goalID voterID d2).2.db.votesOf
        goalID voterID = [{ goalID := goalID, voterID := voterID, vote := d2 }] ∧
    ((VoteOnGoal (VoteOnGoal ⟨db, []⟩ goalID voterID d1).2 goalID voterID d2).2.CountVotes
        goalID).1
      = ((VoteOnGoal ⟨db, []⟩ goalID voterID d2).2.CountVotes goalID).1 ∧
    (∀ faults : List Bool, (VoteOnGoal ⟨db, faults⟩ goalID voterID d1).1 = none →
      (VoteOnGoal (VoteOnGoal ⟨db, faults⟩ goalID voterID d1).2 goalID voterID d2).1 = none →
      (VoteOnGoal (VoteOnGoal ⟨db, faults⟩ goalID voterID d1).2 goalID voterID d2).2.db
        = (VoteOnGoal ⟨db, []⟩ goalID voterID d2).2.db) ∧
    (∀ db2 : DB, db2.WellKeyed → ∀ gid : Int,
      (db2.countVotes gid).1 + (db2.countVotes gid).2 ≤ (db2.distinctVoters gid : Int)) ∧
    (∀ db2 : DB, Reachable db2 → ∀ gid : Int,
      (db2.countVotes gid).1 + (db2.countVotes gid).2 ≤ (db2.distinctVoters gid : Int)) := by
  have h1 := voteOnGoal_nil_faults db goalID voterID d1 g hg hst hne
  have h2 := voteOnGoal_nil_faults (db.createVote goalID voterID d1) goalID voterID d2 g
    (by rw [findGoal_createVote]; exact hg) hst hne
  have h3 := voteOnGoal_nil_faults db goalID voterID d2 g hg hst hne
  have hany : ∀ faults : List Bool, (VoteOnGoal ⟨db, faults⟩ goalID voterID d1).1 = none →
      (VoteOnGoal (VoteOnGoal ⟨db, faults⟩ goalID voterID d1).2 goalID voterID d2).1 = none →
      (VoteOnGoal (VoteOnGoal ⟨db, faults⟩ goalID voterID d1).2 goalID voterID d2).2.db
        = db.createVote goalID voterID d2 := by
    intro faults hok1 hok2
    have e1 := (voteOnGoal_success_db ⟨db, faults⟩ goalID voterID d1 g hg hok1).2.2
    have hg2 : (VoteOnGoal ⟨db, faults⟩ goalID voterID d1).2.db.findGoal goalID = some g := by
      rw [e1, findGoal_createVote]
      exact hg
    rw [(voteOnGoal_success_db _ goalID voterID d2 g hg2 hok2).2.2, e1, createVote_createVote]
  rw [h1, h2, h3, createVote_createVote]
  exact ⟨rfl, rfl, votesOf_createVote db hk goalID voterID d2, rfl, hany,
    fun db2 hk2 gid => countVotes_le_distinctVoters db2 hk2 gid,
    fun db2 hr gid => countVotes_le_distinctVoters db2 (reachable_inv db2 hr).keys gid⟩

/-- Witness of C9: member 2 votes yes and then no on the sample goal; one row remains,
holding no, and the tally is 0 yes and 1 no. -/
theorem voteOnGoal_last_vote_wins_witness :
    (VoteOnGoal (VoteOnGoal ⟨sampleDB "done_pending" [], []⟩ 10 2 true).2 10 2
        false).2.db.votesOf 10 2 = [{ goalID := 10, voterID := 2, vote := false }] ∧
    ((VoteOnGoal (VoteOnGoal ⟨sampleDB "done_pending" [], []⟩ 10 2 true).2 10 2
        false).2.CountVotes 10).1
      = ((VoteOnGoal ⟨sampleDB "done_pending" [], []⟩ 10 2 false).2.CountVotes 10).1 ∧
    ((VoteOnGoal ⟨sampleDB "done_pending" [], []⟩ 10 2 false).2.CountVotes 10).1
      = .ok (0, 1) :=
  have h := voteOnGoal_last_vote_wins (sampleDB "done_pending" [])
    (sampleDB_wellKeyed _ _ (by decide)) 10 2 true false
    { id := 10, userID := 1, chatID := 7, title := "t", description := "d", deadline := 0,
      bet := 30, status := "done_pending", proofMessage := some "p", votingStartedAt := none }
    (by decide) (by decide) (by decide)
  ⟨h.2.2.1, h.2.2.2.1, rfl⟩

end LastVote

/-! ## C10: creating a goal -/

section Creation

open Service

/-- C10. For every owner with stored balance `b` and every stake `s` (no database call
failing): `CreateGoal` fails with `insufficientBalance` exactly when `s > b`, and then the
database is unchanged (no goal is created); when `s ≤ b` it returns a goal with status
`active`, stake `s` and the owner as its user, appends exactly that goal to the goals table,
and leaves every balance as it was: the owner's balance is still `b`.  Under any script of
store failures the call either returns an error and leaves the database unchanged, or
returns that same result and leaves that same database. -/
theorem createGoal_balance_check (db : DB) (userID chatID : Int) (title description : String)
    (deadline s : Int) (u : User) (hu : db.findUser userID = some u) :
    ((CreateGoal ⟨db, []⟩ userID chatID title description deadline s).1
        = .error .insufficientBalance ↔ s > u.balance) ∧
    ((CreateGoal ⟨db, []⟩ userID chatID title description deadline s).2.db.goals = db.goals
        ↔ s > u.balance) ∧
    (s > u.balance →
      (CreateGoal ⟨db, []⟩ userID chatID title description deadline s).2.db = db) ∧
    (s ≤ u.balance →
      ∃ goal, (CreateGoal ⟨db, []⟩ userID chatID title description deadline s).1 = .ok goal ∧
        goal.status = "active" ∧ goal.bet = s ∧ goal.userID = userID ∧
        (CreateGoal ⟨db, []⟩ userID chatID title description deadline s).2.db.goals
          = db.goals ++ [goal] ∧
        (CreateGoal ⟨db, []⟩ userID chatID title description deadline s).2.db.users
          = db.users ∧
        (CreateGoal ⟨db, []⟩ userID chatID title description deadline s).2.db.balanceOf userID
          = u.balance) ∧
    (∀ faults : List Bool,
      ((∃ e, (CreateGoal ⟨db, faults⟩ userID chatID title description deadline s).1
            = .error e) ∧
        (CreateGoal ⟨db, faults⟩ userID chatID title description deadline s).2.db = db) ∨
      ((CreateGoal ⟨db, faults⟩ userID chatID title description deadline s).1
          = (CreateGoal ⟨db, []⟩ userID chatID title description deadline s).1 ∧
        (CreateGoal ⟨db, faults⟩ userID chatID title description deadline s).2.db
          = (CreateGoal ⟨db, []⟩ userID chatID title description deadline s).2.db)) := by
  have hbal : db.balanceOf userID = u.balance := by simp [DB.balanceOf, hu]
  have hany : ∀ faults : List Bool,
      ((∃ e, (CreateGoal ⟨db, faults⟩ userID chatID title description deadline s).1
            = .error e) ∧
        (CreateGoal ⟨db, faults⟩ userID chatID title description deadline s).2.db = db) ∨
      ((CreateGoal ⟨db, faults⟩ userID chatID title description deadline s).1
          = (CreateGoal ⟨db, []⟩ userID chatID title description deadline s).1 ∧
        (CreateGoal ⟨db, faults⟩ userID chatID title description deadline s).2.db
          = (CreateGoal ⟨db, []⟩ userID chatID title description deadline s).2.db) :=
    fun faults => createGoal_any_faults ⟨db, faults⟩ userID chatID title description deadline s
  by_cases hlt : u.balance < s
  · have hres : CreateGoal ⟨db, []⟩ userID chatID title description deadline s
        = (.error .insufficientBalance, ⟨db, []⟩) := by
      simp [CreateGoal, Repository.GetUserBalance, hu, hlt]
    rw [hres] at hany ⊢
    refine ⟨by simp [hlt], by simp [hlt], fun _ => rfl,
      fun hle => absurd hlt (not_lt.mpr hle), hany⟩
  · have hres : CreateGoal ⟨db, []⟩ userID chatID title description deadline s
        = (.ok (db.newGoal userID chatID title description deadline s),
            ⟨db.insertGoal (db.newGoal userID chatID title description deadline s), []⟩) := by
      simp [CreateGoal, Repository.GetUserBalance, hu, hlt, Repository.CreateGoal]
    rw [hres] at hany ⊢
    refine ⟨?_, ?_, fun h => absurd h hlt, fun _ => ⟨_, rfl, rfl, rfl, rfl, rfl, rfl, hbal⟩,
      hany⟩
    · constructor
      · intro h; cases h
      · intro h; exact absurd h hlt
    · constructor
      · intro h
        have := congrArg List.length h
        simp [DB.insertGoal] at this
      · intro h; exact absurd h hlt

/-- Witness of C10: balance 100, stake 30: the goal is created and the balance is still
100. -/
theorem createGoal_balance_check_witness :
    ∃ goal, (CreateGoal ⟨sampleDB "active" [], []⟩ 1 7 "run" "5 km" 20 30).1 = .ok goal ∧
      goal.status = "active" ∧ goal.bet = 30 ∧ goal.userID = 1 ∧
      (CreateGoal ⟨sampleDB "active" [], []⟩ 1 7 "run" "5 km" 20 30).2.db.goals
        = (sampleDB "active" []).goals ++ [goal] ∧
      (CreateGoal ⟨sampleDB "active" [], []⟩ 1 7 "run" "5 km" 20 30).2.db.users
        = (sampleDB "active" []).users ∧
      (CreateGoal ⟨sampleDB "active" [], []⟩ 1 7 "run" "5 km" 20 30).2.db.balanceOf 1
        = (mkUser 1 100).balance :=
  (createGoal_balance_check (sampleDB "active" []) 1 7 "run" "5 km" 20 30 (mkUser 1 100)
    (by decide)).2.2.2.1 (by decide)

end Creation

/-! ## C15: a complete vote resolves the goal -/

section Resolution

open Service

/-- When the yes votes are below the quorum, the group has at least two members and so,
under the unique keys, a recipient. -/
theorem recipients_of_quorum_missed (db : DB) (hk : db.WellKeyed) (goalID chatID owner : Int)
    (hyes : ¬ (db.countVotes goalID).1 ≥
      requiredVotes ((db.chatMembersOf chatID).length : Int)) :
    recipientsOf (db.chatMembersOf chatID) owner ≠ [] := by
  have hy0 := (countVotes_nonneg db goalID).1
  have hlen : 2 ≤ (db.chatMembersOf chatID).length := by
    by_contra hlt
    apply hyes
    have hm : ((db.chatMembersOf chatID).length : Int) ≤ 1 := by omega
    have hm0 : (0 : Int) ≤ ((db.chatMembersOf chatID).length : Int) := Int.natCast_nonneg _
    have : requiredVotes ((db.chatMembersOf chatID).length : Int) ≤ 0 := by
      unfold requiredVotes totalVoters
      rw [show ((db.chatMembersOf chatID).length : Int) - 1 + 1
        = ((db.chatMembersOf chatID).length : Int) by ring,
        Int.tdiv_eq_ediv hm0 (by norm_num)]
      omega
    omega
  exact recipientsOf_ne_nil (db.chatMembersOf chatID) owner (chatMembersOf_nodup db hk chatID) hlen

/-- C15. Voting resolves once every eligible voter has voted: for every `done_pending`
goal whose tally satisfies `yes + no = totalVoters` (with `totalVoters = memberCount - 1`),
`FinalizeGoal` (no database call failing) returns `success` or `failed`, and under no
script of store failures does it return `pending`.  For every member count and every tally
with `yes + no ≤ totalVoters`, the success condition `yes ≥ required` and the failed
condition `no > totalVoters - required` never hold together, and the failed condition
holds exactly when `yes` plus all remaining votes is still below `required`; with
`yes + no = totalVoters` one of the two conditions holds. -/
theorem finalizeGoal_resolves_complete_vote (db : DB) (hk : db.WellKeyed)
    (goalID chatID : Int) (g : Goal) (hg : db.findGoal goalID = some g)
    (hst : g.status = "done_pending")
    (hall : (db.countVotes goalID).1 + (db.countVotes goalID).2
      = totalVoters ((db.chatMembersOf chatID).length : Int)) :
    ((FinalizeGoal ⟨db, []⟩ goalID chatID).1 = .ok .success ∨
      (FinalizeGoal ⟨db, []⟩ goalID chatID).1 = .ok .failed) ∧
    (∀ (faults : List Bool) (o : Outcome),
      (FinalizeGoal ⟨db, faults⟩ goalID chatID).1 = .ok o → o ≠ .pending) ∧
    (∀ memberCount yes no : Int, 0 ≤ totalVoters memberCount → 0 ≤ yes → 0 ≤ no →
      yes + no ≤ totalVoters memberCount →
      ¬ (yes ≥ requiredVotes memberCount ∧
          no > totalVoters memberCount - requiredVotes memberCount) ∧
      (no > totalVoters memberCount - requiredVotes memberCount ↔
        yes + (totalVoters memberCount - yes - no) < requiredVotes memberCount)) ∧
    (∀ memberCount yes no : Int, 0 ≤ totalVoters memberCount → 0 ≤ yes → 0 ≤ no →
      yes + no = totalVoters memberCount →
      yes ≥ requiredVotes memberCount ∨
        no > totalVoters memberCount - requiredVotes memberCount) := by
  have hnil : (FinalizeGoal ⟨db, []⟩ goalID chatID).1 = .ok .success ∨
      (FinalizeGoal ⟨db, []⟩ goalID chatID).1 = .ok .failed := by
    rw [finalizeGoal_nil_faults db goalID chatID g hg hst]
    by_cases hyes : (db.countVotes goalID).1 ≥
        requiredVotes ((db.chatMembersOf chatID).length : Int)
    · left
      rw [if_pos hyes]
    · right
      have hno : (db.countVotes goalID).2 >
          totalVoters ((db.chatMembersOf chatID).length : Int)
            - requiredVotes ((db.chatMembersOf chatID).length : Int) := by
        omega
      rw [if_neg hyes, if_pos hno,
        failGoal_nil_faults db goalID chatID g hg
          (recipients_of_quorum_missed db hk goalID chatID g.userID hyes)]
  refine ⟨hnil, ?_, ?_, ?_⟩
  · intro faults o hok hp
    have h := (finalizeGoal_success_db ⟨db, faults⟩ goalID chatID g hg hst o hok).1
    subst hp
    rcases hnil with h1 | h1 <;> rw [h1] at h <;> cases h
  · intro memberCount yes no _ _ _ hle
    constructor
    · rintro ⟨h1, h2⟩
      omega
    · constructor <;> intro h <;> omega
  · intro memberCount yes no _ _ _ heq
    omega

/-- Witness of C15: four members besides the owner, one yes and three no votes: every
eligible voter has voted and the outcome is `failed`. -/
theorem finalizeGoal_resolves_complete_vote_witness :
    ((sampleDB "done_pending"
        [⟨10, 2, true⟩, ⟨10, 3, false⟩, ⟨10, 4, false⟩, ⟨10, 5, false⟩]).countVotes 10).1
      + ((sampleDB "done_pending"
        [⟨10, 2, true⟩, ⟨10, 3, false⟩, ⟨10, 4, false⟩, ⟨10, 5, false⟩]).countVotes 10).2
      = totalVoters 5 ∧
    ((FinalizeGoal ⟨sampleDB "done_pending"
        [⟨10, 2, true⟩, ⟨10, 3, false⟩, ⟨10, 4, false⟩, ⟨10, 5, false⟩], []⟩ 10 7).1
        = .ok .success ∨
      (FinalizeGoal ⟨sampleDB "done_pending"
        [⟨10, 2, true⟩, ⟨10, 3, false⟩, ⟨10, 4, false⟩, ⟨10, 5, false⟩], []⟩ 10 7).1
        = .ok .failed) :=
  ⟨by decide,
    (finalizeGoal_resolves_complete_vote
      (sampleDB "done_pending"
        [⟨10, 2, true⟩, ⟨10, 3, false⟩, ⟨10, 4, false⟩, ⟨10, 5, false⟩])
      (sampleDB_wellKeyed _ _ (by decide)) 10 7
      { id := 10, userID := 1, chatID := 7, title := "t", description := "d", deadline := 0,
        bet := 30, status := "done_pending", proofMessage := some "p",
        votingStartedAt := none }
      (by decide) (by decide) (by decide)).1⟩

end Resolution

/-! ## C11: submitting a proof -/

section ProofSubmission

open Service

/-- C11, refuted as stated. Goal 11 of `sampleActiveDB` is `active` and has no
voting-start timestamp; `SubmitProof` succeeds on it, and afterwards the goal still has no
voting-start timestamp: the claim's "a voting-start timestamp recorded" fails. -/
theorem submitProof_records_no_timestamp :
    ¬ ((SubmitProof ⟨sampleActiveDB, []⟩ 11 "done").1 = none →
        ∃ t, ((SubmitProof ⟨sampleActiveDB, []⟩ 11 "done").2.db.findGoal 11).bind
          Goal.votingStartedAt = some t) := by
  intro h
  obtain ⟨t, ht⟩ := h (by decide)
  have hnone : ((SubmitProof ⟨sampleActiveDB, []⟩ 11 "done").2.db.findGoal 11).bind
      Goal.votingStartedAt = none := by decide
  rw [hnone] at ht
  cases ht

/-- C11, amended. For every goal and proof text: unless the goal's status is exactly
`active`, `SubmitProof` returns an error (`invalidState` whenever the read of the goal
succeeds) and leaves the database unchanged, under every script of store failures.  On an
`active` goal it returns no error when no database call fails, and whenever it returns no
error the goal row afterwards is the row before with the proof text stored and status
`done_pending`: every other field, the voting-start timestamp included, is as before, and
users, votes, memberships and transactions are untouched.  No call of the service other
than `SubmitProof` on that goal turns a status into `done_pending`, and `SubmitProof` does
so only from `active`. -/
theorem submitProof_active_only (r : Repository) (goalID : Int) (proof : String) (g : Goal)
    (hg : r.db.findGoal goalID = some g) :
    (g.status ≠ "active" →
      (∃ e, (SubmitProof r goalID proof).1 = some e) ∧
      (r.faults.head? ≠ some true → (SubmitProof r goalID proof).1 = some .invalidState) ∧
      (SubmitProof r goalID proof).2.db = r.db) ∧
    (g.status = "active" →
      (r.faults = [] → (SubmitProof r goalID proof).1 = none) ∧
      ((SubmitProof r goalID proof).1 = none →
        (SubmitProof r goalID proof).2.db.findGoal goalID
          = some { g with proofMessage := some proof, status := "done_pending" } ∧
        (SubmitProof r goalID proof).2.db.users = r.db.users ∧
        (SubmitProof r goalID proof).2.db.votes = r.db.votes ∧
        (SubmitProof r goalID proof).2.db.chatMembers = r.db.chatMembers ∧
        (SubmitProof r goalID proof).2.db.transactions = r.db.transactions)) ∧
    (∀ (r2 : Repository) (c : Call) (gid : Int),
      (Service.run r2 c).db.statusOf gid = some "done_pending" →
      r2.db.statusOf gid = some "done_pending" ∨
        ((∃ p, c = .submitProof gid p) ∧ r2.db.statusOf gid = some "active")) := by
  have hid := findGoal_id r.db goalID g hg
  refine ⟨?_, ?_, fun r2 c gid h => done_pending_origin r2 c gid h⟩
  · intro hst
    have heff : (∃ e, (SubmitProof r goalID proof).1 = some e) ∧
        (SubmitProof r goalID proof).2.db = r.db := by
      rcases submitProof_effect r goalID proof with h | ⟨_, ⟨g2, hg2, hact⟩, _⟩
      · exact h
      · rw [hg] at hg2
        cases hg2
        exact absurd hact hst
    refine ⟨heff.1, ?_, heff.2⟩
    intro hf
    obtain ⟨db, faults⟩ := r
    simp only at hg hf
    cases faults with
    | nil => simp [SubmitProof, Repository.GetGoal, hg, hst]
    | cons b rest =>
      cases b
      · simp [SubmitProof, Repository.GetGoal, Repository.tick, hg, hst]
      · simp at hf
  · intro hact
    constructor
    · intro hf
      obtain ⟨db, faults⟩ := r
      simp only at hg hf
      subst hf
      simp [SubmitProof, Repository.GetGoal, hg, hact, Repository.UpdateGoalProof]
    · intro hok
      rcases submitProof_effect r goalID proof with ⟨⟨e, he⟩, _⟩ | ⟨_, _, hdb⟩
      · rw [he] at hok
        cases hok
      · rw [hdb]
        refine ⟨?_, rfl, rfl, rfl, rfl⟩
        rw [findGoal_updateGoalProof, hg]
        simp [hid]

/-- Witness of the amended C11: `SubmitProof` on the active goal 11 of `sampleActiveDB`
stores the proof and sets `done_pending`; the timestamp field stays empty. -/
theorem submitProof_active_only_witness :
    (SubmitProof ⟨sampleActiveDB, []⟩ 11 "done").1 = none ∧
    (SubmitProof ⟨sampleActiveDB, []⟩ 11 "done").2.db.findGoal 11
      = some { id := 11, userID := 1, chatID := 7, title := "run", description := "5 km",
               deadline := 20, bet := 30, status := "done_pending",
               proofMessage := some "done", votingStartedAt := none } :=
  have h := (submitProof_active_only ⟨sampleActiveDB, []⟩ 11 "done"
    { id := 11, userID := 1, chatID := 7, title := "run", description := "5 km",
      deadline := 20, bet := 30, status := "active", proofMessage := none,
      votingStartedAt := none }
    (by decide)).2.1 (by decide)
  ⟨h.1 rfl, (h.2 (h.1 rfl)).1⟩

end ProofSubmission

/-! ## C12: terminal statuses -/

section Terminal

open Service

theorem statusOf_eq_some (db : DB) (gid : Int) (st : String) (h : db.statusOf gid = some st) :
    ∃ g, db.findGoal gid = some g ∧ g.status = st := by
  simp only [DB.statusOf] at h
  cases hf : db.findGoal gid with
  | none => rw [hf] at h; cases h
  | some g =>
    rw [hf] at h
    exact ⟨g, rfl, by simpa using h⟩

/-- `FinalizeGoal` on a goal that is not `done_pending` is refused before any write,
whatever the script of store failures. -/
theorem finalizeGoal_refused (r : Repository) (goalID chatID : Int) (g : Goal)
    (hg : r.db.findGoal goalID = some g) (hst : g.status ≠ "done_pending") :
    (∃ e, (FinalizeGoal r goalID chatID).1 = .error e) ∧
      (FinalizeGoal r goalID chatID).2.db = r.db := by
  obtain ⟨fs1, h1 | h1⟩ := getGoal_cases r goalID
  · simp [FinalizeGoal, h1]
  · simp only [hg] at h1
    simp [FinalizeGoal, h1, hst]

/-- A call of the service other than a direct `FailGoal` keeps a terminal status. -/
theorem terminal_status_kept (r : Repository) (c : Call) (gid : Int) (st : String)
    (hs : r.db.statusOf gid = some st) (hterm : st = "success" ∨ st = "failed")
    (hc : ∀ a b, c ≠ .failGoal a b) :
    (Service.run r c).db.statusOf gid = some st := by
  obtain ⟨g, hg, hgs⟩ := statusOf_eq_some r.db gid st hs
  have hnd : st ≠ "done_pending" := by rcases hterm with h | h <;> rw [h] <;> decide
  have hna : st ≠ "active" := by rcases hterm with h | h <;> rw [h] <;> decide
  cases c with
  | registerUser tgID username chatID =>
    rw [← hs]
    exact statusOf_congr _ _ (registerUser_goals r tgID username chatID) gid
  | getOrCreateUser tgID username =>
    rw [← hs]
    exact statusOf_congr _ _ (getOrCreateUser_goals r tgID username) gid
  | getUserStats userID =>
    rw [← hs]
    exact statusOf_congr _ _ (getUserStats_goals r userID) gid
  | voteOnGoal goalID voterID vote =>
    rw [← hs]
    exact statusOf_congr _ _ (voteOnGoal_goals r goalID voterID vote) gid
  | createGoal userID chatID title description deadline bet =>
    simp only [Service.run]
    rcases createGoal_effect r userID chatID title description deadline bet with he | ⟨g2, _, he⟩
    · rw [he]
      exact hs
    · rw [he]
      rcases statusOf_insertGoal r.db g2 gid with h2 | ⟨h2, _⟩
      · rw [h2]
        exact hs
      · rw [hs] at h2
        cases h2
  | submitProof goalID proof =>
    simp only [Service.run]
    rcases submitProof_effect r goalID proof with ⟨_, he⟩ | ⟨_, ⟨g2, hg2, hact⟩, he⟩
    · rw [he]
      exact hs
    · rw [he]
      by_cases hid : gid = goalID
      · subst hid
        rw [hg] at hg2
        cases hg2
        exact absurd (hgs.symm.trans hact) hna
      · rw [statusOf_updateGoalProof_ne _ _ _ _ hid]
        exact hs
  | finalizeGoal goalID chatID =>
    simp only [Service.run]
    have hkeep : ∀ st2 : String,
        (FinalizeGoal r goalID chatID).2.db.goals = (r.db.updateGoalStatus goalID st2).goals →
        (∃ g2, r.db.findGoal goalID = some g2 ∧ g2.status = "done_pending") →
        (FinalizeGoal r goalID chatID).2.db.statusOf gid = some st := by
      intro st2 he ⟨g2, hg2, hdp⟩
      rw [statusOf_congr _ _ he]
      by_cases hid : gid = goalID
      · subst hid
        rw [hg] at hg2
        cases hg2
        exact absurd (hgs.symm.trans hdp) hnd
      · rw [statusOf_updateGoalStatus_ne _ _ _ _ hid]
        exact hs
    rcases finalizeGoal_goals r goalID chatID with he | ⟨hex, he | he⟩
    · rw [statusOf_congr _ _ he]
      exact hs
    · exact hkeep _ he hex
    · exact hkeep _ he hex
  | failGoal goalID chatID => exact absurd rfl (hc goalID chatID)

/-- C12, refuted as stated. Goal 10 of the sample database is in status `success`;
`FailGoal` called on it checks no status: it sets the status to `failed`, changes the
balances and records transactions. -/
theorem failGoal_ignores_terminal_status :
    ¬ ((FailGoal ⟨sampleDB "success" [], []⟩ 10 7).2.db.statusOf 10
        = (sampleDB "success" []).statusOf 10) ∧
    ¬ ((FailGoal ⟨sampleDB "success" [], []⟩ 10 7).2.db.users
        = (sampleDB "success" []).users) ∧
    ¬ ((FailGoal ⟨sampleDB "success" [], []⟩ 10 7).2.db.transactions
        = (sampleDB "success" []).transactions) := by
  decide

/-- C12, amended. `success` and `failed` are terminal for the entry points of the service:
for every goal whose status is `success` or `failed`, under every script of store
failures and with any arguments, `SubmitProof`, `VoteOnGoal` and `FinalizeGoal` on that
goal return an error and leave the whole database unchanged (status, votes, balances,
transactions), and every call of the service other than a direct `FailGoal` keeps the
goal's status. -/
theorem terminal_status_final (r : Repository) (gid : Int) (st : String)
    (hs : r.db.statusOf gid = some st) (hterm : st = "success" ∨ st = "failed") :
    (∀ proof : String,
      (∃ e, (SubmitProof r gid proof).1 = some e) ∧ (SubmitProof r gid proof).2.db = r.db) ∧
    (∀ (voterID : Int) (vote : Bool),
      (∃ e, (VoteOnGoal r gid voterID vote).1 = some e) ∧
        (VoteOnGoal r gid voterID vote).2.db = r.db) ∧
    (∀ chatID : Int,
      (∃ e, (FinalizeGoal r gid chatID).1 = .error e) ∧
        (FinalizeGoal r gid chatID).2.db = r.db) ∧
    (∀ c : Call, (∀ a b, c ≠ .failGoal a b) →
      (Service.run r c).db.statusOf gid = some st) := by
  obtain ⟨g, hg, hgs⟩ := statusOf_eq_some r.db gid st hs
  have hnd : g.status ≠ "done_pending" := by
    rw [hgs]
    rcases hterm with h | h <;> rw [h] <;> decide
  have hna : g.status ≠ "active" := by
    rw [hgs]
    rcases hterm with h | h <;> rw [h] <;> decide
  refine ⟨?_, fun voterID vote => voteOnGoal_refused r gid voterID vote g hg (Or.inl hnd),
    fun chatID => finalizeGoal_refused r gid chatID g hg hnd,
    fun c hc => terminal_status_kept r c gid st hs hterm hc⟩
  intro proof
  rcases submitProof_effect r gid proof with h | ⟨_, ⟨g2, hg2, hact⟩, _⟩
  · exact h
  · rw [hg] at hg2
    cases hg2
    exact absurd hact hna

/-- Witness of the amended C12: on goal 10 of the sample database in status `failed`, a
proof, a vote and a finalization are all refused and change nothing. -/
theorem terminal_status_final_witness :
    ((∃ e, (SubmitProof ⟨sampleDB "failed" [], []⟩ 10 "again").1 = some e) ∧
      (SubmitProof ⟨sampleDB "failed" [], []⟩ 10 "again").2.db = sampleDB "failed" []) ∧
    ((∃ e, (VoteOnGoal ⟨sampleDB "failed" [], []⟩ 10 2 true).1 = some e) ∧
      (VoteOnGoal ⟨sampleDB "failed" [], []⟩ 10 2 true).2.db = sampleDB "failed" []) ∧
    ((∃ e, (FinalizeGoal ⟨sampleDB "failed" [], []⟩ 10 7).1 = .error e) ∧
      (FinalizeGoal ⟨sampleDB "failed" [], []⟩ 10 7).2.db = sampleDB "failed" []) :=
  have h := terminal_status_final ⟨sampleDB "failed" [], []⟩ 10 "failed" (by decide)
    (Or.inr rfl)
  ⟨h.1 "again", h.2.1 2 true, h.2.2.1 7⟩

end Terminal

/-! ## Decimal digits, `strconv.Atoi` and the date layout -/

section Parsing

theorem isDigit_iff (c : Char) : isDigit c = true ↔ 48 ≤ c.toNat ∧ c.toNat ≤ 57 := by
  simp only [isDigit, decide_eq_true_eq, Char.le_def]
  rfl

theorem digitChar_digit (k : Nat) (hk : k < 10) :
    isDigit (Nat.digitChar k) = true ∧ digitValue (Nat.digitChar k) = k := by
  interval_cases k <;> exact ⟨by decide, by rfl⟩

theorem digit_digitChar (c : Char) (hc : isDigit c = true) :
    digitValue c < 10 ∧ Nat.digitChar (digitValue c) = c := by
  rw [isDigit_iff] at hc
  have hval : c = Char.ofNat c.toNat := (Char.ofNat_toNat c).symm
  generalize c.toNat = n at hc hval
  obtain ⟨h1, h2⟩ := hc
  subst hval
  interval_cases n <;> exact ⟨by decide, by rfl⟩

theorem not_isDigit_minus : isDigit '-' = false := by decide

theorem not_isDigit_plus : isDigit '+' = false := by decide

theorem digitsValue_snoc (cs : List Char) (c : Char) :
    digitsValue (cs ++ [c]) = 10 * digitsValue cs + digitValue c := by
  simp [digitsValue, List.foldl_append]

/-- Reading digits from the left gives their positional value. -/
theorem digitsValue_eq_ofDigits (cs : List Char) :
    digitsValue cs = Nat.ofDigits 10 (cs.reverse.map digitValue) := by
  induction cs using List.reverseRecOn with
  | nil => rfl
  | append_singleton cs c ih =>
    rw [digitsValue_snoc, ih, List.reverse_append, List.reverse_singleton, List.singleton_append,
      List.map_cons, Nat.ofDigits_cons]
    ring

/-- The digits `Nat.toDigits` produces are decimal digits with the value of the number. -/
theorem toDigitsCore_spec (fuel : Nat) :
    ∀ (n : Nat) (acc : List Char), n < fuel →
      ∃ ds, Nat.toDigitsCore 10 fuel n acc = ds ++ acc ∧ ds ≠ [] ∧
        (∀ c ∈ ds, isDigit c = true) ∧ digitsValue ds = n := by
  induction fuel with
  | zero => intro n acc h; omega
  | succ fuel ih =>
    intro n acc hn
    have hd := digitChar_digit (n % 10) (Nat.mod_lt _ (by norm_num))
    simp only [Nat.toDigitsCore]
    by_cases h0 : n / 10 = 0
    · simp only [h0, if_true]
      refine ⟨[Nat.digitChar (n % 10)], rfl, by simp, ?_, ?_⟩
      · intro c hc
        simp only [List.mem_singleton] at hc
        rw [hc]
        exact hd.1
      · simp only [digitsValue, List.foldl_cons, List.foldl_nil, hd.2]
        omega
    · simp only [h0, if_false]
      obtain ⟨ds, hds, hne, hall, hval⟩ := ih (n / 10) (Nat.digitChar (n % 10) :: acc) (by omega)
      refine ⟨ds ++ [Nat.digitChar (n % 10)], ?_, by simp, ?_, ?_⟩
      · rw [hds]
        simp
      · intro c hc
        simp only [List.mem_append, List.mem_singleton] at hc
        rcases hc with hc | hc
        · exact hall c hc
        · rw [hc]
          exact hd.1
      · rw [digitsValue_snoc, hval, hd.2]
        omega

/-- The text `toString d` of a natural number is a decimal text of `d`. -/
theorem isDecimalText_toString (d : Nat) : IsDecimalText (toString d) (d : Int) := by
  obtain ⟨ds, hds, hne, hall, hval⟩ := toDigitsCore_spec (d + 1) d [] (by omega)
  refine ⟨[], ds, Or.inl rfl, hne, hall, ?_, ?_⟩
  · show Nat.toDigits 10 d = [] ++ ds
    simpa [Nat.toDigits] using hds
  · rw [← digitsValue_eq_ofDigits, hval]
    simp

theorem parseDigits_of (ds : List Char) (hne : ds ≠ []) (hall : ∀ c ∈ ds, isDigit c = true) :
    parseDigits ds = some (digitsValue ds) := by
  have : ds.all isDigit = true := List.all_eq_true.mpr hall
  simp [parseDigits, hne, this]

theorem parseDigits_some (cs : List Char) (n : Nat) (h : parseDigits cs = some n) :
    cs ≠ [] ∧ (∀ c ∈ cs, isDigit c = true) ∧ n = digitsValue cs := by
  unfold parseDigits at h
  split at h
  · rename_i hc
    simp only [Option.some.injEq] at h
    exact ⟨hc.1, List.all_eq_true.mp hc.2, h.symm⟩
  · cases h

/-- On a decimal text of `d`, `strconv.Atoi` returns `d` exactly when `d` is in the range
of `int`. -/
theorem atoi_of_text (s : String) (d : Int) (h : IsDecimalText s d) :
    strconv.Atoi s = if minInt ≤ d ∧ d ≤ maxInt then some d else none := by
  obtain ⟨sign, ds, hsign, hne, hall, hs, hd⟩ := h
  rw [← digitsValue_eq_ofDigits] at hd
  have hpd := parseDigits_of ds hne hall
  rcases hsign with rfl | rfl | rfl
  · obtain ⟨c, rest, rfl⟩ := List.exists_cons_of_ne_nil hne
    have hc := hall c (List.mem_cons_self _ _)
    have hc1 : c ≠ '-' := by
      intro h
      rw [h, not_isDigit_minus] at hc
      cases hc
    have hc2 : c ≠ '+' := by
      intro h
      rw [h, not_isDigit_plus] at hc
      cases hc
    simp only [List.nil_append] at hs
    simp only [strconv.Atoi, hs, hc1, hc2, if_false, hpd, Option.some_bind]
    simp only [List.nil_eq, reduceCtorEq, if_false, one_mul] at hd
    subst hd
    by_cases hr : (digitsValue (c :: rest) : Int) ≤ maxInt
    · have hmin : minInt ≤ (digitsValue (c :: rest) : Int) := by
        unfold minInt
        omega
      simp [hr, hmin]
    · simp [hr]
  · simp only [List.singleton_append] at hs
    simp only [strconv.Atoi, hs, show ('+' : Char) ≠ '-' by decide, if_false, if_true, hpd,
      Option.some_bind]
    simp only [List.cons.injEq, show ('+' : Char) ≠ '-' by decide, and_true, if_false,
      one_mul] at hd
    subst hd
    by_cases hr : (digitsValue ds : Int) ≤ maxInt
    · have hmin : minInt ≤ (digitsValue ds : Int) := by
        unfold minInt
        omega
      simp [hr, hmin]
    · simp [hr]
  · simp only [List.singleton_append] at hs
    simp only [strconv.Atoi, hs, if_true, hpd, Option.some_bind]
    simp only [if_true] at hd
    have hd2 : d = -(digitsValue ds : Int) := by rw [hd]; ring
    subst hd2
    by_cases hr : -(digitsValue ds : Int) ≥ minInt
    · have hmax : -(digitsValue ds : Int) ≤ maxInt := by
        unfold maxInt
        omega
      simp [hr, hmax]
    · have hr2 : ¬ minInt ≤ -(digitsValue ds : Int) := hr
      simp [hr, hr2]

/-- Whatever `strconv.Atoi` accepts is a decimal text of the number it returns, and that
number is in the range of `int`. -/
theorem atoi_some (s : String) (d : Int) (h : strconv.Atoi s = some d) :
    IsDecimalText s d ∧ minInt ≤ d ∧ d ≤ maxInt := by
  unfold strconv.Atoi at h
  split at h
  · cases h
  · rename_i c rest hs
    split at h
    · rename_i hc
      subst hc
      cases hp : parseDigits rest with
      | none => rw [hp] at h; cases h
      | some n =>
        rw [hp] at h
        simp only [Option.some_bind] at h
        split at h
        · rename_i hr
          simp only [Option.some.injEq] at h
          obtain ⟨hne, hall, hn⟩ := parseDigits_some rest n hp
          subst hn
          refine ⟨⟨['-'], rest, Or.inr (Or.inr rfl), hne, hall, by simpa using hs, ?_⟩, ?_, ?_⟩
          · rw [← digitsValue_eq_ofDigits, ← h]
            simp
          · rw [← h]; exact hr
          · rw [← h]; unfold maxInt; omega
        · cases h
    · split at h
      · rename_i hc1 hc
        subst hc
        cases hp : parseDigits rest with
        | none => rw [hp] at h; cases h
        | some n =>
          rw [hp] at h
          simp only [Option.some_bind] at h
          split at h
          · rename_i hr
            simp only [Option.some.injEq] at h
            obtain ⟨hne, hall, hn⟩ := parseDigits_some rest n hp
            subst hn
            refine ⟨⟨['+'], rest, Or.inr (Or.inl rfl), hne, hall, by simpa using hs, ?_⟩, ?_, ?_⟩
            · rw [← digitsValue_eq_ofDigits, ← h]
              simp
            · rw [← h]; unfold minInt; omega
            · rw [← h]; exact hr
          · cases h
      · rename_i hc1 hc2
        cases hp : parseDigits (c :: rest) with
        | none => rw [hp] at h; cases h
        | some n =>
          rw [hp] at h
          simp only [Option.some_bind] at h
          split at h
          · rename_i hr
            simp only [Option.some.injEq] at h
            obtain ⟨hne, hall, hn⟩ := parseDigits_some (c :: rest) n hp
            subst hn
            refine ⟨⟨[], c :: rest, Or.inl rfl, hne, hall, by simpa using hs, ?_⟩, ?_, ?_⟩
            · rw [← digitsValue_eq_ofDigits, ← h]
              simp
            · rw [← h]; unfold minInt; omega
            · rw [← h]; exact hr
          · cases h

theorem digitsValue_four (a b c d : Char) :
    digitsValue [a, b, c, d]
      = 1000 * digitValue a + 100 * digitValue b + 10 * digitValue c + digitValue d := by
  simp only [digitsValue, List.foldl_cons, List.foldl_nil]
  ring

theorem digitsValue_two (a b : Char) :
    digitsValue [a, b] = 10 * digitValue a + digitValue b := by
  simp only [digitsValue, List.foldl_cons, List.foldl_nil]
  ring

theorem daysIn_le (month year : Nat) : time.daysIn month year ≤ 31 := by
  unfold time.daysIn
  split <;> (try split) <;> omega

/-- The layout accepts the text of every valid date and returns that date. -/
theorem parseDate_dateText (y m d : Nat) (h : ValidDate y m d) :
    time.parseDate (dateText y m d) = some (y, m, d) := by
  obtain ⟨hy, hm1, hm2, hd1, hd2⟩ := h
  have hd3 := daysIn_le m y
  have e1 := digitChar_digit (y / 1000 % 10) (Nat.mod_lt _ (by norm_num))
  have e2 := digitChar_digit (y / 100 % 10) (Nat.mod_lt _ (by norm_num))
  have e3 := digitChar_digit (y / 10 % 10) (Nat.mod_lt _ (by norm_num))
  have e4 := digitChar_digit (y % 10) (Nat.mod_lt _ (by norm_num))
  have e5 := digitChar_digit (m / 10 % 10) (Nat.mod_lt _ (by norm_num))
  have e6 := digitChar_digit (m % 10) (Nat.mod_lt _ (by norm_num))
  have e7 := digitChar_digit (d / 10 % 10) (Nat.mod_lt _ (by norm_num))
  have e8 := digitChar_digit (d % 10) (Nat.mod_lt _ (by norm_num))
  have hyv : digitsValue [Nat.digitChar (y / 1000 % 10), Nat.digitChar (y / 100 % 10),
      Nat.digitChar (y / 10 % 10), Nat.digitChar (y % 10)] = y := by
    rw [digitsValue_four, e1.2, e2.2, e3.2, e4.2]
    omega
  have hmv : digitsValue [Nat.digitChar (m / 10 % 10), Nat.digitChar (m % 10)] = m := by
    rw [digitsValue_two, e5.2, e6.2]
    omega
  have hdv : digitsValue [Nat.digitChar (d / 10 % 10), Nat.digitChar (d % 10)] = d := by
    rw [digitsValue_two, e7.2, e8.2]
    omega
  have hm : ¬ (m < 1 ∨ 12 < m) := by omega
  have hd : ¬ (d < 1 ∨ d > time.daysIn m y) := by omega
  simp only [time.parseDate, dateText, String.toList, List.all_cons, List.all_nil, e1.1, e2.1,
    e3.1, e4.1, e5.1, e6.1, e7.1, e8.1, Bool.and_self, and_self, if_true, hyv, hmv, hdv, hm, hd,
    if_false]

/-- Whatever the layout accepts is the text of a valid date. -/
theorem parseDate_some (s : String) (y m d : Nat) (h : time.parseDate s = some (y, m, d)) :
    ValidDate y m d ∧ s = dateText y m d := by
  unfold time.parseDate at h
  split at h
  · rename_i y1 y2 y3 y4 s1 m1 m2 s2 d1 d2 hs
    split at h
    · rename_i hc
      obtain ⟨hall, hs1, hs2⟩ := hc
      simp only [List.all_cons, List.all_nil, Bool.and_true, Bool.and_eq_true] at hall
      obtain ⟨h1, h2, h3, h4, h5, h6, h7, h8⟩ := hall
      simp only at h
      split at h
      · cases h
      · rename_i hm
        split at h
        · cases h
        · rename_i hd
          simp only [Option.some.injEq, Prod.mk.injEq] at h
          obtain ⟨hy, hmm, hdd⟩ := h
          have g1 := digit_digitChar y1 h1
          have g2 := digit_digitChar y2 h2
          have g3 := digit_digitChar y3 h3
          have g4 := digit_digitChar y4 h4
          have g5 := digit_digitChar m1 h5
          have g6 := digit_digitChar m2 h6
          have g7 := digit_digitChar d1 h7
          have g8 := digit_digitChar d2 h8
          simp only [digitsValue_four, digitsValue_two] at hy hmm hdd hm hd
          rw [hmm] at hm
          rw [hy, hmm, hdd] at hd
          refine ⟨⟨by omega, by omega, by omega, by omega, by omega⟩, ?_⟩
          apply String.ext
          show s.toList = _
          rw [hs, dateText]
          have a1 : y / 1000 % 10 = digitValue y1 := by omega
          have a2 : y / 100 % 10 = digitValue y2 := by omega
          have a3 : y / 10 % 10 = digitValue y3 := by omega
          have a4 : y % 10 = digitValue y4 := by omega
          have a5 : m / 10 % 10 = digitValue m1 := by omega
          have a6 : m % 10 = digitValue m2 := by omega
          have a7 : d / 10 % 10 = digitValue d1 := by omega
          have a8 : d % 10 = digitValue d2 := by omega
          simp only [a1, a2, a3, a4, a5, a6, a7, a8, g1.2, g2.2, g3.2, g4.2, g5.2, g6.2, g7.2,
            g8.2, hs1, hs2]
    · cases h
  · cases h

/-- A decimal text is not accepted by the date layout. -/
theorem parseDate_decimalText (s : String) (d : Int) (h : IsDecimalText s d) :
    time.parseDate s = none := by
  cases hp : time.parseDate s with
  | none => rfl
  | some r =>
    exfalso
    obtain ⟨y, m, dd⟩ := r
    have hs := (parseDate_some s y m dd hp).2
    obtain ⟨sign, ds, hsign, _, hall, hlist, _⟩ := h
    have hmem : '-' ∈ ds := by
      rw [hs, dateText] at hlist
      simp only [String.toList] at hlist
      rcases hsign with rfl | rfl | rfl
      · simp only [List.nil_append] at hlist
        rw [← hlist]
        simp
      · simp only [List.singleton_append, List.cons.injEq] at hlist
        rw [← hlist.2]
        simp
      · simp only [List.singleton_append, List.cons.injEq] at hlist
        rw [← hlist.2]
        simp
    have := hall '-' hmem
    rw [not_isDigit_minus] at this
    cases this

end Parsing

/-! ## C13: parsing a deadline -/

section Deadline

/-- Adding days to a time gives the time that many days later while that time can be held;
the time and the sum are counted in seconds since year 1 in an `int64`. -/
theorem addDate_in_range (t days : Int) (hlo : minInt ≤ t + time.unixToInternal + 86400 * days)
    (hhi : t + time.unixToInternal + 86400 * days ≤ maxInt) :
    time.AddDate t days = t + 86400 * days := by
  unfold minInt at hlo
  unfold maxInt at hhi
  unfold time.AddDate wrapInt64
  omega

/-- Adding the largest `int` as a number of days gives the time one day earlier. -/
theorem addDate_maxInt (t : Int) (hlo : minInt ≤ t + time.unixToInternal - 86400)
    (hhi : t + time.unixToInternal - 86400 ≤ maxInt) :
    time.AddDate t maxInt = t - 86400 := by
  unfold minInt at hlo
  unfold maxInt at hhi
  unfold time.AddDate wrapInt64 maxInt
  omega

/-- C13, refuted as stated. The text `100000000000000000000` is the decimal text of an
integer `d > 0`, but `parseDeadline` does not return now + d days: `strconv.Atoi` reports a
value out of the range of `int` and the input is rejected. -/
theorem parseDeadline_rejects_count_beyond_int :
    (0 : Int) < 100000000000000000000 ∧
    IsDecimalText "100000000000000000000" 100000000000000000000 ∧
    parseDeadline 0 "100000000000000000000" = .error .invalidFormat :=
  ⟨by decide, isDecimalText_toString 100000000000000000000, rfl⟩

/-- C13, amended. `parseDeadline` accepts exactly an absolute calendar date or a positive
day count within the range of `int`.  For every valid date it returns that date on the
text YYYY-MM-DD.  For every decimal text of an integer `d` with
`0 < d ≤ 9223372036854775807` (in particular the text `toString d`) it returns what
`AddDate(0, 0, d)` makes of `now`: this is `now` plus `d` days, that is `86400 * d`
seconds later, whenever `now` and that later time are times the library can hold (seconds
since year 1 within `int64`); beyond that the sum wraps around, and for
`d = 9223372036854775807` the result is one day before `now`.  A decimal text of an
integer `d ≤ 0` or above the range of `int` is rejected, and every input that is accepted
is of one of the two accepted forms, so every other text is rejected. -/
theorem parseDeadline_accepts (now : Int) :
    (∀ y m d : Nat, ValidDate y m d →
      parseDeadline now (dateText y m d) = .ok (time.unixDate y m d)) ∧
    (∀ (s : String) (d : Int), IsDecimalText s d → 0 < d → d ≤ maxInt →
      parseDeadline now s = .ok (time.AddDate now d)) ∧
    (∀ (s : String) (d : Int), IsDecimalText s d → 0 < d →
      time.Representable now → time.Representable (now + 86400 * d) →
      parseDeadline now s = .ok (now + 86400 * d)) ∧
    (∀ d : Nat, 0 < d → time.Representable now →
      time.Representable (now + 86400 * (d : Int)) →
      parseDeadline now (toString d) = .ok (now + 86400 * (d : Int))) ∧
    (time.Representable now → time.Representable (now - 86400) →
      parseDeadline now "9223372036854775807" = .ok (now - 86400)) ∧
    (∀ (s : String) (d : Int), IsDecimalText s d → d ≤ 0 ∨ maxInt < d →
      parseDeadline now s = .error .invalidFormat) ∧
    (∀ (s : String) (t : Int), parseDeadline now s = .ok t →
      (∃ y m d : Nat, ValidDate y m d ∧ s = dateText y m d ∧ t = time.unixDate y m d) ∨
      (∃ d : Int, IsDecimalText s d ∧ 0 < d ∧ d ≤ maxInt ∧ t = time.AddDate now d)) := by
  have hcount : ∀ (s : String) (d : Int), IsDecimalText s d → 0 < d → d ≤ maxInt →
      parseDeadline now s = .ok (time.AddDate now d) := by
    intro s d hs hpos hmax
    have hmin : minInt ≤ d := by
      unfold minInt
      omega
    simp [parseDeadline, parseDate_decimalText s d hs, atoi_of_text s d hs, hmin, hmax, hpos]
  have hdays : ∀ (s : String) (d : Int), IsDecimalText s d → 0 < d →
      time.Representable now → time.Representable (now + 86400 * d) →
      parseDeadline now s = .ok (now + 86400 * d) := by
    intro s d hs hpos hnow hlater
    have hmax : d ≤ maxInt := by
      have h1 := hnow.1
      have h2 := hlater.2
      unfold minInt at h1
      unfold maxInt at h2 ⊢
      omega
    rw [hcount s d hs hpos hmax, addDate_in_range now d]
    · have h1 := hlater.1
      have h2 : now + 86400 * d + time.unixToInternal
          = now + time.unixToInternal + 86400 * d := by ring
      rw [h2] at h1
      exact h1
    · have h1 := hlater.2
      have h2 : now + 86400 * d + time.unixToInternal
          = now + time.unixToInternal + 86400 * d := by ring
      rw [h2] at h1
      exact h1
  refine ⟨?_, hcount, hdays, ?_, ?_, ?_, ?_⟩
  · intro y m d hv
    simp [parseDeadline, parseDate_dateText y m d hv]
  · intro d hpos hnow hlater
    exact hdays (toString d) d (isDecimalText_toString d) (by exact_mod_cast hpos) hnow hlater
  · intro hnow hearlier
    have htext : IsDecimalText "9223372036854775807" maxInt :=
      isDecimalText_toString 9223372036854775807
    rw [hcount "9223372036854775807" maxInt htext (by decide) (le_refl _),
      addDate_maxInt now]
    · have h1 := hearlier.1
      have h2 : now - 86400 + time.unixToInternal = now + time.unixToInternal - 86400 := by
        ring
      rw [h2] at h1
      exact h1
    · have h1 := hearlier.2
      have h2 : now - 86400 + time.unixToInternal = now + time.unixToInternal - 86400 := by
        ring
      rw [h2] at h1
      exact h1
  · intro s d hs hbad
    simp only [parseDeadline, parseDate_decimalText s d hs, atoi_of_text s d hs]
    by_cases hr : minInt ≤ d ∧ d ≤ maxInt
    · have hle : ¬ d > 0 := by
        rcases hbad with h | h
        · omega
        · omega
      simp [hr, hle]
    · simp [hr]
  · intro s t hok
    unfold parseDeadline at hok
    cases hp : time.parseDate s with
    | some r =>
      obtain ⟨y, m, d⟩ := r
      rw [hp] at hok
      simp only [Except.ok.injEq] at hok
      have h := parseDate_some s y m d hp
      exact Or.inl ⟨y, m, d, h.1, h.2, hok.symm⟩
    | none =>
      rw [hp] at hok
      simp only at hok
      cases ha : strconv.Atoi s with
      | none =>
        rw [ha] at hok
        cases hok
      | some days =>
        rw [ha] at hok
        simp only at hok
        split at hok
        · rename_i hpos
          simp only [Except.ok.injEq] at hok
          have h := atoi_some s days ha
          exact Or.inr ⟨days, h.1, hpos, h.2.2, hok.symm⟩
        · cases hok

/-- Witness of the amended C13, at the time 1793491200 (1 November 2026): the text
`2099-01-01` gives that date, `7` gives seven days later, `9223372036854775807` gives one
day earlier, and `0`, `-3` and `abc` are rejected. -/
theorem parseDeadline_accepts_witness :
    parseDeadline 1793491200 "2099-01-01" = .ok 4070908800 ∧
    parseDeadline 1793491200 "7" = .ok (1793491200 + 86400 * 7) ∧
    parseDeadline 1793491200 "9223372036854775807" = .ok (1793491200 - 86400) ∧
    parseDeadline 1793491200 "0" = .error .invalidFormat ∧
    parseDeadline 1793491200 "-3" = .error .invalidFormat ∧
    parseDeadline 1793491200 "abc" = .error .invalidFormat :=
  have h := parseDeadline_accepts 1793491200
  ⟨h.1 2099 1 1 (by unfold ValidDate; decide),
    h.2.2.2.1 7 (by decide) (by unfold time.Representable; decide)
      (by unfold time.Representable; decide),
    h.2.2.2.2.1 (by unfold time.Representable; decide)
      (by unfold time.Representable; decide),
    h.2.2.2.2.2.1 "0" 0 (isDecimalText_toString 0) (Or.inl (le_refl 0)), rfl, rfl⟩

end Deadline

/-! ## C14: the dialog that creates a goal -/

section Dialog

/-- The lookup of a user leaves the goals table as it was. -/
theorem service_getOrCreateUser_goals (r : Repository) (tgID : Int) (username : String) :
    (Service.GetOrCreateUser r tgID username).2.db.goals = r.db.goals :=
  getOrCreateUser_goals r tgID username

/-- A user with a row in the table is looked up without a write when no database call
fails. -/
theorem service_getOrCreateUser_registered (db : DB) (tgID : Int) (username : String)
    (u : User) (hu : db.users.find? (fun u => u.tgID = tgID) = some u) :
    Service.GetOrCreateUser ⟨db, []⟩ tgID username = (.ok u, ⟨db, []⟩) := by
  simp [Service.GetOrCreateUser, Repository.GetOrCreateUser, Repository.tick, hu]

/-- C14. Let `state` be the dialog state of the sender of `message`.
Invalid input: at step `awaiting_deadline` with a text that `parseDeadline` rejects, and
at step `awaiting_bet` with a text that is not a number or is a number `≤ 0`, the map of
dialog states and the store are exactly as before, whatever the script of store failures.
At step `awaiting_bet` with a stake `> 0` that is greater than the balance of the user the
lookup returns, the sender's state and every other state are as before and no goal is
created; for a user with a row in the table and no failing database call that balance is
the stored one and the store is as before.  Valid input: at steps `awaiting_title` and
`awaiting_description` every text, and at step `awaiting_deadline` every text that
`parseDeadline` accepts, is stored into that one field of the sender's state, the step
becomes `awaiting_description`, `awaiting_deadline`, `awaiting_bet` in that order, every
other field and every other user's state is kept, and no goal is created.  Outside
validation, when the lookup of the user at step `awaiting_bet` fails with a store error,
the handler removes the sender's dialog state; every other state is kept and no goal is
created. -/
theorem handleStateInput_invalid_or_advance (now : Int)
    (h : BotHandler) (message : Message) (state : UserState) (user : Option User)
    (hstate : h.userStates message.fromID = some state) :
    (state.step = "awaiting_deadline" →
      (∀ t, parseDeadline now message.text ≠ .ok t) →
      ∃ h1, handleStateInput now h message state user = some h1 ∧
        h1.userStates = h.userStates ∧ h1.userStates message.fromID = some state ∧
        h1.service = h.service) ∧
    (state.step = "awaiting_bet" →
      (∀ bet, strconv.Atoi message.text = some bet → bet ≤ 0) →
      ∃ h1, handleStateInput now h message state user = some h1 ∧
        h1.userStates = h.userStates ∧ h1.userStates message.fromID = some state ∧
        h1.service = h.service) ∧
    (state.step = "awaiting_bet" → ∀ (bet : Int) (freshUser : User),
      strconv.Atoi message.text = some bet → 0 < bet →
      (Service.GetOrCreateUser h.service message.fromID message.fromUserName).1
        = .ok freshUser →
      bet > freshUser.balance →
      ∃ h1, handleStateInput now h message state user = some h1 ∧
        h1.userStates = h.userStates ∧ h1.userStates message.fromID = some state ∧
        h1.service.db.goals = h.service.db.goals) ∧
    (state.step = "awaiting_bet" → ∀ (bet : Int) (u : User),
      strconv.Atoi message.text = some bet → 0 < bet →
      h.service.faults = [] →
      h.service.db.users.find? (fun u => u.tgID = message.fromID) = some u →
      bet > u.balance →
      ∃ h1, handleStateInput now h message state user = some h1 ∧
        h1.userStates = h.userStates ∧ h1.userStates message.fromID = some state ∧
        h1.service = h.service) ∧
    (state.step = "awaiting_bet" → ∀ (bet : Int) (e : Error),
      strconv.Atoi message.text = some bet → 0 < bet →
      (Service.GetOrCreateUser h.service message.fromID message.fromUserName).1
        = .error e →
      ∃ h1, handleStateInput now h message state user = some h1 ∧
        h1.userStates message.fromID = none ∧
        (∀ k, k ≠ message.fromID → h1.userStates k = h.userStates k) ∧
        h1.service.db.goals = h.service.db.goals) ∧
    (state.step = "awaiting_title" →
      ∃ h1, handleStateInput now h message state user = some h1 ∧
        h1.userStates message.fromID
          = some { state with title := message.text, step := "awaiting_description" } ∧
        (∀ k, k ≠ message.fromID → h1.userStates k = h.userStates k) ∧
        h1.service = h.service) ∧
    (state.step = "awaiting_description" →
      ∃ h1, handleStateInput now h message state user = some h1 ∧
        h1.userStates message.fromID
          = some { state with description := message.text, step := "awaiting_deadline" } ∧
        (∀ k, k ≠ message.fromID → h1.userStates k = h.userStates k) ∧
        h1.service = h.service) ∧
    (state.step = "awaiting_deadline" → ∀ t : Int,
      parseDeadline now message.text = .ok t →
      ∃ h1, handleStateInput now h message state user = some h1 ∧
        h1.userStates message.fromID
          = some { state with deadline := t, step := "awaiting_bet" } ∧
        (∀ k, k ≠ message.fromID → h1.userStates k = h.userStates k) ∧
        h1.service.db.goals = h.service.db.goals) := by
  have hbig : state.step = "awaiting_bet" → ∀ (bet : Int) (freshUser : User),
      strconv.Atoi message.text = some bet → 0 < bet →
      (Service.GetOrCreateUser h.service message.fromID message.fromUserName).1
        = .ok freshUser →
      bet > freshUser.balance →
      handleStateInput now h message state user
        = some (({ h with service :=
            (Service.GetOrCreateUser h.service message.fromID message.fromUserName).2 }).send
              (.insufficient freshUser.balance)) := by
    intro hstep bet freshUser hatoi hpos hlook hgt
    unfold handleStateInput
    rcases hq : Service.GetOrCreateUser h.service message.fromID message.fromUserName
      with ⟨res, r1⟩
    rw [hq] at hlook
    simp only at hlook
    subst hlook
    simp [hstep, hatoi, not_le.mpr hpos, hgt]
  refine ⟨?_, ?_, ?_, ?_, ?_, ?_, ?_, ?_⟩
  · intro hstep hbad
    refine ⟨h.send .invalidDeadline, ?_, rfl, hstate, rfl⟩
    unfold handleStateInput
    cases hp : parseDeadline now message.text with
    | ok t => exact absurd hp (hbad t)
    | error e => simp [hstep]
  · intro hstep hbad
    refine ⟨h.send .invalidBet, ?_, rfl, hstate, rfl⟩
    unfold handleStateInput
    cases ha : strconv.Atoi message.text with
    | none => simp [hstep]
    | some bet => simp [hstep, hbad bet ha]
  · intro hstep bet freshUser hatoi hpos hlook hgt
    refine ⟨_, hbig hstep bet freshUser hatoi hpos hlook hgt, rfl, hstate, ?_⟩
    exact service_getOrCreateUser_goals h.service message.fromID message.fromUserName
  · intro hstep bet u hatoi hpos hfaults hu hgt
    have hserv : h.service = ⟨h.service.db, []⟩ := by
      rw [← hfaults]
    have hq := service_getOrCreateUser_registered h.service.db message.fromID
      message.fromUserName u hu
    rw [← hserv] at hq
    have hlook : (Service.GetOrCreateUser h.service message.fromID message.fromUserName).1
        = .ok u := by rw [hq]
    refine ⟨_, hbig hstep bet u hatoi hpos hlook hgt, rfl, hstate, ?_⟩
    simp only [BotHandler.send, hq]
  · intro hstep bet e hatoi hpos hlook
    have hg := service_getOrCreateUser_goals h.service message.fromID message.fromUserName
    rcases hq : Service.GetOrCreateUser h.service message.fromID message.fromUserName
      with ⟨res, r1⟩
    rw [hq] at hlook hg
    simp only at hlook hg
    subst hlook
    refine ⟨(({ h with service := r1 }).send (.userError e)).deleteState message.fromID,
      ?_, ?_, ?_, hg⟩
    · unfold handleStateInput
      simp [hstep, hatoi, not_le.mpr hpos, hq]
    · simp [BotHandler.deleteState]
    · intro k hk
      simp [BotHandler.deleteState, BotHandler.send, hk]
  · intro hstep
    refine ⟨(h.setState message.fromID
        { state with title := message.text, step := "awaiting_description" }).send
          .askDescription, ?_, ?_, ?_, ?_⟩
    · unfold handleStateInput
      rw [if_pos hstep]
    · simp [BotHandler.setState, BotHandler.send]
    · intro k hk
      simp [BotHandler.setState, BotHandler.send, hk]
    · rfl
  · intro hstep
    refine ⟨(h.setState message.fromID
        { state with description := message.text, step := "awaiting_deadline" }).send
          .askDeadline, ?_, ?_, ?_, ?_⟩
    · unfold handleStateInput
      simp [hstep]
    · simp [BotHandler.setState, BotHandler.send]
    · intro k hk
      simp [BotHandler.setState, BotHandler.send, hk]
    · rfl
  · intro hstep t hp
    have hg := service_getOrCreateUser_goals h.service message.fromID message.fromUserName
    rcases hq : Service.GetOrCreateUser h.service message.fromID message.fromUserName
      with ⟨res, r1⟩
    rw [hq] at hg
    simp only at hg
    cases res with
    | error e =>
      refine ⟨({ (h.setState message.fromID
          { state with deadline := t, step := "awaiting_bet" }) with service := r1 }).send
            (.askBet none), ?_, ?_, ?_, hg⟩
      · unfold handleStateInput
        simp [hstep, hp, BotHandler.setState, hq]
      · simp [BotHandler.setState, BotHandler.send]
      · intro k hk
        simp [BotHandler.setState, BotHandler.send, hk]
    | ok freshUser =>
      refine ⟨({ (h.setState message.fromID
          { state with deadline := t, step := "awaiting_bet" }) with service := r1 }).send
            (.askBet (some freshUser.balance)), ?_, ?_, ?_, hg⟩
      · unfold handleStateInput
        simp [hstep, hp, BotHandler.setState, hq]
      · simp [BotHandler.setState, BotHandler.send]
      · intro k hk
        simp [BotHandler.setState, BotHandler.send, hk]

/-- Witness of C14 on the sample database, whose owner has balance 100: at
step `awaiting_deadline` the text `abc`, at step `awaiting_bet` the texts `0` and `1000`
leave the owner's dialog state and the store as they were; at step `awaiting_title` the
text `swim` is stored as the title and the step becomes `awaiting_description`. -/
theorem handleStateInput_invalid_or_advance_witness :
    (sampleHandler [] (sampleState "awaiting_deadline")).userStates 1001
      = some (sampleState "awaiting_deadline") ∧
    (∃ h1, handleStateInput 1000
        (sampleHandler [] (sampleState "awaiting_deadline")) (sampleMessage "abc")
        (sampleState "awaiting_deadline") none = some h1 ∧
      h1.userStates = (sampleHandler [] (sampleState "awaiting_deadline")).userStates ∧
      h1.userStates 1001 = some (sampleState "awaiting_deadline") ∧
      h1.service = (sampleHandler [] (sampleState "awaiting_deadline")).service) ∧
    (∃ h1, handleStateInput 1000
        (sampleHandler [] (sampleState "awaiting_bet")) (sampleMessage "0")
        (sampleState "awaiting_bet") none = some h1 ∧
      h1.userStates = (sampleHandler [] (sampleState "awaiting_bet")).userStates ∧
      h1.userStates 1001 = some (sampleState "awaiting_bet") ∧
      h1.service = (sampleHandler [] (sampleState "awaiting_bet")).service) ∧
    (∃ h1, handleStateInput 1000
        (sampleHandler [] (sampleState "awaiting_bet")) (sampleMessage "1000")
        (sampleState "awaiting_bet") none = some h1 ∧
      h1.userStates = (sampleHandler [] (sampleState "awaiting_bet")).userStates ∧
      h1.userStates 1001 = some (sampleState "awaiting_bet") ∧
      h1.service = (sampleHandler [] (sampleState "awaiting_bet")).service) ∧
    (∃ h1, handleStateInput 1000
        (sampleHandler [] (sampleState "awaiting_title")) (sampleMessage "swim")
        (sampleState "awaiting_title") none = some h1 ∧
      h1.userStates 1001
        = some { sampleState "awaiting_title" with
            title := "swim", step := "awaiting_description" } ∧
      (∀ k, k ≠ 1001 →
        h1.userStates k = (sampleHandler [] (sampleState "awaiting_title")).userStates k) ∧
      h1.service = (sampleHandler [] (sampleState "awaiting_title")).service) :=
  ⟨rfl,
    (handleStateInput_invalid_or_advance 1000
      (sampleHandler [] (sampleState "awaiting_deadline")) (sampleMessage "abc")
      (sampleState "awaiting_deadline") none rfl).1 rfl
      (fun t ht => by
        have herr : parseDeadline 1000 (sampleMessage "abc").text
            = .error .invalidFormat := rfl
        rw [herr] at ht
        cases ht),
    (handleStateInput_invalid_or_advance 1000
      (sampleHandler [] (sampleState "awaiting_bet")) (sampleMessage "0")
      (sampleState "awaiting_bet") none rfl).2.1 rfl
      (fun bet hb => by
        have hzero : strconv.Atoi (sampleMessage "0").text = some 0 := by decide
        rw [hzero] at hb
        cases hb
        exact le_refl 0),
    (handleStateInput_invalid_or_advance 1000
      (sampleHandler [] (sampleState "awaiting_bet")) (sampleMessage "1000")
      (sampleState "awaiting_bet") none rfl).2.2.2.1 rfl 1000 (mkUser 1 100)
      (by decide) (by decide) rfl (by decide) (by decide),
    (handleStateInput_invalid_or_advance 1000
      (sampleHandler [] (sampleState "awaiting_title")) (sampleMessage "swim")
      (sampleState "awaiting_title") none rfl).2.2.2.2.2.1 rfl⟩

end Dialog

end GoalsBot
